import Mathlib

/-!
# bank-service: ledger, card payments and credit schedules

A shallow embedding of `internal/models`, `internal/repository` and
`internal/service` of the bank-service repository, and the properties of the
ledger and of the credit schedule proved on it.

* Money is `float64` in the source (`Account.Balance`, `Transaction.Amount`,
  `Credit.Amount`, ...).  It is modelled by `F64`, IEEE-754 binary64 with
  round-to-nearest-even, every operation rounded on its own (what the Go
  compiler emits on amd64).  "Balance plus amount" in a statement is the
  float64 sum the code computes.
* The PostgreSQL store is the explicit state `Store`; a unit of work
  (`*sql.Tx`) is a working copy of the store that replaces the committed store
  on `Commit` and is dropped on `Rollback`.  Operations run one at a time.
* Every store call can fail; which calls fail is given by `Faults`.
* The clock (`time.Now()`) and the key rate of the rate service are arguments.
  The bookkeeping timestamps `CreatedAt` and `UpdatedAt` and the mails sent
  after a commit are left out.
-/

namespace BankService

/-! ## float64 -/

/-- A float64 value: `finite s m e` is `(-1)^s * m * 2^e`. -/
inductive F64 where
  | finite (sign : Bool) (mant : Nat) (exp : Int)
  | inf (sign : Bool)
  | nan
  deriving DecidableEq, Repr

namespace F64

/-- The number of binary digits of `n`, by at most `fuel` halvings. -/
def bitLenAux : Nat → Nat → Nat
  | 0, _ => 0
  | fuel + 1, n => if n = 0 then 0 else bitLenAux fuel (n / 2) + 1

/-- The number of binary digits of `n`: `2 ^ (bitLen n - 1) ≤ n < 2 ^ bitLen n`
for `0 < n`. -/
def bitLen (n : Nat) : Nat := bitLenAux n n

/-- Round the exact value `(-1)^s * m * 2^e` to the nearest binary64 value,
ties to even: 53 significant bits, least exponent `-1074`, overflow beyond
exponent `971` gives an infinity. -/
def round (s : Bool) (m : Nat) (e : Int) : F64 :=
  if m = 0 then finite s 0 (-1074) else
  let t : Int := max (e + (bitLen m : Int) - 53) (-1074)
  if t ≤ e then
    if 971 < t then inf s else finite s (m * 2 ^ (e - t).toNat) t
  else
    let sh := (t - e).toNat
    let q := m / 2 ^ sh
    let r := m % 2 ^ sh
    let q1 := if 2 ^ (sh - 1) < r ∨ (r = 2 ^ (sh - 1) ∧ q % 2 = 1) then q + 1 else q
    if q1 = 2 ^ 53 then (if 971 < t + 1 then inf s else finite s (2 ^ 52) (t + 1))
    else if 971 < t then inf s else finite s q1 t

/-- The signed integer `(-1)^s * m * 2^k`. -/
def scaled (s : Bool) (m : Nat) (k : Nat) : Int :=
  if s then -((m * 2 ^ k : Nat) : Int) else ((m * 2 ^ k : Nat) : Int)

/-- Positive zero, the Go constant `0`. -/
def zero : F64 := finite false 0 (-1074)

/-- The float64 nearest to a natural number (Go constants such as `100`, `12`). -/
def ofNat (n : Nat) : F64 := round false n 0

/-- Go `-x`. -/
def neg : F64 → F64
  | finite s m e => finite (!s) m e
  | inf s => inf (!s)
  | nan => nan

/-- Go `x + y`: the exact sum of two finite values, rounded; an exact zero sum
is `-0` only when both operands are `-0`. -/
def add : F64 → F64 → F64
  | nan, _ => nan
  | _, nan => nan
  | inf s, inf t => if s = t then inf s else nan
  | inf s, finite _ _ _ => inf s
  | finite _ _ _, inf t => inf t
  | finite s1 m1 e1, finite s2 m2 e2 =>
    let e := min e1 e2
    let c := scaled s1 m1 (e1 - e).toNat + scaled s2 m2 (e2 - e).toNat
    if c = 0 then finite (s1 && s2) 0 (-1074) else round (decide (c < 0)) c.natAbs e

/-- Go `x - y`. -/
def sub (x y : F64) : F64 := add x (neg y)

/-- Go `x * y`: the exact product, rounded. -/
def mul : F64 → F64 → F64
  | nan, _ => nan
  | _, nan => nan
  | inf s, inf t => inf (xor s t)
  | inf s, finite t m _ => if m = 0 then nan else inf (xor s t)
  | finite s m _, inf t => if m = 0 then nan else inf (xor s t)
  | finite s1 m1 e1, finite s2 m2 e2 => round (xor s1 s2) (m1 * m2) (e1 + e2)

/-- Go `x / y`: the quotient is computed to more than 55 bits with a sticky
bit for the remainder, then rounded. -/
def div : F64 → F64 → F64
  | nan, _ => nan
  | _, nan => nan
  | inf _, inf _ => nan
  | inf s, finite t _ _ => inf (xor s t)
  | finite s _ _, inf t => finite (xor s t) 0 (-1074)
  | finite s1 m1 e1, finite s2 m2 e2 =>
    if m2 = 0 then (if m1 = 0 then nan else inf (xor s1 s2))
    else
      let k := bitLen m2 + 55
      let q := (m1 * 2 ^ k) / m2
      let r := (m1 * 2 ^ k) % m2
      round (xor s1 s2) (2 * q + (if r = 0 then 0 else 1)) (e1 - e2 - (k : Int) - 1)

/-- Go `x < y`. -/
def lt : F64 → F64 → Bool
  | nan, _ => false
  | _, nan => false
  | inf s, inf t => s && !t
  | inf s, finite _ _ _ => s
  | finite _ _ _, inf t => !t
  | finite s1 m1 e1, finite s2 m2 e2 =>
    decide (scaled s1 m1 (e1 - min e1 e2).toNat < scaled s2 m2 (e2 - min e1 e2).toNat)

/-- Go `x <= y`. -/
def le : F64 → F64 → Bool
  | nan, _ => false
  | _, nan => false
  | inf s, inf t => s || !t
  | inf s, finite _ _ _ => s
  | finite _ _ _, inf t => !t
  | finite s1 m1 e1, finite s2 m2 e2 =>
    decide (scaled s1 m1 (e1 - min e1 e2).toNat ≤ scaled s2 m2 (e2 - min e1 e2).toNat)

/-- Go `x >= y`. -/
def ge (x y : F64) : Bool := le y x

/-- Go `x == y`: by value, so `0 == -0`, and false on NaN. -/
def eq (x y : F64) : Bool := le x y && le y x

/-- Neither an infinity nor NaN. -/
def isFinite : F64 → Bool
  | finite _ _ _ => true
  | _ => false

/-- The rational number a finite float64 stands for (`0` for infinities and NaN). -/
def toRat : F64 → ℚ
  | finite s m e => (if s then -1 else 1) * (m : ℚ) * (2 : ℚ) ^ e
  | _ => 0

/-- The representation lies in the binary64 format: at most 53 significant bits
and an exponent between `-1074` and `971`. -/
def wf : F64 → Bool
  | finite _ m e => decide (m < 2 ^ 53) && decide (-1074 ≤ e) && decide (e ≤ 971)
  | _ => true

end F64

/-! ## time.Time

Only calendar arithmetic is needed (`AddDate`); a time is a proleptic
Gregorian date and the nanosecond of the day, in one fixed location. -/

/-- A `time.Time`: calendar date and nanosecond of the day. -/
structure Time where
  year : Int
  month : Int
  day : Int
  nanos : Nat
  deriving DecidableEq, Repr

namespace Time

/-- Days from 1970-01-01 to the first day of `month` of `year`, plus `day - 1`;
`month` may lie outside `1..12` and `day` outside the month (Go `time.Date`
normalisation). -/
def daysFromCivil (year month day : Int) : Int :=
  let y0 := year + (month - 1) / 12
  let m := (month - 1) % 12 + 1
  let y := if m ≤ 2 then y0 - 1 else y0
  let era := y / 400
  let yoe := y - era * 400
  let doy := (153 * (if 2 < m then m - 3 else m + 9) + 2) / 5
  era * 146097 + (yoe * 365 + yoe / 4 - yoe / 100 + doy) - 719468 + (day - 1)

/-- The calendar date of a day number. -/
def civilFromDays (z0 : Int) : Int × Int × Int :=
  let z := z0 + 719468
  let era := z / 146097
  let doe := z - era * 146097
  let yoe := (doe - doe / 1460 + doe / 36524 - doe / 146096) / 365
  let doy := doe - (365 * yoe + yoe / 4 - yoe / 100)
  let mp := (5 * doy + 2) / 153
  let d := doy - (153 * mp + 2) / 5 + 1
  let m := if mp < 10 then mp + 3 else mp - 9
  (if m ≤ 2 then yoe + era * 400 + 1 else yoe + era * 400, m, d)

/-- Go `t.AddDate(years, months, days)`. -/
def AddDate (t : Time) (years months days : Int) : Time :=
  let c := civilFromDays (daysFromCivil (t.year + years) (t.month + months) (t.day + days))
  { year := c.1, month := c.2.1, day := c.2.2, nanos := t.nanos }

/-- Go `t.Before(u)`. -/
def Before (t u : Time) : Bool :=
  decide (daysFromCivil t.year t.month t.day < daysFromCivil u.year u.month u.day) ||
    (decide (daysFromCivil t.year t.month t.day = daysFromCivil u.year u.month u.day) &&
      decide (t.nanos < u.nanos))

end Time

/-! ## internal/models -/

/-- The sentinel errors of packages `models` and `service`; `noRows` is the
error a repository builds when a row is not found, `db` any other error
returned by the store (`database/sql`). `models.ErrInsufficientFunds`
and `service.ErrInsufficientFunds` are distinct values with the same text. -/
inductive Err where
  | modelsErrInsufficientFunds
  | modelsErrInvalidAmount
  | ErrAccountNotFound
  | ErrInsufficientFunds
  | ErrInvalidAmount
  | ErrAccountAccessDenied
  | ErrSameAccount
  | ErrCardNotFound
  | ErrCardAccessDenied
  | ErrCardInactive
  | ErrCreditNotFound
  | ErrCreditAccessDenied
  | ErrInvalidCreditAmount
  | ErrInvalidCreditTerm
  | noRows
  | db
  deriving DecidableEq, Repr

/-- The string type `models.AccountType` with its constants. -/
inductive AccountType where
  | AccountTypeDebit
  | AccountTypeCredit
  deriving DecidableEq, Repr

/-- The struct `models.Account` (without `CreatedAt`, `UpdatedAt`). -/
structure Account where
  ID : Int
  UserID : Int
  Number : String
  Typ : AccountType
  Balance : F64
  deriving DecidableEq, Repr

/-- The struct `models.DepositRequest`. -/
structure DepositRequest where
  AccountID : Int
  Amount : F64
  deriving DecidableEq, Repr

/-- The struct `models.WithdrawRequest`. -/
structure WithdrawRequest where
  AccountID : Int
  Amount : F64
  deriving DecidableEq, Repr

/-- The struct `models.TransferRequest`. -/
structure TransferRequest where
  FromAccountID : Int
  ToAccountID : Int
  Amount : F64
  deriving DecidableEq, Repr

/-- The method `(*Account).CanWithdraw`; `none` is the nil error. -/
def Account.CanWithdraw (a : Account) (amount : F64) : Option Err :=
  if F64.le amount F64.zero then some Err.modelsErrInvalidAmount
  else if F64.lt a.Balance amount then some Err.modelsErrInsufficientFunds
  else none

/-- The string type `models.TransactionType` with its constants. -/
inductive TransactionType where
  | TransactionTypeDeposit
  | TransactionTypeWithdraw
  | TransactionTypeTransfer
  | TransactionTypePayment
  | TransactionTypeCredit
  deriving DecidableEq, Repr

/-- The struct `models.Transaction` (without `CreatedAt`). -/
structure Transaction where
  ID : Int
  UserID : Int
  FromAccountID : Option Int
  ToAccountID : Option Int
  Typ : TransactionType
  Amount : F64
  Description : String
  Status : String
  TransactionDate : Time
  deriving DecidableEq, Repr

/-- The string type `models.CardType` with its constants. -/
inductive CardType where
  | CardTypeVirtual
  | CardTypePhysical
  deriving DecidableEq, Repr

/-- The struct `models.Card` (without `CreatedAt`, `UpdatedAt`). -/
structure Card where
  ID : Int
  AccountID : Int
  UserID : Int
  Number : String
  NumberHMAC : String
  ExpiryDate : String
  ExpiryHMAC : String
  CVV : String
  Typ : CardType
  IsActive : Bool
  deriving DecidableEq, Repr

/-- The struct `models.CardPaymentRequest`. -/
structure CardPaymentRequest where
  CardID : Int
  Amount : F64
  deriving DecidableEq, Repr

/-- The string type `models.CreditStatus` with its constants. -/
inductive CreditStatus where
  | CreditStatusActive
  | CreditStatusClosed
  | CreditStatusOverdue
  | CreditStatusApproved
  | CreditStatusRejected
  | CreditStatusPending
  deriving DecidableEq, Repr

/-- The struct `models.Credit` (without `CreatedAt`, `UpdatedAt`). -/
structure Credit where
  ID : Int
  UserID : Int
  AccountID : Int
  Amount : F64
  Term : Int
  InterestRate : F64
  MonthlyPayment : F64
  TotalPayment : F64
  Status : CreditStatus
  StartDate : Time
  EndDate : Time
  deriving DecidableEq, Repr

/-- The string type `models.PaymentStatus` with its constants. -/
inductive PaymentStatus where
  | PaymentStatusPending
  | PaymentStatusPaid
  | PaymentStatusOverdue
  | PaymentStatusCanceled
  deriving DecidableEq, Repr

/-- The struct `models.PaymentSchedule` (without `CreatedAt`, `UpdatedAt`). -/
structure PaymentSchedule where
  ID : Int
  CreditID : Int
  PaymentDate : Time
  Amount : F64
  Principal : F64
  Interest : F64
  RemainingDebt : F64
  Status : PaymentStatus
  PaidDate : Option Time
  deriving DecidableEq, Repr

/-! ## internal/repository

The store and its units of work. -/

/-- The tables of the database. `seq` is the last id handed out by the
`RETURNING id` of an insert. -/
structure Store where
  accounts : List Account
  transactions : List Transaction
  cards : List Card
  credits : List Credit
  payments : List PaymentSchedule
  seq : Int
  deriving DecidableEq, Repr

/-- Which store calls of one service operation fail: the `k`-th read
(`GetByID`, ...), `BeginTx`, the `k`-th statement inside the unit of work,
`Commit`. -/
structure Faults where
  read : Nat → Bool
  beginTx : Bool
  write : Nat → Bool
  commit : Bool

/-- No store call fails. -/
def Faults.none : Faults :=
  { read := fun _ => false, beginTx := false, write := fun _ => false, commit := false }

/-- A unit of work (`*sql.Tx`): the committed store it was begun on and the
store as changed by the statements executed inside it so far. -/
structure Tx where
  committed : Store
  work : Store
  deriving DecidableEq, Repr

/-- The method `AccountRepository.BeginTx`. -/
def BeginTx (f : Faults) (s : Store) : Except Err Tx :=
  if f.beginTx then .error Err.db else .ok { committed := s, work := s }

/-- The method `tx.Commit()`: the work becomes the committed store. -/
def Tx.Commit (f : Faults) (tx : Tx) : Except Err Store :=
  if f.commit then .error Err.db else .ok tx.work

/-- The method `tx.Rollback()` on a unit of work that was not committed: the
committed store is as it was. -/
def Tx.Rollback (tx : Tx) : Store := tx.committed

namespace AccountRepository

/-- The query `SELECT ... FROM accounts WHERE id = $1`; `k` is the index of this
read among the reads of the operation. -/
def GetByID (f : Faults) (k : Nat) (s : Store) (id : Int) : Except Err Account :=
  if f.read k then .error Err.db
  else match s.accounts.find? (fun a => decide (a.ID = id)) with
    | some a => .ok a
    | none => .error Err.noRows

/-- The statement `UPDATE accounts SET balance = $1 WHERE id = $2` on a table. -/
def setBalance (accounts : List Account) (id : Int) (balance : F64) : List Account :=
  accounts.map (fun a => if a.ID = id then { a with Balance := balance } else a)

/-- The method `UpdateBalanceTx`; `k` is the index of this statement in the
unit of work. -/
def UpdateBalanceTx (f : Faults) (k : Nat) (tx : Tx) (id : Int) (balance : F64) :
    Except Err Tx :=
  if f.write k then .error Err.db
  else .ok { tx with work := { tx.work with accounts := setBalance tx.work.accounts id balance } }

end AccountRepository

namespace TransactionRepository

/-- The method `CreateTx`: `INSERT INTO transactions ... RETURNING id`. -/
def CreateTx (f : Faults) (k : Nat) (tx : Tx) (transaction : Transaction) :
    Except Err (Int × Tx) :=
  if f.write k then .error Err.db
  else .ok (tx.work.seq + 1,
    { tx with work := { tx.work with
        transactions := tx.work.transactions ++ [{ transaction with ID := tx.work.seq + 1 }],
        seq := tx.work.seq + 1 } })

end TransactionRepository

namespace CardRepository

/-- The query `SELECT ... FROM cards WHERE id = $1`. -/
def GetByID (f : Faults) (k : Nat) (s : Store) (id : Int) : Except Err Card :=
  if f.read k then .error Err.db
  else match s.cards.find? (fun c => decide (c.ID = id)) with
    | some c => .ok c
    | none => .error Err.noRows

end CardRepository

/-! ## internal/service

Every operation returns the Go `error` (`none` is nil) and the committed store
after the call. -/

namespace accountService

/-- The method `accountService.Deposit`. -/
def Deposit (f : Faults) (s : Store) (now : Time) (request : DepositRequest) (userID : Int) :
    Option Err × Store :=
  if F64.le request.Amount F64.zero then (some Err.ErrInvalidAmount, s) else
  match AccountRepository.GetByID f 0 s request.AccountID with
  | .error _ => (some Err.ErrAccountNotFound, s)
  | .ok account =>
    if account.UserID ≠ userID then (some Err.ErrAccountAccessDenied, s) else
    match BeginTx f s with
    | .error e => (some e, s)
    | .ok tx =>
      match AccountRepository.UpdateBalanceTx f 0 tx account.ID
          (F64.add account.Balance request.Amount) with
      | .error e => (some e, tx.Rollback)
      | .ok tx1 =>
        match TransactionRepository.CreateTx f 1 tx1
            { ID := 0, UserID := userID, FromAccountID := none, ToAccountID := some account.ID,
              Typ := TransactionType.TransactionTypeDeposit, Amount := request.Amount,
              Description := "Deposit to account", Status := "COMPLETED",
              TransactionDate := now } with
        | .error e => (some e, tx1.Rollback)
        | .ok (_, tx2) =>
          match tx2.Commit f with
          | .error e => (some e, tx2.Rollback)
          | .ok s1 => (none, s1)

/-- The method `accountService.Withdraw`. -/
def Withdraw (f : Faults) (s : Store) (now : Time) (request : WithdrawRequest) (userID : Int) :
    Option Err × Store :=
  if F64.le request.Amount F64.zero then (some Err.ErrInvalidAmount, s) else
  match AccountRepository.GetByID f 0 s request.AccountID with
  | .error _ => (some Err.ErrAccountNotFound, s)
  | .ok account =>
    if account.UserID ≠ userID then (some Err.ErrAccountAccessDenied, s) else
    match account.CanWithdraw request.Amount with
    | some e => (some e, s)
    | none =>
      match BeginTx f s with
      | .error e => (some e, s)
      | .ok tx =>
        match AccountRepository.UpdateBalanceTx f 0 tx account.ID
            (F64.sub account.Balance request.Amount) with
        | .error e => (some e, tx.Rollback)
        | .ok tx1 =>
          match TransactionRepository.CreateTx f 1 tx1
              { ID := 0, UserID := userID, FromAccountID := some account.ID, ToAccountID := none,
                Typ := TransactionType.TransactionTypeWithdraw, Amount := request.Amount,
                Description := "Withdrawal from account", Status := "COMPLETED",
                TransactionDate := now } with
          | .error e => (some e, tx1.Rollback)
          | .ok (_, tx2) =>
            match tx2.Commit f with
            | .error e => (some e, tx2.Rollback)
            | .ok s1 => (none, s1)

/-- The method `accountService.Transfer`. -/
def Transfer (f : Faults) (s : Store) (now : Time) (request : TransferRequest) (userID : Int) :
    Option Err × Store :=
  if F64.le request.Amount F64.zero then (some Err.ErrInvalidAmount, s) else
  if request.FromAccountID = request.ToAccountID then (some Err.ErrSameAccount, s) else
  match AccountRepository.GetByID f 0 s request.FromAccountID with
  | .error _ => (some Err.ErrAccountNotFound, s)
  | .ok fromAccount =>
    if fromAccount.UserID ≠ userID then (some Err.ErrAccountAccessDenied, s) else
    match AccountRepository.GetByID f 1 s request.ToAccountID with
    | .error _ => (some Err.ErrAccountNotFound, s)
    | .ok toAccount =>
      match fromAccount.CanWithdraw request.Amount with
      | some e => (some e, s)
      | none =>
        match BeginTx f s with
        | .error e => (some e, s)
        | .ok tx =>
          match AccountRepository.UpdateBalanceTx f 0 tx fromAccount.ID
              (F64.sub fromAccount.Balance request.Amount) with
          | .error e => (some e, tx.Rollback)
          | .ok tx1 =>
            match AccountRepository.UpdateBalanceTx f 1 tx1 toAccount.ID
                (F64.add toAccount.Balance request.Amount) with
            | .error e => (some e, tx1.Rollback)
            | .ok tx2 =>
              match TransactionRepository.CreateTx f 2 tx2
                  { ID := 0, UserID := userID, FromAccountID := some fromAccount.ID,
                    ToAccountID := some toAccount.ID,
                    Typ := TransactionType.TransactionTypeTransfer, Amount := request.Amount,
                    Description := "Transfer from account " ++ fromAccount.Number ++
                      " to account " ++ toAccount.Number,
                    Status := "COMPLETED", TransactionDate := now } with
              | .error e => (some e, tx2.Rollback)
              | .ok (_, tx3) =>
                match tx3.Commit f with
                | .error e => (some e, tx3.Rollback)
                | .ok s1 => (none, s1)

end accountService

namespace cardService

/-- The method `cardService.ProcessPayment`. -/
def ProcessPayment (f : Faults) (s : Store) (request : CardPaymentRequest) (userID : Int) :
    Option Err × Store :=
  match CardRepository.GetByID f 0 s request.CardID with
  | .error _ => (some Err.ErrCardNotFound, s)
  | .ok card =>
    if card.UserID ≠ userID then (some Err.ErrCardAccessDenied, s) else
    if !card.IsActive then (some Err.ErrCardInactive, s) else
    match AccountRepository.GetByID f 1 s card.AccountID with
    | .error _ => (some Err.ErrAccountNotFound, s)
    | .ok account =>
      match account.CanWithdraw request.Amount with
      | some e => (some e, s)
      | none =>
        match BeginTx f s with
        | .error e => (some e, s)
        | .ok tx =>
          match AccountRepository.UpdateBalanceTx f 0 tx account.ID
              (F64.sub account.Balance request.Amount) with
          | .error e => (some e, tx.Rollback)
          | .ok tx1 =>
            match tx1.Commit f with
            | .error e => (some e, tx1.Rollback)
            | .ok s1 => (none, s1)

end cardService

/-- The balance of the first account with the given id, as `GetByID` reads it. -/
def Store.balance (s : Store) (id : Int) : Option F64 :=
  (s.accounts.find? (fun a => decide (a.ID = id))).map (fun a => a.Balance)


/-! ## The specification's reading of `Transfer` -/

/-- The ordered checks of `Transfer` as the specification lists them: the
first failing check decides the error, `none` means the transfer proceeds.
The owner of the destination account is not looked at. -/
def transferChecks (s : Store) (request : TransferRequest) (userID : Int) : Option Err :=
  if F64.le request.Amount F64.zero then some Err.ErrInvalidAmount
  else if request.FromAccountID = request.ToAccountID then some Err.ErrSameAccount
  else match s.accounts.find? (fun a => decide (a.ID = request.FromAccountID)) with
    | none => some Err.ErrAccountNotFound
    | some src =>
      if src.UserID ≠ userID then some Err.ErrAccountAccessDenied
      else match s.accounts.find? (fun a => decide (a.ID = request.ToAccountID)) with
        | none => some Err.ErrAccountNotFound
        | some _ =>
          if F64.lt src.Balance request.Amount then some Err.modelsErrInsufficientFunds
          else none

/-! ## Example data -/

/-- The float64 `0.1`. -/
def f0_1 : F64 := F64.finite false 7205759403792794 (-56)

/-- The float64 `0.2`. -/
def f0_2 : F64 := F64.finite false 7205759403792794 (-55)

/-- The instant 2024-01-31 00:00. -/
def time0 : Time := { year := 2024, month := 1, day := 31, nanos := 0 }

/-- The float64 `0.9`. -/
def f0_9 : F64 := F64.finite false 8106479329266893 (-53)

/-- Accounts 1, 3, 4, 5 of user 1 (balances 100, 0.1, 0.9, 0.2) and accounts 2, 6
of user 2 (balances 50, 1); card 1 of user 1 on account 1 is active, card 2 is
not. -/
def store0 : Store :=
  { accounts :=
      [{ ID := 1, UserID := 1, Number := "4000000000000001",
         Typ := AccountType.AccountTypeDebit, Balance := F64.ofNat 100 },
       { ID := 2, UserID := 2, Number := "4000000000000002",
         Typ := AccountType.AccountTypeDebit, Balance := F64.ofNat 50 },
       { ID := 3, UserID := 1, Number := "4000000000000003",
         Typ := AccountType.AccountTypeDebit, Balance := f0_1 },
       { ID := 4, UserID := 1, Number := "4000000000000004",
         Typ := AccountType.AccountTypeDebit, Balance := f0_9 },
       { ID := 5, UserID := 1, Number := "4000000000000005",
         Typ := AccountType.AccountTypeDebit, Balance := f0_2 },
       { ID := 6, UserID := 2, Number := "4000000000000006",
         Typ := AccountType.AccountTypeDebit, Balance := F64.ofNat 1 }],
    transactions := [],
    cards :=
      [{ ID := 1, AccountID := 1, UserID := 1, Number := "", NumberHMAC := "", ExpiryDate := "",
         ExpiryHMAC := "", CVV := "", Typ := CardType.CardTypeVirtual, IsActive := true },
       { ID := 2, AccountID := 1, UserID := 1, Number := "", NumberHMAC := "", ExpiryDate := "",
         ExpiryHMAC := "", CVV := "", Typ := CardType.CardTypeVirtual, IsActive := false }],
    credits := [],
    payments := [],
    seq := 0 }

/-- The first account of `store0`. -/
def account1 : Account :=
  { ID := 1, UserID := 1, Number := "4000000000000001",
    Typ := AccountType.AccountTypeDebit, Balance := F64.ofNat 100 }

/-- The second account of `store0`. -/
def account2 : Account :=
  { ID := 2, UserID := 2, Number := "4000000000000002",
    Typ := AccountType.AccountTypeDebit, Balance := F64.ofNat 50 }

/-- The first card of `store0`. -/
def card1 : Card :=
  { ID := 1, AccountID := 1, UserID := 1, Number := "", NumberHMAC := "", ExpiryDate := "",
    ExpiryHMAC := "", CVV := "", Typ := CardType.CardTypeVirtual, IsActive := true }

/-- The store call `Commit` fails, every other call succeeds. -/
def commitFails : Faults :=
  { read := fun _ => false, beginTx := false, write := fun _ => false, commit := true }


/-! ## math.Pow, for the call in `Apply`

`Apply` calls `math.Pow(1+monthlyInterestRate, float64(application.Term))`. The
exponent is a whole number; for such an exponent Go's `math.Pow` (the portable
implementation of package `math`) multiplies by repeated squaring on the
`Frexp` parts of the base and scales by `Ldexp`. -/

namespace F64

/-- Go `math.Frexp`: `x = frac * 2^exp` with `1/2 <= |frac| < 1`; zero, the
infinities and NaN are returned as they are, with exponent 0. -/
def Frexp : F64 → F64 × Int
  | finite s m e => if m = 0 then (finite s m e, 0)
      else (round s m (-(bitLen m : Int)), e + (bitLen m : Int))
  | x => (x, 0)

/-- Go `math.Ldexp`: `frac * 2^exp`, rounded once when the result is subnormal. -/
def Ldexp : F64 → Int → F64
  | finite s m e, k => round s m (e + k)
  | x, _ => x

/-- The loop `for i := int64(yi); i != 0; i >>= 1` of Go `math.Pow`: the
answer is `a1 * 2^ae`, the current power of the base `x1 * 2^xe`. -/
def powLoop : Nat → Nat → F64 → Int → F64 → Int → F64 × Int
  | 0, _, a1, ae, _, _ => (a1, ae)
  | fuel + 1, i, a1, ae, x1, xe =>
    if i = 0 then (a1, ae)
    else if xe < -4096 ∨ 4096 < xe then (a1, ae + xe)
    else
      let a2 := if i % 2 = 1 then mul a1 x1 else a1
      let ae2 := if i % 2 = 1 then ae + xe else ae
      let x2 := mul x1 x1
      if lt x2 (finite false 1 (-1)) then powLoop fuel (i / 2) a2 ae2 (add x2 x2) (2 * xe - 1)
      else powLoop fuel (i / 2) a2 ae2 x2 (2 * xe)

/-- Whether bit 0 of a whole number is set (`isOddInt`). -/
def isOdd (n : Nat) : Bool := decide (n % 2 = 1)

/-- Go `math.Pow(x, float64(n))` for a whole number `n` below `2^53`. -/
def powNat (x : F64) (n : Nat) : F64 :=
  if n = 0 ∨ eq x (ofNat 1) then ofNat 1
  else if n = 1 then x
  else match x with
  | nan => nan
  | inf s => if s then (if isOdd n then inf true else inf false) else inf false
  | finite s m e =>
    if m = 0 then (if s && isOdd n then finite s m e else zero)
    else
      let fr := Frexp (finite s m e)
      let r := powLoop (bitLen n) n (ofNat 1) 0 fr.1 fr.2
      Ldexp r.1 r.2

/-- Whether `z` is exactly the sum of `x` and `y`, all three finite: the test
is made on the integers obtained by scaling to the least exponent. -/
def isSum : F64 → F64 → F64 → Bool
  | finite sz mz ez, finite sx mx ex, finite sy my ey =>
    decide (scaled sz mz (ez - min ez (min ex ey)).toNat =
      scaled sx mx (ex - min ez (min ex ey)).toNat +
        scaled sy my (ey - min ez (min ex ey)).toNat)
  | _, _, _ => false

/-- Go `float64(n)` for an `int`. -/
def ofInt (n : Int) : F64 := round (decide (n < 0)) n.natAbs 0

end F64

/-- Go `t.After(u)` is false: `t <= u`. -/
def Time.le (t u : Time) : Bool := !(Time.Before u t)

/-! ## Credits -/

/-- The struct `models.CreditApplication`. -/
structure CreditApplication where
  AccountID : Int
  Amount : F64
  Term : Int
  deriving DecidableEq, Repr

/-- The struct `models.CreditResponse`. -/
structure CreditResponse where
  ID : Int
  Amount : F64
  Term : Int
  InterestRate : F64
  MonthlyPayment : F64
  TotalPayment : F64
  Status : CreditStatus
  StartDate : Time
  EndDate : Time
  deriving DecidableEq, Repr

/-- The function `models.ToCreditResponse`. -/
def ToCreditResponse (credit : Credit) : CreditResponse :=
  { ID := credit.ID, Amount := credit.Amount, Term := credit.Term,
    InterestRate := credit.InterestRate, MonthlyPayment := credit.MonthlyPayment,
    TotalPayment := credit.TotalPayment, Status := credit.Status,
    StartDate := credit.StartDate, EndDate := credit.EndDate }

namespace CreditRepository

/-- The query `SELECT ... FROM credits WHERE id = $1`. -/
def GetByID (f : Faults) (k : Nat) (s : Store) (id : Int) : Except Err Credit :=
  if f.read k then .error Err.db
  else match s.credits.find? (fun c => decide (c.ID = id)) with
    | some c => .ok c
    | none => .error Err.noRows

/-- The method `CreateTx`: `INSERT INTO credits ... RETURNING id`. -/
def CreateTx (f : Faults) (k : Nat) (tx : Tx) (credit : Credit) : Except Err (Int × Tx) :=
  if f.write k then .error Err.db
  else .ok (tx.work.seq + 1,
    { tx with work := { tx.work with
        credits := tx.work.credits ++ [{ credit with ID := tx.work.seq + 1 }],
        seq := tx.work.seq + 1 } })

/-- The method `UpdateStatus`: `UPDATE credits SET status = $1 WHERE id = $2`,
outside any unit of work. -/
def UpdateStatus (f : Faults) (k : Nat) (s : Store) (id : Int) (status : CreditStatus) :
    Except Err Store :=
  if f.write k then .error Err.db
  else .ok { s with
    credits := s.credits.map (fun c => if c.ID = id then { c with Status := status } else c) }

end CreditRepository

namespace PaymentRepository

/-- The rows a batch insert adds: the payments with the ids `seq + 1`,
`seq + 2`, ... -/
def withIDs : Int → List PaymentSchedule → List PaymentSchedule
  | _, [] => []
  | seq, p :: ps => { p with ID := seq + 1 } :: withIDs (seq + 1) ps

/-- The method `CreateBatchTx`: one `INSERT INTO payment_schedules` for each
payment; the fault stands for a failure of any of them. -/
def CreateBatchTx (f : Faults) (k : Nat) (tx : Tx) (payments : List PaymentSchedule) :
    Except Err Tx :=
  if f.write k then .error Err.db
  else .ok { tx with work := { tx.work with
      payments := tx.work.payments ++ withIDs tx.work.seq payments,
      seq := tx.work.seq + payments.length } }

/-- The method `GetPendingPayments`: `WHERE status = 'PENDING' AND payment_date <=
NOW() ORDER BY payment_date` (rows with equal dates in table order). -/
def GetPendingPayments (f : Faults) (k : Nat) (s : Store) (now : Time) :
    Except Err (List PaymentSchedule) :=
  if f.read k then .error Err.db
  else .ok ((s.payments.filter (fun p =>
      decide (p.Status = PaymentStatus.PaymentStatusPending) && Time.le p.PaymentDate now)).insertionSort
        (fun p q => Time.le p.PaymentDate q.PaymentDate = true))

/-- The method `UpdateStatus`: `UPDATE payment_schedules SET status = $1
[, paid_date = $2] WHERE id = $3`, outside any unit of work; the paid date is
set only when one is given. -/
def UpdateStatus (f : Faults) (k : Nat) (s : Store) (id : Int) (status : PaymentStatus)
    (paidDate : Option Time) : Except Err Store :=
  if f.write k then .error Err.db
  else .ok { s with
    payments := s.payments.map (fun p =>
      if p.ID = id then
        { p with Status := status,
                 PaidDate := match paidDate with
                   | some d => some d
                   | none => p.PaidDate }
      else p) }

end PaymentRepository

namespace creditService

/-- The loop of `generatePaymentSchedule`: `n` iterations are left, `i` is the
loop counter and `remainingDebt` the debt before this iteration. -/
def scheduleLoop (credit : Credit) (monthlyInterestRate : F64) :
    Nat → Nat → F64 → List PaymentSchedule
  | 0, _, _ => []
  | n + 1, i, remainingDebt =>
    let interestPayment := F64.mul remainingDebt monthlyInterestRate
    let principalPayment := F64.sub credit.MonthlyPayment interestPayment
    let remainingDebt1 := F64.sub remainingDebt principalPayment
    let isLast := decide ((i : Int) = credit.Term - 1)
    let principalPayment1 :=
      if isLast then F64.add principalPayment remainingDebt1 else principalPayment
    let remainingDebt2 := if isLast then F64.zero else remainingDebt1
    { ID := 0, CreditID := credit.ID,
      PaymentDate := credit.StartDate.AddDate 0 ((i : Int) + 1) 0,
      Amount := credit.MonthlyPayment, Principal := principalPayment1,
      Interest := interestPayment, RemainingDebt := remainingDebt2,
      Status := PaymentStatus.PaymentStatusPending, PaidDate := none } ::
      scheduleLoop credit monthlyInterestRate n (i + 1) remainingDebt2

/-- The method `creditService.generatePaymentSchedule` (its error is always nil). -/
def generatePaymentSchedule (credit : Credit) : List PaymentSchedule :=
  scheduleLoop credit (F64.div (F64.div credit.InterestRate (F64.ofNat 100)) (F64.ofNat 12))
    credit.Term.toNat 0 credit.Amount

/-- Whether the debt recurrence of `scheduleLoop` runs without rounding: every
subtraction `remainingDebt - principalPayment` is exact and so is the addition
`principalPayment + remainingDebt` of the final installment. -/
def loopExact (credit : Credit) (monthlyInterestRate : F64) : Nat → Nat → F64 → Bool
  | 0, _, _ => true
  | n + 1, i, remainingDebt =>
    let principalPayment :=
      F64.sub credit.MonthlyPayment (F64.mul remainingDebt monthlyInterestRate)
    let remainingDebt1 := F64.sub remainingDebt principalPayment
    let isLast := decide ((i : Int) = credit.Term - 1)
    F64.isSum remainingDebt remainingDebt1 principalPayment &&
      (if isLast then
        F64.isSum (F64.add principalPayment remainingDebt1) principalPayment remainingDebt1
       else true) &&
      loopExact credit monthlyInterestRate n (i + 1)
        (if isLast then F64.zero else remainingDebt1)

/-- Whether `generatePaymentSchedule` computes the debts of a credit without
rounding. -/
def roundingFree (credit : Credit) : Bool :=
  loopExact credit (F64.div (F64.div credit.InterestRate (F64.ofNat 100)) (F64.ofNat 12))
    credit.Term.toNat 0 credit.Amount

/-- The float64 `7.5`, the key rate used when the rate service fails. -/
def defaultKeyRate : F64 := F64.finite false 15 (-1)

/-- The pricing of `Apply`: interest rate, monthly payment and total payment
for an amount, a term and the result of `GetKeyRate`. -/
def price (amount : F64) (term : Int) (keyRate : Except Err F64) : F64 × F64 × F64 :=
  let keyRate1 := match keyRate with
    | .ok r => r
    | .error _ => defaultKeyRate
  let interestRate := F64.add keyRate1 (F64.ofNat 5)
  let monthlyInterestRate := F64.div (F64.div interestRate (F64.ofNat 100)) (F64.ofNat 12)
  let pw := F64.powNat (F64.add (F64.ofNat 1) monthlyInterestRate) term.toNat
  let monthlyPayment := F64.div (F64.mul (F64.mul amount monthlyInterestRate) pw)
    (F64.sub pw (F64.ofNat 1))
  (interestRate, monthlyPayment, F64.mul monthlyPayment (F64.ofInt term))

/-- The credit record `Apply` builds before it is stored (`ID` is 0). -/
def newCredit (userID : Int) (application : CreditApplication) (keyRate : Except Err F64)
    (now : Time) : Credit :=
  let p := price application.Amount application.Term keyRate
  { ID := 0, UserID := userID, AccountID := application.AccountID,
    Amount := application.Amount, Term := application.Term, InterestRate := p.1,
    MonthlyPayment := p.2.1, TotalPayment := p.2.2,
    Status := CreditStatus.CreditStatusApproved, StartDate := now,
    EndDate := now.AddDate 0 application.Term 0 }

/-- The method `creditService.Apply`; `keyRate` is the result of
`cbrService.GetKeyRate()`. The approval mail is sent after the commit and is
not part of the state. -/
def Apply (f : Faults) (s : Store) (now : Time) (keyRate : Except Err F64) (userID : Int)
    (application : CreditApplication) : Except Err CreditResponse × Store :=
  if F64.le application.Amount F64.zero then (.error Err.ErrInvalidCreditAmount, s) else
  if application.Term < 3 ∨ application.Term > 60 then (.error Err.ErrInvalidCreditTerm, s) else
  match AccountRepository.GetByID f 0 s application.AccountID with
  | .error _ => (.error Err.ErrAccountNotFound, s)
  | .ok account =>
    if account.UserID ≠ userID then (.error Err.ErrAccountAccessDenied, s) else
    match BeginTx f s with
    | .error e => (.error e, s)
    | .ok tx =>
      match CreditRepository.CreateTx f 0 tx (newCredit userID application keyRate now) with
      | .error e => (.error e, tx.Rollback)
      | .ok (creditID, tx1) =>
        match PaymentRepository.CreateBatchTx f 1 tx1
            (generatePaymentSchedule
              { newCredit userID application keyRate now with ID := creditID }) with
        | .error e => (.error e, tx1.Rollback)
        | .ok tx2 =>
          match AccountRepository.UpdateBalanceTx f 2 tx2 account.ID
              (F64.add account.Balance application.Amount) with
          | .error e => (.error e, tx2.Rollback)
          | .ok tx3 =>
            match tx3.Commit f with
            | .error e => (.error e, tx3.Rollback)
            | .ok s1 =>
              (.ok (ToCreditResponse
                { newCredit userID application keyRate now with ID := creditID }), s1)

/-- One iteration of the loop of `ProcessPendingPayments`, for one due
installment; every error is skipped (`continue`) or ignored. -/
def processOne (f : Faults) (s : Store) (now : Time) (payment : PaymentSchedule) : Store :=
  match CreditRepository.GetByID f 0 s payment.CreditID with
  | .error _ => s
  | .ok credit =>
    match AccountRepository.GetByID f 1 s credit.AccountID with
    | .error _ => s
    | .ok account =>
      match BeginTx f s with
      | .error _ => s
      | .ok tx =>
        if F64.ge account.Balance payment.Amount then
          match AccountRepository.UpdateBalanceTx f 0 tx account.ID
              (F64.sub account.Balance payment.Amount) with
          | .error _ => tx.Rollback
          | .ok tx1 =>
            match tx1.Commit f with
            | .error _ => tx1.committed
            | .ok s1 =>
              match PaymentRepository.UpdateStatus f 1 s1 payment.ID
                  PaymentStatus.PaymentStatusPaid (some now) with
              | .error _ => s1
              | .ok s2 => s2
        else
          match PaymentRepository.UpdateStatus f 1 tx.Rollback payment.ID
              PaymentStatus.PaymentStatusOverdue none with
          | .error _ =>
            (match CreditRepository.UpdateStatus f 2 tx.Rollback credit.ID
                CreditStatus.CreditStatusOverdue with
              | .error _ => tx.Rollback
              | .ok s3 => s3)
          | .ok s2 =>
            (match CreditRepository.UpdateStatus f 2 s2 credit.ID
                CreditStatus.CreditStatusOverdue with
              | .error _ => s2
              | .ok s3 => s3)

/-- The loop of `ProcessPendingPayments` over the due installments; `fs k` gives
the failing store calls of the `k`-th iteration. -/
def sweepLoop (fs : Nat → Faults) (now : Time) : Nat → Store → List PaymentSchedule → Store
  | _, s, [] => s
  | k, s, payment :: rest => sweepLoop fs now (k + 1) (processOne (fs k) s now payment) rest

/-- The method `creditService.ProcessPendingPayments`; `f0.read 0` is the
failure of `GetPendingPayments`. -/
def ProcessPendingPayments (f0 : Faults) (fs : Nat → Faults) (s : Store) (now : Time) :
    Option Err × Store :=
  match PaymentRepository.GetPendingPayments f0 0 s now with
  | .error e => (some e, s)
  | .ok pendingPayments => (none, sweepLoop fs now 0 s pendingPayments)

end creditService

/-! ## Example credits -/

/-- The application of user 1 for 1000 over 4 months on account 1. -/
def application0 : CreditApplication :=
  { AccountID := 1, Amount := F64.ofNat 1000, Term := 4 }

/-- The credit `Apply` stores for `application0` when the rate service fails
(key rate 7.5, interest rate 12.5), with the id 1 it gets in `store0`. -/
def credit0 : Credit :=
  { creditService.newCredit 1 application0 (.error Err.db) time0 with ID := 1 }

/-- A credit of 8 over 3 months at a monthly rate of one half (600 per cent a
year) with monthly payment 5: every float64 operation of its schedule is exact. -/
def credit1 : Credit :=
  { ID := 2, UserID := 1, AccountID := 1, Amount := F64.ofNat 8, Term := 3,
    InterestRate := F64.ofNat 600, MonthlyPayment := F64.ofNat 5,
    TotalPayment := F64.ofNat 15, Status := CreditStatus.CreditStatusApproved,
    StartDate := time0, EndDate := time0.AddDate 0 3 0 }

/-! ## The amortization recurrence -/

/-- The local `monthlyInterestRate` of `generatePaymentSchedule`:
`credit.InterestRate / 100 / 12`. -/
def creditService.monthlyInterestRate (credit : Credit) : F64 :=
  F64.div (F64.div credit.InterestRate (F64.ofNat 100)) (F64.ofNat 12)

/-- The debt before the installment with index `k` (counted from 0) of a
schedule: the start debt for the first installment, else the remaining debt
recorded in the installment before it. -/
def creditService.debtBefore (start : F64) (schedule : List PaymentSchedule) : Nat → F64
  | 0 => start
  | j + 1 =>
    match schedule[j]? with
    | some p => p.RemainingDebt
    | none => F64.zero

/-- A credit of 1000 over 3 months at 12.5 per cent a year whose monthly
payment is 1000. -/
def credit2 : Credit :=
  { ID := 3, UserID := 1, AccountID := 1, Amount := F64.ofNat 1000, Term := 3,
    InterestRate := F64.finite false 25 (-1), MonthlyPayment := F64.ofNat 1000,
    TotalPayment := F64.ofNat 3000, Status := CreditStatus.CreditStatusApproved,
    StartDate := time0, EndDate := time0.AddDate 0 3 0 }

/-! ## Pricing -/

/-- The closed-form annuity payment in the words of the specification, in exact
rational arithmetic: `principal * r * (1 + r)^n / ((1 + r)^n - 1)`. -/
def annuityPayment (principal r : ℚ) (n : Nat) : ℚ :=
  principal * r * (1 + r) ^ n / ((1 + r) ^ n - 1)

/-- The application of user 1 for 100000 over 12 months on account 1. -/
def application1 : CreditApplication :=
  { AccountID := 1, Amount := F64.ofNat 100000, Term := 12 }

/-! ## Example stores for the payment sweep -/

/-- The store after user 1 was granted `application0` on `store0` while the rate
service failed: account 1 holds 1100, `credit0` is stored and has four
installments of about 256.54, due on 2024-03-02, 2024-03-31, 2024-05-01 and
2024-05-31. -/
def store1 : Store :=
  (creditService.Apply Faults.none store0 time0 (.error Err.db) 1 application0).2

/-- The first installment of `credit0` as stored in `store1`. -/
def installment1 : PaymentSchedule :=
  { ID := 2, CreditID := 1,
    PaymentDate := { year := 2024, month := 3, day := 2, nanos := 0 },
    Amount := F64.finite false 4513172392027380 (-44),
    Principal := F64.finite false 8659840908129427 (-45),
    Interest := F64.finite false 5864062014805333 (-49),
    RemainingDebt := F64.finite false 6631132795175643 (-43),
    Status := PaymentStatus.PaymentStatusPending, PaidDate := none }

/-- The store `store1` after user 1 has withdrawn 1000 from account 1, which
then holds 100. -/
def store2 : Store :=
  (accountService.Withdraw Faults.none store1 time0
    { AccountID := 1, Amount := F64.ofNat 1000 } 1).2

/-- A sweep time at which only the first installment of `credit0` is due. -/
def time1 : Time := { year := 2024, month := 3, day := 15, nanos := 0 }

/-- A later sweep time, before the second installment is due. -/
def time2 : Time := { year := 2024, month := 3, day := 16, nanos := 0 }

/-- The statement with index 1 of an operation fails; in an iteration of the
sweep this is `PaymentRepository.UpdateStatus`. -/
def statusUpdateFails : Faults :=
  { read := fun _ => false, beginTx := false, write := fun k => decide (k = 1),
    commit := false }

/-- The store `store1` after the sweep of `time1` in whose first iteration the
update of the installment's status fails. -/
def store3 : Store :=
  (creditService.ProcessPendingPayments Faults.none (fun _ => statusUpdateFails) store1 time1).2

/-! ## Failures inside a sweep -/

/-- Whether the iteration of the sweep for one installment is abandoned
(`continue`) because a store call fails: resolving the credit, resolving the
account, beginning the unit of work or, when the balance suffices, updating
the balance or committing. -/
def creditService.iterationFails (f : Faults) (s : Store) (payment : PaymentSchedule) : Bool :=
  match CreditRepository.GetByID f 0 s payment.CreditID with
  | .error _ => true
  | .ok credit =>
    match AccountRepository.GetByID f 1 s credit.AccountID with
    | .error _ => true
    | .ok account =>
      f.beginTx || (F64.ge account.Balance payment.Amount && (f.write 0 || f.commit))

/-- The faults of a sweep from which the iteration with index `n` is left out. -/
def creditService.skipIteration (fs : Nat → Faults) (n : Nat) : Nat → Faults :=
  fun k => if k < n then fs k else fs (k + 1)

/-- In the first iteration of a sweep the commit fails. -/
def firstCommitFails : Nat → Faults :=
  fun k => if k = 0 then commitFails else Faults.none

/-- A sweep time at which the first two installments of `credit0` are due. -/
def time3 : Time := { year := 2024, month := 4, day := 15, nanos := 0 }

/-! ## Reachable stores -/

/-- One operation of the service on the store. The operations that touch
credits are `Apply` and `ProcessPendingPayments`; `other` stands for every
operation of the service that does not write the table of credits (accounts,
cards, users, analytics and the read-only credit queries). -/
inductive Step : Store → Store → Prop
  | deposit (f : Faults) (s : Store) (now : Time) (request : DepositRequest) (userID : Int) :
      Step s (accountService.Deposit f s now request userID).2
  | withdraw (f : Faults) (s : Store) (now : Time) (request : WithdrawRequest) (userID : Int) :
      Step s (accountService.Withdraw f s now request userID).2
  | transfer (f : Faults) (s : Store) (now : Time) (request : TransferRequest) (userID : Int) :
      Step s (accountService.Transfer f s now request userID).2
  | payment (f : Faults) (s : Store) (request : CardPaymentRequest) (userID : Int) :
      Step s (cardService.ProcessPayment f s request userID).2
  | apply (f : Faults) (s : Store) (now : Time) (keyRate : Except Err F64) (userID : Int)
      (application : CreditApplication) :
      Step s (creditService.Apply f s now keyRate userID application).2
  | sweep (f0 : Faults) (fs : Nat → Faults) (s : Store) (now : Time) :
      Step s (creditService.ProcessPendingPayments f0 fs s now).2
  | other (s s1 : Store) (h : s1.credits = s.credits) : Step s s1

/-- The stores the service can reach from a store without credits. -/
inductive Reachable : Store → Prop
  | init (s : Store) (h : s.credits = []) : Reachable s
  | step (s s1 : Store) (h : Reachable s) (hs : Step s s1) : Reachable s1

/-- The change a single operation may make to a stored credit: none, or its
status becomes OVERDUE. -/
def statusStep (c c1 : Credit) : Prop :=
  c1 = c ∨ c1 = { c with Status := CreditStatus.CreditStatusOverdue }

/-! ## Balance prediction -/

/-- The struct `models.BalancePrediction`. -/
structure BalancePrediction where
  Date : Time
  Balance : F64
  Events : List String
  deriving DecidableEq, Repr

/-- The method `TransactionRepository.GetUserTransactionsByPeriod`:
`WHERE user_id = $1 AND transaction_date BETWEEN $2 AND $3 ORDER BY
transaction_date` (rows with equal dates in table order). -/
def TransactionRepository.GetUserTransactionsByPeriod (f : Faults) (k : Nat) (s : Store)
    (userID : Int) (startDate endDate : Time) : Except Err (List Transaction) :=
  if f.read k then .error Err.db
  else .ok ((s.transactions.filter (fun t =>
      decide (t.UserID = userID) && Time.le startDate t.TransactionDate &&
        Time.le t.TransactionDate endDate)).insertionSort
          (fun t u => Time.le t.TransactionDate u.TransactionDate = true))

namespace accountService

/-- The loop of `PredictBalance` over the transactions of the period: the pair
`(totalIncome, totalExpense)` reached from the given pair. -/
def totals : List Transaction → F64 → F64 → F64 × F64
  | [], totalIncome, totalExpense => (totalIncome, totalExpense)
  | tx :: rest, totalIncome, totalExpense =>
    if tx.Typ = TransactionType.TransactionTypeDeposit then
      totals rest (F64.add totalIncome tx.Amount) totalExpense
    else if tx.Typ = TransactionType.TransactionTypeWithdraw ∨
        tx.Typ = TransactionType.TransactionTypePayment then
      totals rest totalIncome (F64.add totalExpense tx.Amount)
    else totals rest totalIncome totalExpense

/-- The projection loop of `PredictBalance`: `n` iterations are left, `i` is the
loop counter and `currentBalance` the balance before this iteration. -/
def predictLoop (now : Time) (dailyChange : F64) : Nat → Nat → F64 → List BalancePrediction
  | 0, _, _ => []
  | n + 1, i, currentBalance =>
    { Date := now.AddDate 0 0 ((i : Int) + 1), Balance := F64.add currentBalance dailyChange,
      Events := [] } ::
      predictLoop now dailyChange n (i + 1) (F64.add currentBalance dailyChange)

/-- The `dailyChange` of `PredictBalance` for the transactions of the period:
`totalIncome / 30 - totalExpense / 30`. -/
def dailyChange (transactions : List Transaction) : F64 :=
  F64.sub (F64.div (totals transactions F64.zero F64.zero).1 (F64.ofNat 30))
    (F64.div (totals transactions F64.zero F64.zero).2 (F64.ofNat 30))

/-- The method `accountService.PredictBalance`; every `time.Now()` of the call
is the one instant `now`. -/
def PredictBalance (f : Faults) (s : Store) (now : Time) (accountID userID days : Int) :
    Except Err (List BalancePrediction) :=
  match AccountRepository.GetByID f 0 s accountID with
  | .error _ => .error Err.ErrAccountNotFound
  | .ok account =>
    if account.UserID ≠ userID then .error Err.ErrAccountAccessDenied else
    match TransactionRepository.GetUserTransactionsByPeriod f 1 s userID
        (now.AddDate 0 0 (-30)) now with
    | .error e => .error e
    | .ok transactions =>
      .ok (predictLoop now (dailyChange transactions)
        (if days ≤ 0 ∨ days > 365 then 30 else days).toNat 0 account.Balance)

/-- Whether the `n` additions of `predictLoop` from `currentBalance` are all
computed without rounding. -/
def predictExact (dailyChange : F64) : Nat → F64 → Bool
  | 0, _ => true
  | n + 1, currentBalance =>
    F64.isSum (F64.add currentBalance dailyChange) currentBalance dailyChange &&
      predictExact dailyChange n (F64.add currentBalance dailyChange)

end accountService

/-- The store `store0` after user 1 has deposited 10 on account 1, which then
holds 110. -/
def store4 : Store :=
  (accountService.Deposit Faults.none store0 time0 { AccountID := 1, Amount := F64.ofNat 10 } 1).2

/-- The store `store0` after user 1 has deposited 60 on account 1 and withdrawn
30 from it; the account then holds 130. -/
def store5 : Store :=
  (accountService.Withdraw Faults.none
    (accountService.Deposit Faults.none store0 time0
      { AccountID := 1, Amount := F64.ofNat 60 } 1).2
    time0 { AccountID := 1, Amount := F64.ofNat 30 } 1).2

/-! ## Credit queries -/

/-- The struct `models.PaymentScheduleResponse`. -/
structure PaymentScheduleResponse where
  PaymentDate : Time
  Amount : F64
  Principal : F64
  Interest : F64
  RemainingDebt : F64
  Status : PaymentStatus
  PaidDate : Option Time
  deriving DecidableEq, Repr

/-- The function `models.ToPaymentScheduleResponse`. -/
def ToPaymentScheduleResponse (schedule : PaymentSchedule) : PaymentScheduleResponse :=
  { PaymentDate := schedule.PaymentDate, Amount := schedule.Amount,
    Principal := schedule.Principal, Interest := schedule.Interest,
    RemainingDebt := schedule.RemainingDebt, Status := schedule.Status,
    PaidDate := schedule.PaidDate }

/-- The method `PaymentRepository.GetByCreditID`: `WHERE credit_id = $1 ORDER BY
payment_date` (rows with equal dates in table order). -/
def PaymentRepository.GetByCreditID (f : Faults) (k : Nat) (s : Store) (creditID : Int) :
    Except Err (List PaymentSchedule) :=
  if f.read k then .error Err.db
  else .ok ((s.payments.filter (fun p => decide (p.CreditID = creditID))).insertionSort
    (fun p q => Time.le p.PaymentDate q.PaymentDate = true))

/-- The method `creditService.GetByID`; it issues one `SELECT` and no write, so
the store it leaves is the store it found. -/
def creditService.GetByID (f : Faults) (s : Store) (id userID : Int) :
    Except Err CreditResponse × Store :=
  match CreditRepository.GetByID f 0 s id with
  | .error _ => (.error Err.ErrCreditNotFound, s)
  | .ok credit =>
    if credit.UserID ≠ userID then (.error Err.ErrCreditAccessDenied, s)
    else (.ok (ToCreditResponse credit), s)

/-- The method `creditService.GetSchedule`; it issues two `SELECT`s and no
write. -/
def creditService.GetSchedule (f : Faults) (s : Store) (creditID userID : Int) :
    Except Err (List PaymentScheduleResponse) × Store :=
  match CreditRepository.GetByID f 0 s creditID with
  | .error _ => (.error Err.ErrCreditNotFound, s)
  | .ok credit =>
    if credit.UserID ≠ userID then (.error Err.ErrCreditAccessDenied, s) else
    match PaymentRepository.GetByCreditID f 1 s creditID with
    | .error e => (.error e, s)
    | .ok schedules => (.ok (schedules.map ToPaymentScheduleResponse), s)

/-! ## Concurrent requests

`Deposit` and `Withdraw` read the account with a `SELECT` outside the unit of
work and then write the balance computed from that read with
`UPDATE accounts SET balance = $1`. A request therefore takes two steps on the
shared store: the read with the checks, and the unit of work (which the row
lock makes atomic with respect to the unit of work of another request). -/

/-- The checks of `Deposit` with its read of the account, when no store call
fails. -/
def accountService.depositRead (s : Store) (request : DepositRequest) (userID : Int) :
    Except Err Account :=
  if F64.le request.Amount F64.zero then .error Err.ErrInvalidAmount else
  match AccountRepository.GetByID Faults.none 0 s request.AccountID with
  | .error _ => .error Err.ErrAccountNotFound
  | .ok account =>
    if account.UserID ≠ userID then .error Err.ErrAccountAccessDenied else .ok account

/-- The unit of work of `Deposit`, for the account as it was read, on the store
at the time of the unit of work, when no store call fails. -/
def accountService.depositCommit (s : Store) (now : Time) (request : DepositRequest)
    (userID : Int) (account : Account) : Option Err × Store :=
  match BeginTx Faults.none s with
  | .error e => (some e, s)
  | .ok tx =>
    match AccountRepository.UpdateBalanceTx Faults.none 0 tx account.ID
        (F64.add account.Balance request.Amount) with
    | .error e => (some e, tx.Rollback)
    | .ok tx1 =>
      match TransactionRepository.CreateTx Faults.none 1 tx1
          { ID := 0, UserID := userID, FromAccountID := none, ToAccountID := some account.ID,
            Typ := TransactionType.TransactionTypeDeposit, Amount := request.Amount,
            Description := "Deposit to account", Status := "COMPLETED",
            TransactionDate := now } with
      | .error e => (some e, tx1.Rollback)
      | .ok (_, tx2) =>
        match tx2.Commit Faults.none with
        | .error e => (some e, tx2.Rollback)
        | .ok s1 => (none, s1)

/-- The checks of `Withdraw` with its read of the account, when no store call
fails. -/
def accountService.withdrawRead (s : Store) (request : WithdrawRequest) (userID : Int) :
    Except Err Account :=
  if F64.le request.Amount F64.zero then .error Err.ErrInvalidAmount else
  match AccountRepository.GetByID Faults.none 0 s request.AccountID with
  | .error _ => .error Err.ErrAccountNotFound
  | .ok account =>
    if account.UserID ≠ userID then .error Err.ErrAccountAccessDenied else
    match account.CanWithdraw request.Amount with
    | some e => .error e
    | none => .ok account

/-- The unit of work of `Withdraw`, for the account as it was read, on the
store at the time of the unit of work, when no store call fails. -/
def accountService.withdrawCommit (s : Store) (now : Time) (request : WithdrawRequest)
    (userID : Int) (account : Account) : Option Err × Store :=
  match BeginTx Faults.none s with
  | .error e => (some e, s)
  | .ok tx =>
    match AccountRepository.UpdateBalanceTx Faults.none 0 tx account.ID
        (F64.sub account.Balance request.Amount) with
    | .error e => (some e, tx.Rollback)
    | .ok tx1 =>
      match TransactionRepository.CreateTx Faults.none 1 tx1
          { ID := 0, UserID := userID, FromAccountID := some account.ID, ToAccountID := none,
            Typ := TransactionType.TransactionTypeWithdraw, Amount := request.Amount,
            Description := "Withdrawal from account", Status := "COMPLETED",
            TransactionDate := now } with
      | .error e => (some e, tx1.Rollback)
      | .ok (_, tx2) =>
        match tx2.Commit Faults.none with
        | .error e => (some e, tx2.Rollback)
        | .ok s1 => (none, s1)

/-- How far a request has come: not started, account read, or returned. -/
inductive Progress where
  | start
  | hasRead (account : Account)
  | returned (err : Option Err)
  deriving DecidableEq, Repr

/-- The next step of a `Deposit` request on the shared store. -/
def accountService.depositStep (s : Store) (now : Time) (request : DepositRequest)
    (userID : Int) : Progress → Progress × Store
  | .start =>
    match accountService.depositRead s request userID with
    | .error e => (.returned (some e), s)
    | .ok account => (.hasRead account, s)
  | .hasRead account =>
    (.returned (accountService.depositCommit s now request userID account).1,
      (accountService.depositCommit s now request userID account).2)
  | .returned e => (.returned e, s)

/-- The next step of a `Withdraw` request on the shared store. -/
def accountService.withdrawStep (s : Store) (now : Time) (request : WithdrawRequest)
    (userID : Int) : Progress → Progress × Store
  | .start =>
    match accountService.withdrawRead s request userID with
    | .error e => (.returned (some e), s)
    | .ok account => (.hasRead account, s)
  | .hasRead account =>
    (.returned (accountService.withdrawCommit s now request userID account).1,
      (accountService.withdrawCommit s now request userID account).2)
  | .returned e => (.returned e, s)

/-- A `Deposit` and a `Withdraw` request run concurrently: `order` says whose
step comes next (`true` the deposit, `false` the withdrawal). The result is the
progress of the deposit, the progress of the withdrawal and the store. -/
def accountService.interleave (now : Time) (deposit : DepositRequest)
    (withdraw : WithdrawRequest) (userID : Int) :
    List Bool → Progress × Progress × Store → Progress × Progress × Store
  | [], state => state
  | true :: order, (d, w, s) =>
    accountService.interleave now deposit withdraw userID order
      ((accountService.depositStep s now deposit userID d).1, w,
        (accountService.depositStep s now deposit userID d).2)
  | false :: order, (d, w, s) =>
    accountService.interleave now deposit withdraw userID order
      (d, (accountService.withdrawStep s now withdraw userID w).1,
        (accountService.withdrawStep s now withdraw userID w).2)

/-! ## Card numbers

A Go string is the list of its bytes, each a number below 256. -/

/-- The bytes of an ASCII text: the codes of its characters. -/
def ascii (s : String) : List Nat := s.data.map Char.toNat

/-- The byte `fmt.Sprintf("%d", d)` produces for a number `d < 10`. -/
def digitByte (d : Nat) : Nat := 48 + d

/-- Go `int(c - '0')` for a byte `c`: the subtraction of bytes wraps around
modulo 256. -/
def byteDigit (c : Nat) : Nat := (c + 256 - 48) % 256

namespace utils

/-- The loop shared by `ValidateLuhn` and `GenerateCardNumber`, over the bytes
from the last to the first: every second digit, beginning with the second one
visited, is doubled and, when above 9, replaced by `n % 10 + 1`. The sum is a
Go `int`; it cannot overflow for a string that fits in memory. -/
def luhnLoop : List Nat → Bool → Nat → Nat
  | [], _, sum => sum
  | c :: rest, alternate, sum =>
    luhnLoop rest (!alternate)
      (sum + (if alternate then
          (if byteDigit c * 2 > 9 then (byteDigit c * 2) % 10 + 1 else byteDigit c * 2)
        else byteDigit c))

/-- The function `utils.ValidateLuhn`. -/
def ValidateLuhn (cardNumber : List Nat) : Bool :=
  luhnLoop cardNumber.reverse false 0 % 10 == 0

/-- The function `utils.GenerateCardNumber`; `rand i % 10` is the result of the
`i`-th call of `rand.Intn(10)`, and `pfx` is the parameter `prefix`. -/
def GenerateCardNumber (rand : Nat → Nat) (pfx : List Nat) : List Nat :=
  let pfx1 := if pfx = [] then ascii "4" else pfx
  let length : Int := 16 - (pfx1.length : Int)
  let cardNumber := pfx1 ++ (List.range (length - 1).toNat).map (fun i => digitByte (rand i % 10))
  let sum := luhnLoop cardNumber.reverse false 0
  cardNumber ++ [digitByte ((10 - sum % 10) % 10)]

end utils

namespace cardService

/-- The checksum loop of `generateCardNumber`, over the bytes from the last to
the first; `pos` is `len(cardNumber) - i`, so the digits at even `pos` are
doubled and, when above 9, reduced by 9. -/
def luhnLoop : List Nat → Nat → Nat → Nat
  | [], _, sum => sum
  | c :: rest, pos, sum =>
    luhnLoop rest (pos + 1)
      (sum + (if pos % 2 = 0 then
          (if byteDigit c * 2 > 9 then byteDigit c * 2 - 9 else byteDigit c * 2)
        else byteDigit c))

/-- The function `generateCardNumber` of the card service; `rand 0 % 2` is the
result of `rand.Intn(2)` and `rand (i + 1) % 10` the result of the `i`-th call
of `rand.Intn(10)`. -/
def generateCardNumber (rand : Nat → Nat) : List Nat :=
  let cardNumber := (if rand 0 % 2 = 0 then ascii "4" else ascii "5") ++
    (List.range 15).map (fun i => digitByte (rand (i + 1) % 10))
  let sum := luhnLoop cardNumber.reverse 1 0
  if sum % 10 ≠ 0 then
    cardNumber.take (cardNumber.length - 1) ++ [digitByte ((10 - sum % 10) % 10)]
  else cardNumber

end cardService

/-- The function `models.MaskCardNumber`. -/
def MaskCardNumber (number : List Nat) : List Nat :=
  if number.length < 4 then ascii "****"
  else ascii "****" ++ number.drop (number.length - 4)

/-- A random source whose every result is 0. -/
def randZero : Nat → Nat := fun _ => 0

/-- A random source whose results are 0 except for the last of the 16 calls of
`generateCardNumber`, which is 1. -/
def randLastOne : Nat → Nat := fun i => if i = 15 then 1 else 0

/-! ## internal/handler

A handler is modelled from the point where the caller is authenticated and the
request body is decoded; its answer is the HTTP status with the message. -/

namespace Handler

/-- The method `Handler.WithdrawFromAccount`. -/
def WithdrawFromAccount (f : Faults) (s : Store) (now : Time) (input : WithdrawRequest)
    (userID : Int) : (Nat × String) × Store :=
  match accountService.Withdraw f s now input userID with
  | (some err, s1) =>
    (match err with
      | Err.ErrAccountNotFound => (404, "Account not found")
      | Err.ErrAccountAccessDenied => (403, "Access to this account is denied")
      | Err.ErrInvalidAmount => (400, "Amount must be positive")
      | Err.ErrInsufficientFunds => (400, "Insufficient funds")
      | _ => (500, "Failed to withdraw"), s1)
  | (none, s1) => ((200, "Withdrawal successful"), s1)

/-- The method `Handler.TransferFunds`. -/
def TransferFunds (f : Faults) (s : Store) (now : Time) (input : TransferRequest)
    (userID : Int) : (Nat × String) × Store :=
  match accountService.Transfer f s now input userID with
  | (some err, s1) =>
    (match err with
      | Err.ErrAccountNotFound => (404, "Account not found")
      | Err.ErrAccountAccessDenied => (403, "Access to source account is denied")
      | Err.ErrInvalidAmount => (400, "Amount must be positive")
      | Err.ErrInsufficientFunds => (400, "Insufficient funds")
      | Err.ErrSameAccount => (400, "Cannot transfer to the same account")
      | _ => (500, "Failed to transfer"), s1)
  | (none, s1) => ((200, "Transfer successful"), s1)

/-- The method `Handler.ProcessCardPayment`. -/
def ProcessCardPayment (f : Faults) (s : Store) (input : CardPaymentRequest)
    (userID : Int) : (Nat × String) × Store :=
  match cardService.ProcessPayment f s input userID with
  | (some err, s1) =>
    (match err with
      | Err.ErrCardNotFound => (404, "Card not found")
      | Err.ErrCardAccessDenied => (403, "Access to this card is denied")
      | Err.ErrCardInactive => (400, "Card is inactive")
      | Err.ErrInsufficientFunds => (400, "Insufficient funds")
      | _ => (500, "Failed to process payment"), s1)
  | (none, s1) => ((200, "Payment processed successfully"), s1)

end Handler

/-! ## Non-negative balances -/

/-- Every account balance of the store is `>= 0`. -/
def Store.nonneg (s : Store) : Bool :=
  s.accounts.all (fun a => F64.le F64.zero a.Balance)

/-! ## The schedule in exact arithmetic

The pricing of `Apply` and the loop of `generatePaymentSchedule` with every
float64 operation replaced by the exact operation on rational numbers. -/

/-- An installment in exact arithmetic: the amount, principal, interest and
remaining debt of `models.PaymentSchedule`. -/
structure ExactInstallment where
  Amount : ℚ
  Principal : ℚ
  Interest : ℚ
  RemainingDebt : ℚ
  deriving DecidableEq

/-- The monthly payment of `Apply` in exact arithmetic, for the interest rate
`keyRate + 5`: `amount * mr * (1 + mr)^term / ((1 + mr)^term - 1)` with
`mr = interestRate / 100 / 12`. -/
def exactMonthlyPayment (amount interestRate : ℚ) (term : Int) : ℚ :=
  amount * (interestRate / 100 / 12) * (1 + interestRate / 100 / 12) ^ term.toNat /
    ((1 + interestRate / 100 / 12) ^ term.toNat - 1)

/-- The loop of `generatePaymentSchedule` in exact arithmetic: `n` iterations
are left, `i` is the loop counter and `remainingDebt` the debt before this
iteration; with `adjust = false` the adjustment of the final installment is
left out. -/
def exactScheduleLoop (term : Int) (monthlyPayment monthlyInterestRate : ℚ) (adjust : Bool) :
    Nat → Nat → ℚ → List ExactInstallment
  | 0, _, _ => []
  | n + 1, i, remainingDebt =>
    let interestPayment := remainingDebt * monthlyInterestRate
    let principalPayment := monthlyPayment - interestPayment
    let remainingDebt1 := remainingDebt - principalPayment
    let isLast := adjust && decide ((i : Int) = term - 1)
    let principalPayment1 :=
      if isLast then principalPayment + remainingDebt1 else principalPayment
    let remainingDebt2 := if isLast then 0 else remainingDebt1
    { Amount := monthlyPayment, Principal := principalPayment1,
      Interest := interestPayment, RemainingDebt := remainingDebt2 } ::
      exactScheduleLoop term monthlyPayment monthlyInterestRate adjust n (i + 1) remainingDebt2

/-- The function `generatePaymentSchedule` in exact arithmetic, for a credit
with the given amount, interest rate, monthly payment and term. -/
def exactSchedule (amount interestRate monthlyPayment : ℚ) (term : Int) (adjust : Bool) :
    List ExactInstallment :=
  exactScheduleLoop term monthlyPayment (interestRate / 100 / 12) adjust term.toNat 0 amount

/-- The debt after one installment without adjustment:
`remainingDebt - (monthlyPayment - remainingDebt * monthlyInterestRate)`. -/
def exactDebtStep (monthlyPayment monthlyInterestRate remainingDebt : ℚ) : ℚ :=
  remainingDebt - (monthlyPayment - remainingDebt * monthlyInterestRate)

/-! ## Rounding in the schedule -/

/-- Whether two finite values are within a factor of two of each other,
`x <= 2 * y` and `y <= 2 * x`: the test is made on the integers obtained by
scaling to the smaller exponent. -/
def F64.within2 : F64 → F64 → Bool
  | F64.finite s1 m1 e1, F64.finite s2 m2 e2 =>
    decide (F64.scaled s1 m1 (e1 - min e1 e2).toNat ≤
        2 * F64.scaled s2 m2 (e2 - min e1 e2).toNat) &&
      decide (F64.scaled s2 m2 (e2 - min e1 e2).toNat ≤
        2 * F64.scaled s1 m1 (e1 - min e1 e2).toNat)
  | _, _ => false

namespace creditService

/-- The results of the rounded operations of the debt recurrence in
`scheduleLoop`: for every iteration the difference `remainingDebt -
principalPayment`, and for the final iteration also the sum `principalPayment +
remainingDebt`. -/
def roundedLoop (credit : Credit) (monthlyInterestRate : F64) : Nat → Nat → F64 → List F64
  | 0, _, _ => []
  | n + 1, i, remainingDebt =>
    let principalPayment :=
      F64.sub credit.MonthlyPayment (F64.mul remainingDebt monthlyInterestRate)
    let remainingDebt1 := F64.sub remainingDebt principalPayment
    let isLast := decide ((i : Int) = credit.Term - 1)
    (if isLast then [remainingDebt1, F64.add principalPayment remainingDebt1]
      else [remainingDebt1]) ++
      roundedLoop credit monthlyInterestRate n (i + 1)
        (if isLast then F64.zero else remainingDebt1)

/-- The results of the rounded operations of the debt recurrence of a credit. -/
def roundedValues (credit : Credit) : List F64 :=
  roundedLoop credit (F64.div (F64.div credit.InterestRate (F64.ofNat 100)) (F64.ofNat 12))
    credit.Term.toNat 0 credit.Amount

/-- Whether, at the final installment of the schedule of a credit, the monthly
payment less the interest and the debt before the installment are within a
factor of two of each other. -/
def finalWithin2 (credit : Credit) : Bool :=
  match (generatePaymentSchedule credit)[credit.Term.toNat - 1]? with
  | some p =>
    F64.within2
      (debtBefore credit.Amount (generatePaymentSchedule credit) (credit.Term.toNat - 1))
      (F64.sub credit.MonthlyPayment p.Interest)
  | none => false

end creditService

/-- The application of user 1 for 10^16 over 4 months on account 1. -/
def application2 : CreditApplication :=
  { AccountID := 1, Amount := F64.ofNat 10000000000000000, Term := 4 }

/-- The credit `Apply` stores for `application2` when the rate service fails
(interest rate 12.5), with the id 1 it gets in `store0`. -/
def credit3 : Credit :=
  { creditService.newCredit 1 application2 (.error Err.db) time0 with ID := 1 }

/-- The credit `Apply` stores for `application1` (100000 over 12 months) when
the rate service fails (interest rate 12.5, monthly payment about 8908.29),
with the id 1 it gets in `store0`. -/
def credit4 : Credit :=
  { creditService.newCredit 1 application1 (.error Err.db) time0 with ID := 1 }
/-! ## Lemmas on float64 comparison and on the accounts table -/

theorem F64.lt_le_absurd (a b : F64) (h1 : F64.lt a b = true) (h2 : F64.le b a = true) :
    False := by
  cases a <;> cases b <;> simp [F64.lt, F64.le] at h1 h2
  · rw [min_comm] at h2
    omega
  · simp [h1] at h2
  · simp [h1] at h2
  · rcases h1 with ⟨rfl, rfl⟩
    simp at h2

theorem F64.le_false_of_lt {a b : F64} (h : F64.lt a b = true) : F64.le b a = false := by
  cases hle : F64.le b a
  · rfl
  · exact absurd (F64.lt_le_absurd a b h hle) id

theorem F64.lt_false_of_ge {a b : F64} (h : F64.ge a b = true) : F64.lt a b = false := by
  cases hlt : F64.lt a b
  · rfl
  · exact absurd (F64.lt_le_absurd a b hlt h) id

theorem find_setBalance_self (accounts : List Account) (id : Int) (b : F64) (a : Account)
    (h : accounts.find? (fun x => decide (x.ID = id)) = some a) :
    (AccountRepository.setBalance accounts id b).find? (fun x => decide (x.ID = id)) =
      some { a with Balance := b } := by
  unfold AccountRepository.setBalance
  induction accounts with
  | nil => simp at h
  | cons x xs ih =>
    rw [List.map_cons, List.find?_cons]
    rw [List.find?_cons] at h
    by_cases hx : x.ID = id
    · have hd : decide (x.ID = id) = true := by simpa using hx
      rw [hd] at h
      simp only [Option.some.injEq] at h
      subst h
      simp [hx]
    · have hd : decide (x.ID = id) = false := by simpa using hx
      rw [hd] at h
      simp only [] at h
      simp [hx, ih h]

theorem find_setBalance_other (accounts : List Account) (id j : Int) (b : F64) (h : j ≠ id) :
    (AccountRepository.setBalance accounts id b).find? (fun x => decide (x.ID = j)) =
      accounts.find? (fun x => decide (x.ID = j)) := by
  unfold AccountRepository.setBalance
  induction accounts with
  | nil => rfl
  | cons x xs ih =>
    rw [List.map_cons, List.find?_cons, List.find?_cons, ih]
    by_cases hx : x.ID = id
    · have hxj : ¬ x.ID = j := fun e => h (e ▸ hx)
      have hd : decide (id = j) = false := by simpa using fun e : id = j => h e.symm
      simp [hx, hxj, hd]
    · simp [hx]

theorem find_ID {accounts : List Account} {id : Int} {a : Account}
    (h : accounts.find? (fun x => decide (x.ID = id)) = some a) : a.ID = id := by
  have := List.find?_some h
  simpa using this

/-! ## Lemmas on float64 rounding -/

namespace F64

theorem bitLenAux_spec (fuel : Nat) : ∀ n, n ≤ fuel → ∀ b, bitLenAux fuel n ≤ b ↔ n < 2 ^ b := by
  induction fuel with
  | zero =>
    intro n hn b
    have : n = 0 := by omega
    subst this
    simp [bitLenAux]
  | succ k ih =>
    intro n hn b
    by_cases h0 : n = 0
    · subst h0; simp [bitLenAux]
    · have hle : n / 2 ≤ k := by omega
      simp only [bitLenAux, h0, if_false]
      cases b with
      | zero =>
        simp
        omega
      | succ c =>
        rw [Nat.add_le_add_iff_right, ih (n / 2) hle c, pow_succ]
        omega

theorem bitLen_le_iff (n b : Nat) : bitLen n ≤ b ↔ n < 2 ^ b :=
  bitLenAux_spec n n (le_refl n) b

theorem lt_two_pow_bitLen (n : Nat) : n < 2 ^ bitLen n :=
  (bitLen_le_iff n (bitLen n)).mp (le_refl _)

theorem zpow_split (a b : Int) (h : a ≤ b) :
    (2 : ℚ) ^ b = 2 ^ (b - a).toNat * 2 ^ a := by
  obtain ⟨k, hk⟩ : ∃ k : Nat, b = a + k := ⟨(b - a).toNat, by omega⟩
  subst hk
  have : (a + (k : Int) - a).toNat = k := by omega
  rw [this, zpow_add₀ (by norm_num), zpow_natCast]
  ring

/-- Two dyadic numbers with the same value differ by a power of two in the
mantissa. -/
theorem dyadic_eq (m : Nat) (e : Int) (m0 : Nat) (e0 : Int)
    (hv : (m : ℚ) * 2 ^ e = (m0 : ℚ) * 2 ^ e0) (hle : e ≤ e0) :
    m = m0 * 2 ^ (e0 - e).toNat := by
  have hp : (2 : ℚ) ^ e ≠ 0 := zpow_ne_zero e (by norm_num)
  rw [zpow_split e e0 hle, ← mul_assoc] at hv
  have h3 := mul_right_cancel₀ hp hv
  exact_mod_cast h3

theorem round_exact (s : Bool) (m : Nat) (e : Int) (m0 : Nat) (e0 : Int)
    (hm0 : m0 < 2 ^ 53) (hlo : -1074 ≤ e0) (hhi : e0 ≤ 971)
    (hv : (m : ℚ) * 2 ^ e = (m0 : ℚ) * 2 ^ e0) :
    ∃ m1 e1, round s m e = finite s m1 e1 ∧ (m1 : ℚ) * 2 ^ e1 = (m : ℚ) * 2 ^ e ∧
      m1 < 2 ^ 53 ∧ -1074 ≤ e1 ∧ e1 ≤ 971 := by
  have h2 : (2 : ℚ) ≠ 0 := by norm_num
  by_cases hm : m = 0
  · subst hm
    exact ⟨0, -1074, by simp [round], by simp, by norm_num, by norm_num, by norm_num⟩
  have hL := lt_two_pow_bitLen m
  have ht0 : e + (bitLen m : Int) - 53 ≤ e0 := by
    rcases le_or_lt e e0 with hle | hlt
    · have hmk := dyadic_eq m e m0 e0 hv hle
      have : bitLen m ≤ 53 + (e0 - e).toNat := by
        rw [bitLen_le_iff, pow_add]
        rw [hmk]
        exact Nat.mul_lt_mul_of_lt_of_le hm0 (le_refl _) (by positivity)
      omega
    · have hmk := dyadic_eq m0 e0 m e hv.symm hlt.le
      have hk : (e - e0).toNat ≤ 53 := by
        by_contra hc
        have h1 : 2 ^ 53 ≤ 2 ^ (e - e0).toNat := Nat.pow_le_pow_right (by norm_num) (by omega)
        have h3 : 2 ^ (e - e0).toNat ≤ m * 2 ^ (e - e0).toNat :=
          Nat.le_mul_of_pos_left _ (Nat.pos_of_ne_zero hm)
        omega
      have : bitLen m ≤ 53 - (e - e0).toNat := by
        rw [bitLen_le_iff]
        have h4 : m * 2 ^ (e - e0).toNat < 2 ^ (53 - (e - e0).toNat) * 2 ^ (e - e0).toNat := by
          rw [← pow_add, Nat.sub_add_cancel hk, ← hmk]
          exact hm0
        exact Nat.lt_of_mul_lt_mul_right h4
      omega
  have ht : max (e + (bitLen m : Int) - 53) (-1074) ≤ e0 := max_le ht0 hlo
  have htl : e + (bitLen m : Int) - 53 ≤ max (e + (bitLen m : Int) - 53) (-1074) := le_max_left _ _
  have htr : -1074 ≤ max (e + (bitLen m : Int) - 53) (-1074) := le_max_right _ _
  unfold round
  rw [if_neg hm]
  simp only []
  generalize max (e + (bitLen m : Int) - 53) (-1074) = t at ht htl htr
  by_cases hte : t ≤ e
  · rw [if_pos hte, if_neg (by omega)]
    refine ⟨_, _, rfl, ?_, ?_, htr, by omega⟩
    · push_cast
      rw [zpow_split t e hte]
      ring
    · have h5 : bitLen m + (e - t).toNat ≤ 53 := by omega
      calc m * 2 ^ (e - t).toNat < 2 ^ bitLen m * 2 ^ (e - t).toNat :=
            Nat.mul_lt_mul_of_lt_of_le hL (le_refl _) (by positivity)
        _ = 2 ^ (bitLen m + (e - t).toNat) := by rw [pow_add]
        _ ≤ 2 ^ 53 := Nat.pow_le_pow_right (by norm_num) h5
  · rw [if_neg hte]
    have hle : e ≤ e0 := by omega
    have hmk := dyadic_eq m e m0 e0 hv hle
    have hsh : (t - e).toNat ≤ (e0 - e).toNat := by omega
    have hdvd : 2 ^ (t - e).toNat ∣ m := by
      rw [hmk]
      exact Dvd.dvd.mul_left (pow_dvd_pow 2 hsh) _
    have hr : m % 2 ^ (t - e).toNat = 0 := Nat.mod_eq_zero_of_dvd hdvd
    have hpos : 0 < 2 ^ ((t - e).toNat - 1) := by positivity
    have hq : m / 2 ^ (t - e).toNat * 2 ^ (t - e).toNat = m := Nat.div_mul_cancel hdvd
    have hqlt : m / 2 ^ (t - e).toNat < 2 ^ 53 := by
      have h6 : bitLen m ≤ 53 + (t - e).toNat := by omega
      have h7 : m / 2 ^ (t - e).toNat * 2 ^ (t - e).toNat < 2 ^ 53 * 2 ^ (t - e).toNat := by
        rw [hq, ← pow_add]
        exact lt_of_lt_of_le hL (Nat.pow_le_pow_right (by norm_num) h6)
      exact Nat.lt_of_mul_lt_mul_right h7
    rw [hr]
    have hc : ¬ (2 ^ ((t - e).toNat - 1) < 0 ∨
        (0 = 2 ^ ((t - e).toNat - 1) ∧ m / 2 ^ (t - e).toNat % 2 = 1)) := by
      rintro (h | ⟨h, -⟩) <;> omega
    rw [if_neg hc, if_neg (by omega), if_neg (by omega)]
    refine ⟨_, _, rfl, ?_, hqlt, htr, by omega⟩
    have h8 : ((m / 2 ^ (t - e).toNat : Nat) : ℚ) * 2 ^ (t - e).toNat = (m : ℚ) := by
      exact_mod_cast hq
    rw [zpow_split e t (by omega), ← mul_assoc, h8]


theorem toRat_finite (s : Bool) (m : Nat) (e : Int) :
    toRat (finite s m e) = (if s then -1 else 1) * (m : ℚ) * (2 : ℚ) ^ e := rfl

theorem toRat_scaled (s : Bool) (m : Nat) (e1 e : Int) (h : e ≤ e1) :
    toRat (finite s m e1) = (scaled s m (e1 - e).toNat : ℚ) * 2 ^ e := by
  rw [toRat_finite, zpow_split e e1 h]
  unfold scaled
  cases s <;> simp <;> ring

theorem le_iff_toRat (x y : F64) (hx : x.isFinite = true) (hy : y.isFinite = true) :
    le x y = true ↔ x.toRat ≤ y.toRat := by
  cases x <;> cases y <;> simp [isFinite] at hx hy
  rename_i s1 m1 e1 s2 m2 e2
  have hp : (0 : ℚ) < 2 ^ (min e1 e2) := zpow_pos (by norm_num) _
  rw [toRat_scaled s1 m1 e1 (min e1 e2) (min_le_left _ _),
    toRat_scaled s2 m2 e2 (min e1 e2) (min_le_right _ _), mul_le_mul_right hp]
  simp [le]

theorem lt_iff_toRat (x y : F64) (hx : x.isFinite = true) (hy : y.isFinite = true) :
    lt x y = true ↔ x.toRat < y.toRat := by
  cases x <;> cases y <;> simp [isFinite] at hx hy
  rename_i s1 m1 e1 s2 m2 e2
  have hp : (0 : ℚ) < 2 ^ (min e1 e2) := zpow_pos (by norm_num) _
  rw [toRat_scaled s1 m1 e1 (min e1 e2) (min_le_left _ _),
    toRat_scaled s2 m2 e2 (min e1 e2) (min_le_right _ _), mul_lt_mul_right hp]
  simp [lt]

theorem eq_iff_toRat (x y : F64) (hx : x.isFinite = true) (hy : y.isFinite = true) :
    eq x y = true ↔ x.toRat = y.toRat := by
  unfold eq
  rw [Bool.and_eq_true, le_iff_toRat x y hx hy, le_iff_toRat y x hy hx]
  exact ⟨fun h => le_antisymm h.1 h.2, fun h => ⟨h.le, h.ge⟩⟩

theorem toRat_neg (x : F64) : (neg x).toRat = - x.toRat := by
  cases x <;> simp [neg, toRat]
  rename_i s m e
  cases s <;> simp

theorem isFinite_neg (x : F64) : (neg x).isFinite = x.isFinite := by
  cases x <;> rfl

/-- When the exact sum of two finite float64 values is a float64 value, `add`
returns it: no rounding error. -/
theorem add_exact (x y z : F64) (hx : x.isFinite = true) (hy : y.isFinite = true)
    (hz : z.isFinite = true) (hwf : z.wf = true) (h : x.toRat + y.toRat = z.toRat) :
    (add x y).isFinite = true ∧ (add x y).toRat = z.toRat ∧ (add x y).wf = true := by
  cases x <;> cases y <;> cases z <;> simp [isFinite] at hx hy hz
  rename_i s1 m1 e1 s2 m2 e2 s3 m3 e3
  simp only [wf, Bool.and_eq_true, decide_eq_true_eq] at hwf
  obtain ⟨⟨hm3, hlo⟩, hhi⟩ := hwf
  rw [toRat_scaled s1 m1 e1 (min e1 e2) (min_le_left _ _),
    toRat_scaled s2 m2 e2 (min e1 e2) (min_le_right _ _), ← add_mul, ← Int.cast_add] at h
  unfold add
  simp only []
  generalize scaled s1 m1 (e1 - min e1 e2).toNat + scaled s2 m2 (e2 - min e1 e2).toNat = c at h
  by_cases hc : c = 0
  · rw [if_pos hc]
    subst hc
    refine ⟨rfl, ?_, by simp [wf]⟩
    rw [← h, toRat_finite]
    simp
  · rw [if_neg hc]
    have hp : (0 : ℚ) < 2 ^ (min e1 e2) := zpow_pos (by norm_num) _
    have hp3 : (0 : ℚ) < 2 ^ e3 := zpow_pos (by norm_num) _
    have habs : (c.natAbs : ℚ) * 2 ^ (min e1 e2) = (m3 : ℚ) * 2 ^ e3 := by
      have h1 : |((c : ℚ) * 2 ^ (min e1 e2))| = |toRat (finite s3 m3 e3)| := by rw [h]
      rw [abs_mul, abs_of_pos hp] at h1
      rw [Nat.cast_natAbs, Int.cast_abs, h1, toRat_finite, abs_mul, abs_mul, abs_of_pos hp3]
      cases s3 <;> simp
    obtain ⟨q, t, hq, hval, hq53, htlo, hthi⟩ :=
      round_exact (decide (c < 0)) c.natAbs (min e1 e2) m3 e3 hm3 hlo hhi habs
    rw [hq]
    refine ⟨rfl, ?_, by simp only [wf, Bool.and_eq_true, decide_eq_true_eq]; exact ⟨⟨hq53, htlo⟩, hthi⟩⟩
    rw [← h, toRat_finite, mul_assoc, hval, Nat.cast_natAbs, Int.cast_abs]
    by_cases hneg : c < 0
    · have : (c : ℚ) < 0 := by exact_mod_cast hneg
      simp [hneg, abs_of_neg this]
    · have : (0 : ℚ) ≤ c := by exact_mod_cast (not_lt.mp hneg)
      simp [hneg, abs_of_nonneg this]

end F64

open accountService cardService

/-! ## What a successful operation did -/

theorem deposit_ok (f : Faults) (s : Store) (now : Time) (request : DepositRequest)
    (userID : Int) (s1 : Store) (h : Deposit f s now request userID = (none, s1)) :
    ∃ account, s.accounts.find? (fun a => decide (a.ID = request.AccountID)) = some account ∧
      account.UserID = userID ∧ F64.le request.Amount F64.zero = false ∧
      s1 = { s with
        accounts := AccountRepository.setBalance s.accounts request.AccountID
          (F64.add account.Balance request.Amount),
        transactions := s.transactions ++
          [{ ID := s.seq + 1, UserID := userID, FromAccountID := none,
             ToAccountID := some request.AccountID,
             Typ := TransactionType.TransactionTypeDeposit, Amount := request.Amount,
             Description := "Deposit to account", Status := "COMPLETED",
             TransactionDate := now }],
        seq := s.seq + 1 } := by
  by_cases hle : F64.le request.Amount F64.zero = true
  · simp [Deposit, hle] at h
  by_cases hr : f.read 0 = true
  · simp [Deposit, hle, AccountRepository.GetByID, hr] at h
  cases hfind : s.accounts.find? (fun a => decide (a.ID = request.AccountID)) with
  | none => simp [Deposit, hle, AccountRepository.GetByID, hr, hfind] at h
  | some account =>
    have hid : account.ID = request.AccountID := find_ID hfind
    by_cases hown : account.UserID = userID
    swap
    · simp [Deposit, hle, AccountRepository.GetByID, hr, hfind, hown] at h
    by_cases hb : f.beginTx = true
    · simp [Deposit, hle, AccountRepository.GetByID, hr, hfind, hown, BeginTx, hb] at h
    by_cases hw0 : f.write 0 = true
    · simp [Deposit, hle, AccountRepository.GetByID, hr, hfind, hown, BeginTx, hb,
        AccountRepository.UpdateBalanceTx, hw0, Tx.Rollback] at h
    by_cases hw1 : f.write 1 = true
    · simp [Deposit, hle, AccountRepository.GetByID, hr, hfind, hown, BeginTx, hb,
        AccountRepository.UpdateBalanceTx, hw0, TransactionRepository.CreateTx, hw1,
        Tx.Rollback] at h
    by_cases hc : f.commit = true
    · simp [Deposit, hle, AccountRepository.GetByID, hr, hfind, hown, BeginTx, hb,
        AccountRepository.UpdateBalanceTx, hw0, TransactionRepository.CreateTx, hw1,
        Tx.Commit, hc, Tx.Rollback] at h
    simp [Deposit, hle, AccountRepository.GetByID, hr, hfind, hown, BeginTx, hb,
        AccountRepository.UpdateBalanceTx, hw0, TransactionRepository.CreateTx, hw1,
        Tx.Commit, hc] at h
    refine ⟨account, rfl, hown, by simpa using hle, ?_⟩
    rw [← h, hid]

theorem deposit_run (s : Store) (now : Time) (request : DepositRequest) (userID : Int)
    (account : Account)
    (hfind : s.accounts.find? (fun a => decide (a.ID = request.AccountID)) = some account)
    (hown : account.UserID = userID) (hle : F64.le request.Amount F64.zero = false) :
    (Deposit Faults.none s now request userID).1 = none := by
  simp [Deposit, hle, AccountRepository.GetByID, Faults.none, hfind, hown, BeginTx,
    AccountRepository.UpdateBalanceTx, TransactionRepository.CreateTx, Tx.Commit]

theorem withdraw_ok (f : Faults) (s : Store) (now : Time) (request : WithdrawRequest)
    (userID : Int) (s1 : Store) (h : Withdraw f s now request userID = (none, s1)) :
    ∃ account, s.accounts.find? (fun a => decide (a.ID = request.AccountID)) = some account ∧
      account.UserID = userID ∧ F64.le request.Amount F64.zero = false ∧
      F64.lt account.Balance request.Amount = false ∧
      s1 = { s with
        accounts := AccountRepository.setBalance s.accounts request.AccountID
          (F64.sub account.Balance request.Amount),
        transactions := s.transactions ++
          [{ ID := s.seq + 1, UserID := userID, FromAccountID := some request.AccountID,
             ToAccountID := none,
             Typ := TransactionType.TransactionTypeWithdraw, Amount := request.Amount,
             Description := "Withdrawal from account", Status := "COMPLETED",
             TransactionDate := now }],
        seq := s.seq + 1 } := by
  by_cases hle : F64.le request.Amount F64.zero = true
  · simp [Withdraw, hle] at h
  by_cases hr : f.read 0 = true
  · simp [Withdraw, hle, AccountRepository.GetByID, hr] at h
  cases hfind : s.accounts.find? (fun a => decide (a.ID = request.AccountID)) with
  | none => simp [Withdraw, hle, AccountRepository.GetByID, hr, hfind] at h
  | some account =>
    have hid : account.ID = request.AccountID := find_ID hfind
    by_cases hown : account.UserID = userID
    swap
    · simp [Withdraw, hle, AccountRepository.GetByID, hr, hfind, hown] at h
    by_cases hlt : F64.lt account.Balance request.Amount = true
    · simp [Withdraw, hle, AccountRepository.GetByID, hr, hfind, hown, Account.CanWithdraw,
        hlt] at h
    by_cases hb : f.beginTx = true
    · simp [Withdraw, hle, AccountRepository.GetByID, hr, hfind, hown, Account.CanWithdraw,
        hlt, BeginTx, hb] at h
    by_cases hw0 : f.write 0 = true
    · simp [Withdraw, hle, AccountRepository.GetByID, hr, hfind, hown, Account.CanWithdraw,
        hlt, BeginTx, hb, AccountRepository.UpdateBalanceTx, hw0, Tx.Rollback] at h
    by_cases hw1 : f.write 1 = true
    · simp [Withdraw, hle, AccountRepository.GetByID, hr, hfind, hown, Account.CanWithdraw,
        hlt, BeginTx, hb, AccountRepository.UpdateBalanceTx, hw0,
        TransactionRepository.CreateTx, hw1, Tx.Rollback] at h
    by_cases hc : f.commit = true
    · simp [Withdraw, hle, AccountRepository.GetByID, hr, hfind, hown, Account.CanWithdraw,
        hlt, BeginTx, hb, AccountRepository.UpdateBalanceTx, hw0,
        TransactionRepository.CreateTx, hw1, Tx.Commit, hc, Tx.Rollback] at h
    simp [Withdraw, hle, AccountRepository.GetByID, hr, hfind, hown, Account.CanWithdraw,
        hlt, BeginTx, hb, AccountRepository.UpdateBalanceTx, hw0,
        TransactionRepository.CreateTx, hw1, Tx.Commit, hc] at h
    refine ⟨account, rfl, hown, by simpa using hle, by simpa using hlt, ?_⟩
    rw [← h, hid]

theorem withdraw_run (s : Store) (now : Time) (request : WithdrawRequest) (userID : Int)
    (account : Account)
    (hfind : s.accounts.find? (fun a => decide (a.ID = request.AccountID)) = some account)
    (hown : account.UserID = userID) (hle : F64.le request.Amount F64.zero = false)
    (hlt : F64.lt account.Balance request.Amount = false) :
    (Withdraw Faults.none s now request userID).1 = none := by
  simp [Withdraw, hle, AccountRepository.GetByID, Faults.none, hfind, hown,
    Account.CanWithdraw, hlt, BeginTx,
    AccountRepository.UpdateBalanceTx, TransactionRepository.CreateTx, Tx.Commit]

theorem transfer_ok (f : Faults) (s : Store) (now : Time) (request : TransferRequest)
    (userID : Int) (s1 : Store) (h : Transfer f s now request userID = (none, s1)) :
    ∃ source destination,
      s.accounts.find? (fun a => decide (a.ID = request.FromAccountID)) = some source ∧
      s.accounts.find? (fun a => decide (a.ID = request.ToAccountID)) = some destination ∧
      request.FromAccountID ≠ request.ToAccountID ∧
      source.UserID = userID ∧ F64.le request.Amount F64.zero = false ∧
      F64.lt source.Balance request.Amount = false ∧
      s1 = { s with
        accounts := AccountRepository.setBalance
          (AccountRepository.setBalance s.accounts request.FromAccountID
            (F64.sub source.Balance request.Amount))
          request.ToAccountID (F64.add destination.Balance request.Amount),
        transactions := s.transactions ++
          [{ ID := s.seq + 1, UserID := userID, FromAccountID := some request.FromAccountID,
             ToAccountID := some request.ToAccountID,
             Typ := TransactionType.TransactionTypeTransfer, Amount := request.Amount,
             Description := "Transfer from account " ++ source.Number ++
               " to account " ++ destination.Number,
             Status := "COMPLETED", TransactionDate := now }],
        seq := s.seq + 1 } := by
  by_cases hle : F64.le request.Amount F64.zero = true
  · simp [Transfer, hle] at h
  by_cases hne : request.FromAccountID = request.ToAccountID
  · simp [Transfer, hle, hne] at h
  by_cases hr : f.read 0 = true
  · simp [Transfer, hle, hne, AccountRepository.GetByID, hr] at h
  cases hs : s.accounts.find? (fun a => decide (a.ID = request.FromAccountID)) with
  | none => simp [Transfer, hle, hne, AccountRepository.GetByID, hr, hs] at h
  | some source =>
    have hsid : source.ID = request.FromAccountID := find_ID hs
    by_cases hown : source.UserID = userID
    swap
    · simp [Transfer, hle, hne, AccountRepository.GetByID, hr, hs, hown] at h
    by_cases hr1 : f.read 1 = true
    · simp [Transfer, hle, hne, AccountRepository.GetByID, hr, hs, hown, hr1] at h
    cases hd : s.accounts.find? (fun a => decide (a.ID = request.ToAccountID)) with
    | none => simp [Transfer, hle, hne, AccountRepository.GetByID, hr, hs, hown, hr1, hd] at h
    | some destination =>
      have hdid : destination.ID = request.ToAccountID := find_ID hd
      by_cases hlt : F64.lt source.Balance request.Amount = true
      · simp [Transfer, hle, hne, AccountRepository.GetByID, hr, hs, hown, hr1, hd,
          Account.CanWithdraw, hlt] at h
      by_cases hb : f.beginTx = true
      · simp [Transfer, hle, hne, AccountRepository.GetByID, hr, hs, hown, hr1, hd,
          Account.CanWithdraw, hlt, BeginTx, hb] at h
      by_cases hw0 : f.write 0 = true
      · simp [Transfer, hle, hne, AccountRepository.GetByID, hr, hs, hown, hr1, hd,
          Account.CanWithdraw, hlt, BeginTx, hb, AccountRepository.UpdateBalanceTx, hw0,
          Tx.Rollback] at h
      by_cases hw1 : f.write 1 = true
      · simp [Transfer, hle, hne, AccountRepository.GetByID, hr, hs, hown, hr1, hd,
          Account.CanWithdraw, hlt, BeginTx, hb, AccountRepository.UpdateBalanceTx, hw0, hw1,
          Tx.Rollback] at h
      by_cases hw2 : f.write 2 = true
      · simp [Transfer, hle, hne, AccountRepository.GetByID, hr, hs, hown, hr1, hd,
          Account.CanWithdraw, hlt, BeginTx, hb, AccountRepository.UpdateBalanceTx, hw0, hw1,
          TransactionRepository.CreateTx, hw2, Tx.Rollback] at h
      by_cases hc : f.commit = true
      · simp [Transfer, hle, hne, AccountRepository.GetByID, hr, hs, hown, hr1, hd,
          Account.CanWithdraw, hlt, BeginTx, hb, AccountRepository.UpdateBalanceTx, hw0, hw1,
          TransactionRepository.CreateTx, hw2, Tx.Commit, hc, Tx.Rollback] at h
      simp [Transfer, hle, hne, AccountRepository.GetByID, hr, hs, hown, hr1, hd,
          Account.CanWithdraw, hlt, BeginTx, hb, AccountRepository.UpdateBalanceTx, hw0, hw1,
          TransactionRepository.CreateTx, hw2, Tx.Commit, hc] at h
      refine ⟨source, destination, rfl, rfl, hne, hown, by simpa using hle,
        by simpa using hlt, ?_⟩
      rw [← h, hsid, hdid]

theorem transfer_run (s : Store) (now : Time) (request : TransferRequest) (userID : Int)
    (source destination : Account)
    (hs : s.accounts.find? (fun a => decide (a.ID = request.FromAccountID)) = some source)
    (hd : s.accounts.find? (fun a => decide (a.ID = request.ToAccountID)) = some destination)
    (hne : request.FromAccountID ≠ request.ToAccountID)
    (hown : source.UserID = userID) (hle : F64.le request.Amount F64.zero = false)
    (hlt : F64.lt source.Balance request.Amount = false) :
    (Transfer Faults.none s now request userID).1 = none := by
  simp [Transfer, hle, hne, AccountRepository.GetByID, Faults.none, hs, hd, hown,
    Account.CanWithdraw, hlt, BeginTx, AccountRepository.UpdateBalanceTx,
    TransactionRepository.CreateTx, Tx.Commit]

theorem processPayment_ok (f : Faults) (s : Store) (request : CardPaymentRequest)
    (userID : Int) (s1 : Store) (h : ProcessPayment f s request userID = (none, s1)) :
    ∃ card account, s.cards.find? (fun c => decide (c.ID = request.CardID)) = some card ∧
      card.UserID = userID ∧ card.IsActive = true ∧
      s.accounts.find? (fun a => decide (a.ID = card.AccountID)) = some account ∧
      F64.le request.Amount F64.zero = false ∧
      F64.lt account.Balance request.Amount = false ∧
      s1 = { s with
        accounts := AccountRepository.setBalance s.accounts card.AccountID
          (F64.sub account.Balance request.Amount) } := by
  by_cases hr : f.read 0 = true
  · simp [ProcessPayment, CardRepository.GetByID, hr] at h
  cases hcard : s.cards.find? (fun c => decide (c.ID = request.CardID)) with
  | none => simp [ProcessPayment, CardRepository.GetByID, hr, hcard] at h
  | some card =>
    by_cases hown : card.UserID = userID
    swap
    · simp [ProcessPayment, CardRepository.GetByID, hr, hcard, hown] at h
    by_cases hact : card.IsActive = true
    swap
    · simp [ProcessPayment, CardRepository.GetByID, hr, hcard, hown, hact] at h
    by_cases hr1 : f.read 1 = true
    · simp [ProcessPayment, CardRepository.GetByID, hr, hcard, hown, hact,
        AccountRepository.GetByID, hr1] at h
    cases hacc : s.accounts.find? (fun a => decide (a.ID = card.AccountID)) with
    | none =>
      simp [ProcessPayment, CardRepository.GetByID, hr, hcard, hown, hact,
        AccountRepository.GetByID, hr1, hacc] at h
    | some account =>
      have hid : account.ID = card.AccountID := find_ID hacc
      by_cases hle : F64.le request.Amount F64.zero = true
      · simp [ProcessPayment, CardRepository.GetByID, hr, hcard, hown, hact,
          AccountRepository.GetByID, hr1, hacc, Account.CanWithdraw, hle] at h
      by_cases hlt : F64.lt account.Balance request.Amount = true
      · simp [ProcessPayment, CardRepository.GetByID, hr, hcard, hown, hact,
          AccountRepository.GetByID, hr1, hacc, Account.CanWithdraw, hle, hlt] at h
      by_cases hb : f.beginTx = true
      · simp [ProcessPayment, CardRepository.GetByID, hr, hcard, hown, hact,
          AccountRepository.GetByID, hr1, hacc, Account.CanWithdraw, hle, hlt, BeginTx, hb] at h
      by_cases hw0 : f.write 0 = true
      · simp [ProcessPayment, CardRepository.GetByID, hr, hcard, hown, hact,
          AccountRepository.GetByID, hr1, hacc, Account.CanWithdraw, hle, hlt, BeginTx, hb,
          AccountRepository.UpdateBalanceTx, hw0, Tx.Rollback] at h
      by_cases hc : f.commit = true
      · simp [ProcessPayment, CardRepository.GetByID, hr, hcard, hown, hact,
          AccountRepository.GetByID, hr1, hacc, Account.CanWithdraw, hle, hlt, BeginTx, hb,
          AccountRepository.UpdateBalanceTx, hw0, Tx.Commit, hc, Tx.Rollback] at h
      simp [ProcessPayment, CardRepository.GetByID, hr, hcard, hown, hact,
          AccountRepository.GetByID, hr1, hacc, Account.CanWithdraw, hle, hlt, BeginTx, hb,
          AccountRepository.UpdateBalanceTx, hw0, Tx.Commit, hc] at h
      refine ⟨card, account, rfl, hown, hact, hacc, by simpa using hle, by simpa using hlt, ?_⟩
      rw [← h, hid]

theorem processPayment_run (s : Store) (request : CardPaymentRequest) (userID : Int)
    (card : Card) (account : Account)
    (hcard : s.cards.find? (fun c => decide (c.ID = request.CardID)) = some card)
    (hown : card.UserID = userID) (hact : card.IsActive = true)
    (hacc : s.accounts.find? (fun a => decide (a.ID = card.AccountID)) = some account)
    (hle : F64.le request.Amount F64.zero = false)
    (hlt : F64.lt account.Balance request.Amount = false) :
    (ProcessPayment Faults.none s request userID).1 = none := by
  simp [ProcessPayment, CardRepository.GetByID, Faults.none, hcard, hown, hact,
    AccountRepository.GetByID, hacc, Account.CanWithdraw, hle, hlt, BeginTx,
    AccountRepository.UpdateBalanceTx, Tx.Commit]


/-! ## Exact float64 sums -/

theorem F64.add_isFinite_left {x y : F64} (h : (F64.add x y).isFinite = true) :
    x.isFinite = true := by
  cases x <;> cases y <;> simp_all [F64.add, F64.isFinite]
  rename_i s t
  cases s <;> cases t <;> simp [F64.isFinite] at h

theorem F64.add_isFinite_right {x y : F64} (h : (F64.add x y).isFinite = true) :
    y.isFinite = true := by
  cases x <;> cases y <;> simp_all [F64.add, F64.isFinite]
  rename_i s t
  cases s <;> cases t <;> simp [F64.isFinite] at h

/-- Subtracting again what an exact addition added gives a value equal to the
first operand. -/
theorem F64.sub_add_cancel_of_exact (b a : F64) (hwf : b.wf = true)
    (hfin : (F64.add b a).isFinite = true)
    (hex : (F64.add b a).toRat = b.toRat + a.toRat) :
    F64.eq (F64.sub (F64.add b a) a) b = true := by
  have hb := F64.add_isFinite_left hfin
  have ha := F64.add_isFinite_right hfin
  have h := F64.add_exact (F64.add b a) (F64.neg a) b hfin
    (by rw [F64.isFinite_neg]; exact ha) hb hwf (by rw [F64.toRat_neg, hex]; ring)
  exact (F64.eq_iff_toRat _ _ h.1 hb).mpr h.2.1

/-- Adding again what an exact subtraction took gives a value equal to the
first operand. -/
theorem F64.add_sub_cancel_of_exact (b a : F64) (hwf : b.wf = true)
    (hfin : (F64.sub b a).isFinite = true)
    (hex : (F64.sub b a).toRat = b.toRat - a.toRat) :
    F64.eq (F64.add (F64.sub b a) a) b = true := by
  have hb := F64.add_isFinite_left hfin
  have ha : a.isFinite = true := by
    have := F64.add_isFinite_right hfin
    rwa [F64.isFinite_neg] at this
  have h := F64.add_exact (F64.sub b a) a b hfin ha hb hwf (by rw [hex]; ring)
  exact (F64.eq_iff_toRat _ _ h.1 hb).mpr h.2.1


open creditService

set_option linter.unusedTactic false
set_option linter.unreachableTactic false
set_option linter.unnecessarySeqFocus false

/-! ## The ledger is changed by the account service only -/

theorem processOne_transactions (f : Faults) (s : Store) (now : Time) (p : PaymentSchedule) :
    (processOne f s now p).transactions = s.transactions := by
  unfold processOne
  simp only [CreditRepository.GetByID, AccountRepository.GetByID, BeginTx,
    AccountRepository.UpdateBalanceTx, Tx.Commit, Tx.Rollback, PaymentRepository.UpdateStatus,
    CreditRepository.UpdateStatus]
  rcases f.read 0 with _ | _ <;> (try simp) <;> rcases f.read 1 with _ | _ <;> (try simp) <;>
    rcases f.beginTx with _ | _ <;> (try simp) <;> rcases f.write 0 with _ | _ <;> (try simp) <;>
    rcases f.write 1 with _ | _ <;> (try simp) <;> rcases f.write 2 with _ | _ <;> (try simp) <;>
    rcases f.commit with _ | _ <;> (try simp) <;> (repeat' split) <;> (try simp_all)

theorem sweepLoop_transactions (fs : Nat → Faults) (now : Time) (ps : List PaymentSchedule) :
    ∀ k s, (sweepLoop fs now k s ps).transactions = s.transactions := by
  induction ps with
  | nil => intro k s; rfl
  | cons p rest ih =>
    intro k s
    rw [sweepLoop, ih, processOne_transactions]

theorem processPendingPayments_transactions (f0 : Faults) (fs : Nat → Faults) (s : Store)
    (now : Time) : (ProcessPendingPayments f0 fs s now).2.transactions = s.transactions := by
  unfold ProcessPendingPayments
  split
  · rfl
  · exact sweepLoop_transactions fs now _ 0 s

theorem apply_transactions (f : Faults) (s : Store) (now : Time) (keyRate : Except Err F64)
    (userID : Int) (application : CreditApplication) :
    (Apply f s now keyRate userID application).2.transactions = s.transactions := by
  unfold Apply
  simp only [AccountRepository.GetByID, BeginTx, CreditRepository.CreateTx,
    PaymentRepository.CreateBatchTx, AccountRepository.UpdateBalanceTx, Tx.Commit, Tx.Rollback]
  rcases f.read 0 with _ | _ <;> (try simp) <;> rcases f.read 1 with _ | _ <;> (try simp) <;>
    rcases f.beginTx with _ | _ <;> (try simp) <;> rcases f.write 0 with _ | _ <;> (try simp) <;>
    rcases f.write 1 with _ | _ <;> (try simp) <;> rcases f.write 2 with _ | _ <;> (try simp) <;>
    rcases f.commit with _ | _ <;> (try simp) <;> (repeat' split) <;> (try simp_all)

theorem processPayment_transactions (f : Faults) (s : Store) (request : CardPaymentRequest)
    (userID : Int) : (ProcessPayment f s request userID).2.transactions = s.transactions := by
  unfold ProcessPayment
  simp only [CardRepository.GetByID, AccountRepository.GetByID, BeginTx,
    AccountRepository.UpdateBalanceTx, Tx.Commit, Tx.Rollback]
  rcases f.read 0 with _ | _ <;> (try simp) <;> rcases f.read 1 with _ | _ <;> (try simp) <;>
    rcases f.beginTx with _ | _ <;> (try simp) <;> rcases f.write 0 with _ | _ <;> (try simp) <;>
    rcases f.write 1 with _ | _ <;> (try simp) <;> rcases f.write 2 with _ | _ <;> (try simp) <;>
    rcases f.commit with _ | _ <;> (try simp) <;> (repeat' split) <;> (try simp_all)

theorem deposit_fail (f : Faults) (s : Store) (now : Time) (request : DepositRequest)
    (userID : Int) (h : (Deposit f s now request userID).1 ≠ none) :
    (Deposit f s now request userID).2 = s := by
  revert h
  unfold Deposit
  simp only [AccountRepository.GetByID, BeginTx, TransactionRepository.CreateTx,
    AccountRepository.UpdateBalanceTx, Tx.Commit, Tx.Rollback]
  rcases f.read 0 with _ | _ <;> (try simp) <;> rcases f.read 1 with _ | _ <;> (try simp) <;>
    rcases f.beginTx with _ | _ <;> (try simp) <;> rcases f.write 0 with _ | _ <;> (try simp) <;>
    rcases f.write 1 with _ | _ <;> (try simp) <;> rcases f.write 2 with _ | _ <;> (try simp) <;>
    rcases f.commit with _ | _ <;> (try simp) <;> (repeat' split) <;> (try simp_all)

theorem withdraw_fail (f : Faults) (s : Store) (now : Time) (request : WithdrawRequest)
    (userID : Int) (h : (Withdraw f s now request userID).1 ≠ none) :
    (Withdraw f s now request userID).2 = s := by
  revert h
  unfold Withdraw
  simp only [AccountRepository.GetByID, BeginTx, TransactionRepository.CreateTx,
    AccountRepository.UpdateBalanceTx, Tx.Commit, Tx.Rollback]
  rcases f.read 0 with _ | _ <;> (try simp) <;> rcases f.read 1 with _ | _ <;> (try simp) <;>
    rcases f.beginTx with _ | _ <;> (try simp) <;> rcases f.write 0 with _ | _ <;> (try simp) <;>
    rcases f.write 1 with _ | _ <;> (try simp) <;> rcases f.write 2 with _ | _ <;> (try simp) <;>
    rcases f.commit with _ | _ <;> (try simp) <;> (repeat' split) <;> (try simp_all)

theorem transfer_fail (f : Faults) (s : Store) (now : Time) (request : TransferRequest)
    (userID : Int) (h : (Transfer f s now request userID).1 ≠ none) :
    (Transfer f s now request userID).2 = s := by
  by_cases hle : F64.le request.Amount F64.zero = true
  · simp [Transfer, hle]
  by_cases hne : request.FromAccountID = request.ToAccountID
  · simp [Transfer, hle, hne]
  by_cases hr : f.read 0 = true
  · simp [Transfer, hle, hne, AccountRepository.GetByID, hr]
  cases hs : s.accounts.find? (fun a => decide (a.ID = request.FromAccountID)) with
  | none => simp [Transfer, hle, hne, AccountRepository.GetByID, hr, hs]
  | some source =>
    by_cases hown : source.UserID = userID
    swap
    · simp [Transfer, hle, hne, AccountRepository.GetByID, hr, hs, hown]
    by_cases hr1 : f.read 1 = true
    · simp [Transfer, hle, hne, AccountRepository.GetByID, hr, hs, hown, hr1]
    cases hd : s.accounts.find? (fun a => decide (a.ID = request.ToAccountID)) with
    | none => simp [Transfer, hle, hne, AccountRepository.GetByID, hr, hs, hown, hr1, hd]
    | some destination =>
      by_cases hlt : F64.lt source.Balance request.Amount = true
      · simp [Transfer, hle, hne, AccountRepository.GetByID, hr, hs, hown, hr1, hd,
          Account.CanWithdraw, hlt]
      by_cases hb : f.beginTx = true
      · simp [Transfer, hle, hne, AccountRepository.GetByID, hr, hs, hown, hr1, hd,
          Account.CanWithdraw, hlt, BeginTx, hb]
      by_cases hw0 : f.write 0 = true
      · simp [Transfer, hle, hne, AccountRepository.GetByID, hr, hs, hown, hr1, hd,
          Account.CanWithdraw, hlt, BeginTx, hb, AccountRepository.UpdateBalanceTx, hw0,
          Tx.Rollback]
      by_cases hw1 : f.write 1 = true
      · simp [Transfer, hle, hne, AccountRepository.GetByID, hr, hs, hown, hr1, hd,
          Account.CanWithdraw, hlt, BeginTx, hb, AccountRepository.UpdateBalanceTx, hw0, hw1,
          Tx.Rollback]
      by_cases hw2 : f.write 2 = true
      · simp [Transfer, hle, hne, AccountRepository.GetByID, hr, hs, hown, hr1, hd,
          Account.CanWithdraw, hlt, BeginTx, hb, AccountRepository.UpdateBalanceTx, hw0, hw1,
          TransactionRepository.CreateTx, hw2, Tx.Rollback]
      by_cases hc : f.commit = true
      · simp [Transfer, hle, hne, AccountRepository.GetByID, hr, hs, hown, hr1, hd,
          Account.CanWithdraw, hlt, BeginTx, hb, AccountRepository.UpdateBalanceTx, hw0, hw1,
          TransactionRepository.CreateTx, hw2, Tx.Commit, hc, Tx.Rollback]
      simp [Transfer, hle, hne, AccountRepository.GetByID, hr, hs, hown, hr1, hd,
          Account.CanWithdraw, hlt, BeginTx, hb, AccountRepository.UpdateBalanceTx, hw0, hw1,
          TransactionRepository.CreateTx, hw2, Tx.Commit, hc] at h


/-! ## The payment schedule -/

theorem F64.isSum_toRat {z x y : F64} (h : F64.isSum z x y = true) :
    z.toRat = x.toRat + y.toRat ∧ z.isFinite = true ∧ x.isFinite = true ∧
      y.isFinite = true := by
  cases z <;> cases x <;> cases y <;> simp [F64.isSum] at h
  rename_i sz mz ez sx mx ex sy my ey
  refine ⟨?_, rfl, rfl, rfl⟩
  have h1 : min ez (min ex ey) ≤ ez := min_le_left _ _
  have h2 : min ez (min ex ey) ≤ ex := le_trans (min_le_right _ _) (min_le_left _ _)
  have h3 : min ez (min ex ey) ≤ ey := le_trans (min_le_right _ _) (min_le_right _ _)
  rw [F64.toRat_scaled sz mz ez _ h1, F64.toRat_scaled sx mx ex _ h2,
    F64.toRat_scaled sy my ey _ h3, h]
  push_cast
  ring

theorem scheduleLoop_last (credit : Credit) (mir : F64) :
    ∀ (n i : Nat) (rem : F64), (i : Int) + (n : Int) + 1 = credit.Term →
      ∃ last, (scheduleLoop credit mir (n + 1) i rem).getLast? = some last ∧
        last.RemainingDebt = F64.zero := by
  intro n
  induction n with
  | zero =>
    intro i rem h
    have hl : (i : Int) = credit.Term - 1 := by omega
    simp [scheduleLoop, hl]
  | succ n ih =>
    intro i rem h
    obtain ⟨last, h1, h2⟩ := ih (i + 1)
      (if (i : Int) = credit.Term - 1 then F64.zero
        else F64.sub rem (F64.sub credit.MonthlyPayment (F64.mul rem mir)))
      (by push_cast; omega)
    refine ⟨last, ?_, h2⟩
    rw [scheduleLoop]
    simp only [decide_eq_true_eq]
    rw [scheduleLoop] at h1 ⊢
    simp only [decide_eq_true_eq] at h1 ⊢
    rw [List.getLast?_cons_cons]
    exact h1

theorem scheduleLoop_sum (credit : Credit) (mir : F64) :
    ∀ (n i : Nat) (rem : F64), (i : Int) + (n : Int) + 1 = credit.Term →
      loopExact credit mir (n + 1) i rem = true →
      ((scheduleLoop credit mir (n + 1) i rem).map (fun p => p.Principal.toRat)).sum =
          rem.toRat ∧
        ∀ p ∈ scheduleLoop credit mir (n + 1) i rem, p.Principal.isFinite = true := by
  intro n
  induction n with
  | zero =>
    intro i rem h hex
    have hl : (i : Int) = credit.Term - 1 := by omega
    simp only [loopExact, hl, decide_True, if_true, Bool.and_true, Bool.and_eq_true] at hex
    obtain ⟨h1, h2⟩ := hex
    have e1 := F64.isSum_toRat h1
    have e2 := F64.isSum_toRat h2
    simp only [scheduleLoop, hl, decide_True, if_true, List.map_cons, List.map_nil,
      List.sum_cons, List.sum_nil, add_zero, List.mem_singleton, forall_eq]
    exact ⟨by rw [e2.1, e1.1]; ring, e2.2.1⟩
  | succ n ih =>
    intro i rem h hex
    have hl : ¬ (i : Int) = credit.Term - 1 := by omega
    rw [loopExact] at hex
    simp only [hl, decide_False, Bool.false_eq_true, if_false, Bool.and_true,
      Bool.and_eq_true] at hex
    obtain ⟨h1, h2⟩ := hex
    have e1 := F64.isSum_toRat h1
    obtain ⟨s1, s2⟩ := ih (i + 1) _ (by push_cast; omega) h2
    rw [scheduleLoop]
    simp only [hl, decide_False, Bool.false_eq_true, if_false, List.map_cons, List.sum_cons,
      List.mem_cons, forall_eq_or_imp]
    exact ⟨by rw [s1, e1.1]; ring, e1.2.2.2, s2⟩


/-! ## The calendar -/

namespace Time

/-- The same day of the next month is at least 28 days later. -/
theorem daysFromCivil_succ_month (y m d : Int) :
    daysFromCivil y m d + 28 ≤ daysFromCivil y (m + 1) d := by
  unfold daysFromCivil
  simp only []
  split_ifs <;> omega

theorem yoe_bounds (a y : Int) (h0 : 0 ≤ a) (h1 : a ≤ 146096)
    (hy : y = (a - a / 1460 + a / 36524 - a / 146096) / 365) : 0 ≤ y ∧ y ≤ 399 := by
  omega

set_option maxHeartbeats 8000000 in
theorem doy_bounds (a y : Int) (h0 : 0 ≤ a) (h1 : a ≤ 146096)
    (hy : y = (a - a / 1460 + a / 36524 - a / 146096) / 365) :
    365 * y + y / 4 - y / 100 ≤ a ∧ a ≤ 365 * y + y / 4 - y / 100 + 365 := by
  obtain ⟨hl, hu⟩ := yoe_bounds a y h0 h1 hy
  interval_cases y <;> omega

/-- The day number of a date given by its March-based year and month. -/
theorem daysFromCivil_march (yy mp d : Int) (h0 : 0 ≤ mp) (h1 : mp ≤ 11) :
    daysFromCivil (if (if mp < 10 then mp + 3 else mp - 9) ≤ 2 then yy + 1 else yy)
        (if mp < 10 then mp + 3 else mp - 9) d =
      yy / 400 * 146097 +
        ((yy - yy / 400 * 400) * 365 + (yy - yy / 400 * 400) / 4 - (yy - yy / 400 * 400) / 100 +
          (153 * mp + 2) / 5) - 719468 + (d - 1) := by
  unfold daysFromCivil
  interval_cases mp <;> simp

theorem daysFromCivil_civilFromDays (z : Int) :
    daysFromCivil (civilFromDays z).1 (civilFromDays z).2.1 (civilFromDays z).2.2 = z := by
  unfold civilFromDays
  simp only []
  have hera : 0 ≤ z + 719468 - (z + 719468) / 146097 * 146097 ∧
      z + 719468 - (z + 719468) / 146097 * 146097 ≤ 146096 := by omega
  generalize hq : (z + 719468) / 146097 = era at hera ⊢
  generalize ha : z + 719468 - era * 146097 = a at hera ⊢
  have hy := yoe_bounds a _ hera.1 hera.2 rfl
  have hd := doy_bounds a _ hera.1 hera.2 rfl
  generalize (a - a / 1460 + a / 36524 - a / 146096) / 365 = y at hy hd ⊢
  have hmp : 0 ≤ (5 * (a - (365 * y + y / 4 - y / 100)) + 2) / 153 ∧
      (5 * (a - (365 * y + y / 4 - y / 100)) + 2) / 153 ≤ 11 := by omega
  rw [daysFromCivil_march (y + era * 400) _ _ hmp.1 hmp.2]
  have hi : (y + era * 400) / 400 = era := by omega
  have hyy : y + era * 400 - era * 400 = y := by omega
  rw [hi, hyy]
  omega

end Time

/-! ## The shape of the payment schedule -/

theorem Time.daysFromCivil_add_months (y m d : Int) (k : Nat) :
    Time.daysFromCivil y m d + 28 * (k : Int) ≤ Time.daysFromCivil y (m + (k : Int)) d := by
  induction k with
  | zero => simp
  | succ k ih =>
    have h := Time.daysFromCivil_succ_month y (m + (k : Int)) d
    have e : m + ((k + 1 : Nat) : Int) = m + (k : Int) + 1 := by push_cast; ring
    rw [e]
    push_cast
    omega

/-- A later month of the same start date is a later date. -/
theorem Time.addDate_months_before (t : Time) (j k : Int) (h : j < k) :
    Time.Before (t.AddDate 0 j 0) (t.AddDate 0 k 0) = true := by
  obtain ⟨n, hn⟩ : ∃ n : Nat, k = j + 1 + (n : Int) := ⟨(k - j - 1).toNat, by omega⟩
  have h1 := Time.daysFromCivil_succ_month (t.year + 0) (t.month + j) (t.day + 0)
  have h2 := Time.daysFromCivil_add_months (t.year + 0) (t.month + j + 1) (t.day + 0) n
  have e : t.month + k = t.month + j + 1 + (n : Int) := by omega
  unfold Time.Before Time.AddDate
  simp only [Time.daysFromCivil_civilFromDays]
  rw [e]
  simp only [Bool.or_eq_true, decide_eq_true_eq]
  left
  omega

theorem scheduleLoop_length (credit : Credit) (mir : F64) :
    ∀ (n i : Nat) (rem : F64), (scheduleLoop credit mir n i rem).length = n := by
  intro n
  induction n with
  | zero => intro i rem; rfl
  | succ n ih => intro i rem; simp [scheduleLoop, ih]

theorem scheduleLoop_getElem (credit : Credit) (mir : F64) :
    ∀ (n i : Nat) (rem : F64) (k : Nat) (p : PaymentSchedule),
      (scheduleLoop credit mir n i rem)[k]? = some p →
      p.PaymentDate = credit.StartDate.AddDate 0 (((i + k : Nat) : Int) + 1) 0 ∧
      p.Amount = credit.MonthlyPayment ∧ p.CreditID = credit.ID ∧
      p.Status = PaymentStatus.PaymentStatusPending ∧ p.PaidDate = none ∧ p.ID = 0 := by
  intro n
  induction n with
  | zero => intro i rem k p h; simp [scheduleLoop] at h
  | succ n ih =>
    intro i rem k p h
    rw [scheduleLoop] at h
    cases k with
    | zero =>
      simp only [List.getElem?_cons_zero, Option.some.injEq] at h
      subst h
      simp
    | succ k =>
      simp only [List.getElem?_cons_succ] at h
      have := ih (i + 1) _ k p h
      have e : i + 1 + k = i + (k + 1) := by omega
      rw [e] at this
      exact this

theorem scheduleLoop_mem (credit : Credit) (mir : F64) (n i : Nat) (rem : F64)
    (p : PaymentSchedule) (h : p ∈ scheduleLoop credit mir n i rem) :
    ∃ k : Nat, i ≤ k ∧ p.PaymentDate = credit.StartDate.AddDate 0 ((k : Int) + 1) 0 := by
  obtain ⟨k, hk⟩ := List.getElem?_of_mem h
  exact ⟨i + k, by omega, (scheduleLoop_getElem credit mir n i rem k p hk).1⟩

theorem scheduleLoop_pairwise (credit : Credit) (mir : F64) :
    ∀ (n i : Nat) (rem : F64),
      (scheduleLoop credit mir n i rem).Pairwise
        (fun p q => Time.Before p.PaymentDate q.PaymentDate = true) := by
  intro n
  induction n with
  | zero => intro i rem; simp [scheduleLoop]
  | succ n ih =>
    intro i rem
    rw [scheduleLoop]
    refine List.Pairwise.cons ?_ (ih (i + 1) _)
    intro q hq
    obtain ⟨k, hk, hd⟩ := scheduleLoop_mem credit mir n (i + 1) _ q hq
    rw [hd]
    exact Time.addDate_months_before credit.StartDate _ _ (by omega)

/-! ## Results of float64 operations lie in the format -/


/-- Every result of rounding lies in the binary64 format. -/
theorem F64.round_wf (s : Bool) (m : Nat) (e : Int) : (F64.round s m e).wf = true := by
  unfold F64.round
  by_cases hm : m = 0
  · simp [hm, F64.wf]
  rw [if_neg hm]
  simp only []
  have hL := F64.lt_two_pow_bitLen m
  have htl : e + (F64.bitLen m : Int) - 53 ≤ max (e + (F64.bitLen m : Int) - 53) (-1074) :=
    le_max_left _ _
  have htr : -1074 ≤ max (e + (F64.bitLen m : Int) - 53) (-1074) := le_max_right _ _
  generalize max (e + (F64.bitLen m : Int) - 53) (-1074) = t at htl htr
  by_cases hte : t ≤ e
  · rw [if_pos hte]
    by_cases hbig : 971 < t
    · rw [if_pos hbig]; rfl
    · rw [if_neg hbig]
      have h5 : F64.bitLen m + (e - t).toNat ≤ 53 := by omega
      have h6 : m * 2 ^ (e - t).toNat < 2 ^ 53 :=
        calc m * 2 ^ (e - t).toNat < 2 ^ F64.bitLen m * 2 ^ (e - t).toNat :=
              Nat.mul_lt_mul_of_lt_of_le hL (le_refl _) (by positivity)
          _ = 2 ^ (F64.bitLen m + (e - t).toNat) := by rw [pow_add]
          _ ≤ 2 ^ 53 := Nat.pow_le_pow_right (by norm_num) h5
      simp only [F64.wf, Bool.and_eq_true, decide_eq_true_eq]
      exact ⟨⟨h6, htr⟩, by omega⟩
  · rw [if_neg hte]
    have hqlt : m / 2 ^ (t - e).toNat < 2 ^ 53 := by
      have h6 : F64.bitLen m ≤ 53 + (t - e).toNat := by omega
      rw [Nat.div_lt_iff_lt_mul (by positivity), ← pow_add]
      exact lt_of_lt_of_le hL (Nat.pow_le_pow_right (by norm_num) h6)
    split_ifs <;> simp only [F64.wf, Bool.and_eq_true, decide_eq_true_eq] <;> omega

theorem F64.add_wf (x y : F64) : (F64.add x y).wf = true := by
  cases x <;> cases y <;> simp only [F64.add] <;> try rfl
  · split_ifs
    · simp [F64.wf]
    · exact F64.round_wf _ _ _
  · split_ifs <;> rfl

theorem F64.sub_wf (x y : F64) : (F64.sub x y).wf = true := F64.add_wf x (F64.neg y)

/-- Adding a payment to the exactly computed residual of a debt gives the debt. -/
theorem F64.add_residual (q prev : F64) (hwf : prev.wf = true)
    (h : F64.isSum prev (F64.sub prev q) q = true) :
    F64.eq (F64.add q (F64.sub prev q)) prev = true := by
  obtain ⟨hsum, hp, hr, hq⟩ := F64.isSum_toRat h
  have := F64.add_exact q (F64.sub prev q) prev hq hr hp hwf (by rw [hsum]; ring)
  exact (F64.eq_iff_toRat _ _ this.1 hp).mpr this.2.1

/-- The recurrence of the debt along `scheduleLoop`. -/
theorem scheduleLoop_recurrence (credit : Credit) (mir : F64) :
    ∀ (n i : Nat) (rem : F64) (k : Nat) (p : PaymentSchedule), rem.wf = true →
      (scheduleLoop credit mir n i rem)[k]? = some p →
      (debtBefore rem (scheduleLoop credit mir n i rem) k).wf = true ∧
      p.Interest = F64.mul (debtBefore rem (scheduleLoop credit mir n i rem) k) mir ∧
      (((i + k : Nat) : Int) ≠ credit.Term - 1 →
        p.Principal = F64.sub credit.MonthlyPayment p.Interest ∧
        p.RemainingDebt =
          F64.sub (debtBefore rem (scheduleLoop credit mir n i rem) k) p.Principal) ∧
      (((i + k : Nat) : Int) = credit.Term - 1 →
        p.Principal = F64.add (F64.sub credit.MonthlyPayment p.Interest)
          (F64.sub (debtBefore rem (scheduleLoop credit mir n i rem) k)
            (F64.sub credit.MonthlyPayment p.Interest)) ∧
        p.RemainingDebt = F64.zero) := by
  intro n
  induction n with
  | zero => intro i rem k p _ h; simp [scheduleLoop] at h
  | succ n ih =>
    intro i rem k p hwf h
    cases k with
    | zero =>
      rw [scheduleLoop] at h
      simp only [List.getElem?_cons_zero, Option.some.injEq] at h
      subst h
      refine ⟨hwf, rfl, ?_, ?_⟩
      · intro hne
        have hne1 : (i : Int) ≠ credit.Term - 1 := by simpa using hne
        simp [debtBefore, hne1]
      · intro he
        have he1 : (i : Int) = credit.Term - 1 := by simpa using he
        simp [debtBefore, he1]
    | succ k =>
      have hwf2 : (if decide ((i : Int) = credit.Term - 1) = true then F64.zero
          else F64.sub rem (F64.sub credit.MonthlyPayment (F64.mul rem mir))).wf = true := by
        split_ifs
        · rfl
        · exact F64.sub_wf _ _
      have hrw : scheduleLoop credit mir (n + 1) i rem =
          { ID := 0, CreditID := credit.ID,
            PaymentDate := credit.StartDate.AddDate 0 ((i : Int) + 1) 0,
            Amount := credit.MonthlyPayment,
            Principal := if decide ((i : Int) = credit.Term - 1) = true then
                F64.add (F64.sub credit.MonthlyPayment (F64.mul rem mir))
                  (F64.sub rem (F64.sub credit.MonthlyPayment (F64.mul rem mir)))
              else F64.sub credit.MonthlyPayment (F64.mul rem mir),
            Interest := F64.mul rem mir,
            RemainingDebt := if decide ((i : Int) = credit.Term - 1) = true then F64.zero
              else F64.sub rem (F64.sub credit.MonthlyPayment (F64.mul rem mir)),
            Status := PaymentStatus.PaymentStatusPending, PaidDate := none } ::
          scheduleLoop credit mir n (i + 1)
            (if decide ((i : Int) = credit.Term - 1) = true then F64.zero
              else F64.sub rem (F64.sub credit.MonthlyPayment (F64.mul rem mir))) := by
        rw [scheduleLoop]
      rw [hrw] at h ⊢
      simp only [List.getElem?_cons_succ] at h
      have hih := ih (i + 1) _ k p hwf2 h
      have e : i + 1 + k = i + (k + 1) := by omega
      rw [e] at hih
      have hd : ∀ (x : PaymentSchedule) (l : List PaymentSchedule),
          x.RemainingDebt = (if decide ((i : Int) = credit.Term - 1) = true then F64.zero
              else F64.sub rem (F64.sub credit.MonthlyPayment (F64.mul rem mir))) →
          debtBefore rem (x :: l) (k + 1) =
            debtBefore (if decide ((i : Int) = credit.Term - 1) = true then F64.zero
              else F64.sub rem (F64.sub credit.MonthlyPayment (F64.mul rem mir))) l k := by
        intro x l hx
        cases k with
        | zero => simp [debtBefore, hx]
        | succ j => simp [debtBefore]
      rw [hd _ _ rfl]
      exact hih

/-! ## The credit application -/


/-- The store after a successful `Apply`. -/
theorem apply_ok (f : Faults) (s : Store) (now : Time) (keyRate : Except Err F64)
    (userID : Int) (application : CreditApplication) (r : CreditResponse) (s1 : Store)
    (h : Apply f s now keyRate userID application = (.ok r, s1)) :
    ∃ account, s.accounts.find? (fun a => decide (a.ID = application.AccountID)) = some account ∧
      account.UserID = userID ∧ F64.le application.Amount F64.zero = false ∧
      3 ≤ application.Term ∧ application.Term ≤ 60 ∧
      r = ToCreditResponse { newCredit userID application keyRate now with ID := s.seq + 1 } ∧
      s1 = { s with
        accounts := AccountRepository.setBalance s.accounts application.AccountID
          (F64.add account.Balance application.Amount),
        credits := s.credits ++ [{ newCredit userID application keyRate now with ID := s.seq + 1 }],
        payments := s.payments ++ PaymentRepository.withIDs (s.seq + 1)
          (generatePaymentSchedule
            { newCredit userID application keyRate now with ID := s.seq + 1 }),
        seq := s.seq + 1 + (generatePaymentSchedule
            { newCredit userID application keyRate now with ID := s.seq + 1 }).length } := by
  by_cases hle : F64.le application.Amount F64.zero = true
  · simp [Apply, hle] at h
  by_cases ht : application.Term < 3 ∨ application.Term > 60
  · simp [Apply, hle, ht] at h
  by_cases hr : f.read 0 = true
  · simp [Apply, hle, ht, AccountRepository.GetByID, hr] at h
  cases hfind : s.accounts.find? (fun a => decide (a.ID = application.AccountID)) with
  | none => simp [Apply, hle, ht, AccountRepository.GetByID, hr, hfind] at h
  | some account =>
    have hid : account.ID = application.AccountID := find_ID hfind
    by_cases hown : account.UserID = userID
    swap
    · simp [Apply, hle, ht, AccountRepository.GetByID, hr, hfind, hown] at h
    by_cases hb : f.beginTx = true
    · simp [Apply, hle, ht, AccountRepository.GetByID, hr, hfind, hown, BeginTx, hb] at h
    by_cases hw0 : f.write 0 = true
    · simp [Apply, hle, ht, AccountRepository.GetByID, hr, hfind, hown, BeginTx, hb,
        CreditRepository.CreateTx, hw0, Tx.Rollback] at h
    by_cases hw1 : f.write 1 = true
    · simp [Apply, hle, ht, AccountRepository.GetByID, hr, hfind, hown, BeginTx, hb,
        CreditRepository.CreateTx, hw0, PaymentRepository.CreateBatchTx, hw1, Tx.Rollback] at h
    by_cases hw2 : f.write 2 = true
    · simp [Apply, hle, ht, AccountRepository.GetByID, hr, hfind, hown, BeginTx, hb,
        CreditRepository.CreateTx, hw0, PaymentRepository.CreateBatchTx, hw1,
        AccountRepository.UpdateBalanceTx, hw2, Tx.Rollback] at h
    by_cases hc : f.commit = true
    · simp [Apply, hle, ht, AccountRepository.GetByID, hr, hfind, hown, BeginTx, hb,
        CreditRepository.CreateTx, hw0, PaymentRepository.CreateBatchTx, hw1,
        AccountRepository.UpdateBalanceTx, hw2, Tx.Commit, hc, Tx.Rollback] at h
    simp only [Apply, hle, ht, AccountRepository.GetByID, hr, hfind, hown, BeginTx, hb,
        CreditRepository.CreateTx, hw0, PaymentRepository.CreateBatchTx, hw1,
        AccountRepository.UpdateBalanceTx, hw2, Tx.Commit, hc, Tx.Rollback, hid] at h
    simp [hown] at h
    push_neg at ht
    refine ⟨account, rfl, hown, by simpa using hle, ht.1, ht.2, h.1.symm, ?_⟩
    rw [← h.2, hid]

/-- `Apply` succeeds when the application is valid and no store call fails. -/
theorem apply_run (s : Store) (now : Time) (keyRate : Except Err F64)
    (userID : Int) (application : CreditApplication) (account : Account)
    (hfind : s.accounts.find? (fun a => decide (a.ID = application.AccountID)) = some account)
    (howner : account.UserID = userID) (hle : F64.le application.Amount F64.zero = false)
    (h3 : 3 ≤ application.Term) (h60 : application.Term ≤ 60) :
    (Apply Faults.none s now keyRate userID application).1 =
      .ok (ToCreditResponse { newCredit userID application keyRate now with ID := s.seq + 1 }) := by
  have ht : ¬ (application.Term < 3 ∨ application.Term > 60) := by omega
  simp [Apply, hle, ht, AccountRepository.GetByID, hfind, howner, BeginTx,
    CreditRepository.CreateTx, PaymentRepository.CreateBatchTx,
    AccountRepository.UpdateBalanceTx, Tx.Commit, Faults.none]

/-- A failing `Apply` leaves the store as it was. -/
theorem apply_fail (f : Faults) (s : Store) (now : Time) (keyRate : Except Err F64)
    (userID : Int) (application : CreditApplication) (e : Err)
    (h : (Apply f s now keyRate userID application).1 = .error e) :
    (Apply f s now keyRate userID application).2 = s := by
  revert h
  unfold Apply
  simp only [AccountRepository.GetByID, BeginTx, CreditRepository.CreateTx,
    PaymentRepository.CreateBatchTx, AccountRepository.UpdateBalanceTx, Tx.Commit, Tx.Rollback]
  rcases f.read 0 with _ | _ <;> (try simp) <;>
    rcases f.beginTx with _ | _ <;> (try simp) <;> rcases f.write 0 with _ | _ <;> (try simp) <;>
    rcases f.write 1 with _ | _ <;> (try simp) <;> rcases f.write 2 with _ | _ <;> (try simp) <;>
    rcases f.commit with _ | _ <;> (try simp) <;> (repeat' split) <;> (try simp_all)

set_option maxRecDepth 100000 in
set_option exponentiation.threshold 3000 in
/-- The pricing of 100000 over 12 months at a key rate of 7.5. -/
theorem price_example :
    price (F64.ofNat 100000) 12 (.error Err.db) =
      (F64.finite false 7036874417766400 (-49), F64.finite false 4897382169293884 (-39),
       F64.finite false 7346073253940826 (-36)) ∧
    price (F64.ofNat 100000) 12 (.ok (F64.finite false 15 (-1))) =
      (F64.finite false 7036874417766400 (-49), F64.finite false 4897382169293884 (-39),
       F64.finite false 7346073253940826 (-36)) := by
  decide

/-- The float64 monthly payment of the example against the exact annuity value. -/
theorem annuity_example :
    |(F64.finite false 4897382169293884 (-39)).toRat -
      annuityPayment 100000 (25 / 2 / 100 / 12) 12| < 1 / 10 ^ 9 ∧
    |annuityPayment 100000 (25 / 2 / 100 / 12) 12 - 890829 / 100| < 1 / 200 ∧
    (F64.finite false 7036874417766400 (-49)).toRat = 25 / 2 := by
  simp only [F64.toRat, annuityPayment]
  norm_num [abs_lt]

/-- A batch insert adds as many rows as it is given. -/
theorem PaymentRepository.withIDs_length :
    ∀ (l : List PaymentSchedule) (seq : Int), (PaymentRepository.withIDs seq l).length = l.length := by
  intro l
  induction l with
  | nil => intro seq; rfl
  | cons p ps ih => intro seq; simp [PaymentRepository.withIDs, ih]

/-- A batch insert changes nothing but the ids of the rows. -/
theorem PaymentRepository.withIDs_mem :
    ∀ (l : List PaymentSchedule) (seq : Int) (p : PaymentSchedule),
      p ∈ PaymentRepository.withIDs seq l → ∃ q ∈ l, ∃ id, p = { q with ID := id } := by
  intro l
  induction l with
  | nil => intro seq p h; simp [PaymentRepository.withIDs] at h
  | cons q qs ih =>
    intro seq p h
    simp only [PaymentRepository.withIDs, List.mem_cons] at h
    rcases h with h | h
    · exact ⟨q, List.mem_cons_self _ _, _, h⟩
    · obtain ⟨q1, hq1, id, hid⟩ := ih _ p h
      exact ⟨q1, List.mem_cons_of_mem _ hq1, id, hid⟩

/-! ## The payment sweep -/

/-- The credit found by its id after `CreditRepository.UpdateStatus`. -/
theorem find_setStatus_self (credits : List Credit) (id : Int) (st : CreditStatus) (c : Credit)
    (h : credits.find? (fun x => decide (x.ID = id)) = some c) :
    (credits.map (fun x => if x.ID = id then { x with Status := st } else x)).find?
      (fun x => decide (x.ID = id)) = some { c with Status := st } := by
  induction credits with
  | nil => simp at h
  | cons x xs ih =>
    rw [List.map_cons, List.find?_cons]
    rw [List.find?_cons] at h
    by_cases hx : x.ID = id
    · subst hx
      rw [if_pos rfl]
      simp only [decide_True] at h ⊢
      cases h
      rfl
    · rw [if_neg hx]
      simp only [hx, decide_False] at h ⊢
      exact ih h

/-- The sweep over a single due installment when no store call fails. -/
theorem sweep_single (s : Store) (now : Time) (p : PaymentSchedule)
    (hdue : s.payments.filter (fun q =>
      decide (q.Status = PaymentStatus.PaymentStatusPending) && Time.le q.PaymentDate now) = [p]) :
    ProcessPendingPayments Faults.none (fun _ => Faults.none) s now =
      (none, processOne Faults.none s now p) := by
  simp [ProcessPendingPayments, PaymentRepository.GetPendingPayments, Faults.none, hdue,
    sweepLoop]

/-- An abandoned iteration of the sweep leaves the store as it was. -/
theorem processOne_of_fails (f : Faults) (s : Store) (now : Time) (p : PaymentSchedule)
    (h : iterationFails f s p = true) : processOne f s now p = s := by
  unfold iterationFails at h
  unfold processOne
  cases hc : CreditRepository.GetByID f 0 s p.CreditID with
  | error e => rfl
  | ok credit =>
    simp only [hc] at h ⊢
    cases ha : AccountRepository.GetByID f 1 s credit.AccountID with
    | error e => rfl
    | ok account =>
      simp only [ha] at h ⊢
      by_cases hb : f.beginTx = true
      · simp [BeginTx, hb]
      · simp only [hb, Bool.false_or, Bool.and_eq_true, Bool.or_eq_true] at h
        obtain ⟨hge, hw⟩ := h
        by_cases hw0 : f.write 0 = true
        · simp [BeginTx, hb, hge, AccountRepository.UpdateBalanceTx, hw0, Tx.Rollback]
        · have hcm : f.commit = true := by
            rcases hw with h | h
            · exact absurd h hw0
            · exact h
          simp [BeginTx, hb, hge, AccountRepository.UpdateBalanceTx, hw0, Tx.Commit, hcm]

/-- The sweep over two lists in a row. -/
theorem sweepLoop_append (fs : Nat → Faults) (now : Time) :
    ∀ (l1 l2 : List PaymentSchedule) (k : Nat) (s : Store),
      sweepLoop fs now k s (l1 ++ l2) =
        sweepLoop fs now (k + l1.length) (sweepLoop fs now k s l1) l2 := by
  intro l1
  induction l1 with
  | nil => intro l2 k s; rfl
  | cons p ps ih =>
    intro l2 k s
    rw [List.cons_append, sweepLoop, sweepLoop, ih, List.length_cons]
    congr 1
    omega

/-- The sweep depends on the faults of its own iterations only. -/
theorem sweepLoop_congr (fs gs : Nat → Faults) (now : Time) :
    ∀ (l : List PaymentSchedule) (k j : Nat) (s : Store),
      (∀ i, i < l.length → fs (k + i) = gs (j + i)) →
      sweepLoop fs now k s l = sweepLoop gs now j s l := by
  intro l
  induction l with
  | nil => intro k j s _; rfl
  | cons p ps ih =>
    intro k j s h
    simp only [sweepLoop]
    have h0 := h 0 (by simp)
    simp only [Nat.add_zero] at h0
    rw [h0]
    apply ih
    intro i hi
    have := h (i + 1) (by simp; omega)
    rw [show k + 1 + i = k + (i + 1) by omega, show j + 1 + i = j + (i + 1) by omega]
    exact this

/-! ## Credits are written by `Apply` and the sweep only -/

theorem deposit_credits (f : Faults) (s : Store) (now : Time) (request : DepositRequest)
    (userID : Int) : (Deposit f s now request userID).2.credits = s.credits := by
  cases h : (Deposit f s now request userID).1 with
  | none =>
    obtain ⟨_, _, _, _, hs⟩ := deposit_ok f s now request userID _ (Prod.ext h rfl)
    have := congrArg Store.credits hs
    exact this
  | some e =>
    exact congrArg Store.credits (deposit_fail f s now request userID (by rw [h]; simp))

theorem withdraw_credits (f : Faults) (s : Store) (now : Time) (request : WithdrawRequest)
    (userID : Int) : (Withdraw f s now request userID).2.credits = s.credits := by
  cases h : (Withdraw f s now request userID).1 with
  | none =>
    obtain ⟨_, _, _, _, _, hs⟩ := withdraw_ok f s now request userID _ (Prod.ext h rfl)
    have := congrArg Store.credits hs
    exact this
  | some e =>
    exact congrArg Store.credits (withdraw_fail f s now request userID (by rw [h]; simp))

theorem transfer_credits (f : Faults) (s : Store) (now : Time) (request : TransferRequest)
    (userID : Int) : (Transfer f s now request userID).2.credits = s.credits := by
  cases h : (Transfer f s now request userID).1 with
  | none =>
    obtain ⟨_, _, _, _, _, _, _, _, hs⟩ := transfer_ok f s now request userID _ (Prod.ext h rfl)
    have := congrArg Store.credits hs
    exact this
  | some e =>
    exact congrArg Store.credits (transfer_fail f s now request userID (by rw [h]; simp))

theorem processPayment_credits (f : Faults) (s : Store) (request : CardPaymentRequest)
    (userID : Int) : (ProcessPayment f s request userID).2.credits = s.credits := by
  unfold ProcessPayment
  simp only [CardRepository.GetByID, AccountRepository.GetByID, BeginTx,
    AccountRepository.UpdateBalanceTx, Tx.Commit, Tx.Rollback]
  rcases f.read 0 with _ | _ <;> (try simp) <;> rcases f.read 1 with _ | _ <;> (try simp) <;>
    rcases f.beginTx with _ | _ <;> (try simp) <;> rcases f.write 0 with _ | _ <;> (try simp) <;>
    rcases f.write 1 with _ | _ <;> (try simp) <;> rcases f.write 2 with _ | _ <;> (try simp) <;>
    rcases f.commit with _ | _ <;> (try simp) <;> (repeat' split) <;> (try simp_all)

theorem statusStep_list_refl (l : List Credit) : List.Forall₂ statusStep l l := by
  induction l with
  | nil => exact List.Forall₂.nil
  | cons c cs ih => exact List.Forall₂.cons (Or.inl rfl) ih

theorem statusStep_list_map (l : List Credit) (id : Int) :
    List.Forall₂ statusStep l (l.map (fun c =>
      if c.ID = id then { c with Status := CreditStatus.CreditStatusOverdue } else c)) := by
  induction l with
  | nil => exact List.Forall₂.nil
  | cons c cs ih =>
    rw [List.map_cons]
    refine List.Forall₂.cons ?_ ih
    by_cases h : c.ID = id
    · rw [if_pos h]; exact Or.inr rfl
    · rw [if_neg h]; exact Or.inl rfl

theorem statusStep_trans {a b c : Credit} (h1 : statusStep a b) (h2 : statusStep b c) :
    statusStep a c := by
  rcases h1 with rfl | rfl
  · exact h2
  · rcases h2 with rfl | rfl
    · exact Or.inr rfl
    · exact Or.inr rfl

theorem statusStep_list_trans :
    ∀ (l1 l2 l3 : List Credit), List.Forall₂ statusStep l1 l2 → List.Forall₂ statusStep l2 l3 →
      List.Forall₂ statusStep l1 l3 := by
  intro l1 l2 l3 h1
  induction h1 generalizing l3 with
  | nil => intro h2; cases h2; exact List.Forall₂.nil
  | cons hab _ ih =>
    intro h2
    cases h2 with
    | cons hbc h2 => exact List.Forall₂.cons (statusStep_trans hab hbc) (ih _ h2)

theorem statusStep_list_mem :
    ∀ (l1 l2 : List Credit), List.Forall₂ statusStep l1 l2 →
      ∀ c1 ∈ l2, ∃ c ∈ l1, statusStep c c1 := by
  intro l1 l2 h
  induction h with
  | nil => intro c1 hc; cases hc
  | cons hab _ ih =>
    intro c1 hc
    rcases List.mem_cons.mp hc with rfl | hc
    · exact ⟨_, List.mem_cons_self _ _, hab⟩
    · obtain ⟨c, hm, hs⟩ := ih c1 hc
      exact ⟨c, List.mem_cons_of_mem _ hm, hs⟩

theorem processOne_credits (f : Faults) (s : Store) (now : Time) (p : PaymentSchedule) :
    List.Forall₂ statusStep s.credits (processOne f s now p).credits := by
  unfold processOne
  simp only [CreditRepository.GetByID, AccountRepository.GetByID, BeginTx,
    AccountRepository.UpdateBalanceTx, Tx.Commit, Tx.Rollback, PaymentRepository.UpdateStatus,
    CreditRepository.UpdateStatus]
  rcases f.read 0 with _ | _ <;> rcases f.read 1 with _ | _ <;>
    rcases f.beginTx with _ | _ <;> rcases f.write 0 with _ | _ <;>
    rcases f.write 1 with _ | _ <;> rcases f.write 2 with _ | _ <;>
    rcases f.commit with _ | _ <;> simp only [Bool.false_eq_true, if_false, if_true] <;>
    (repeat' split) <;>
    (first
      | exact statusStep_list_refl _
      | exact statusStep_list_map _ _)

theorem sweepLoop_credits (fs : Nat → Faults) (now : Time) (ps : List PaymentSchedule) :
    ∀ k s, List.Forall₂ statusStep s.credits (sweepLoop fs now k s ps).credits := by
  induction ps with
  | nil => intro k s; exact statusStep_list_refl _
  | cons p rest ih =>
    intro k s
    rw [sweepLoop]
    exact statusStep_list_trans _ _ _ (processOne_credits (fs k) s now p) (ih _ _)

theorem processPendingPayments_credits (f0 : Faults) (fs : Nat → Faults) (s : Store)
    (now : Time) :
    List.Forall₂ statusStep s.credits (ProcessPendingPayments f0 fs s now).2.credits := by
  unfold ProcessPendingPayments
  split
  · exact statusStep_list_refl _
  · exact sweepLoop_credits fs now _ 0 s

theorem apply_credits (f : Faults) (s : Store) (now : Time) (keyRate : Except Err F64)
    (userID : Int) (application : CreditApplication) :
    ∃ added, (Apply f s now keyRate userID application).2.credits = s.credits ++ added ∧
      ∀ c ∈ added, c.Status = CreditStatus.CreditStatusApproved := by
  cases h : (Apply f s now keyRate userID application).1 with
  | error e =>
    exact ⟨[], by simp [apply_fail f s now keyRate userID application e h], by simp⟩
  | ok r =>
    obtain ⟨_, _, _, _, _, _, _, hs⟩ :=
      apply_ok f s now keyRate userID application r _ (Prod.ext h rfl)
    have := congrArg Store.credits hs
    exact ⟨[_], this, by simp [newCredit]⟩

theorem step_credits : ∀ (s s1 : Store), Step s s1 →
    ∃ kept added, s1.credits = kept ++ added ∧ List.Forall₂ statusStep s.credits kept ∧
      ∀ c ∈ added, c.Status = CreditStatus.CreditStatusApproved
  | _, _, .deposit f s now request userID =>
    ⟨s.credits, [], by simp [deposit_credits], statusStep_list_refl _, by simp⟩
  | _, _, .withdraw f s now request userID =>
    ⟨s.credits, [], by simp [withdraw_credits], statusStep_list_refl _, by simp⟩
  | _, _, .transfer f s now request userID =>
    ⟨s.credits, [], by simp [transfer_credits], statusStep_list_refl _, by simp⟩
  | _, _, .payment f s request userID =>
    ⟨s.credits, [], by simp [processPayment_credits], statusStep_list_refl _, by simp⟩
  | _, _, .apply f s now keyRate userID application => by
    obtain ⟨added, h1, h2⟩ := apply_credits f s now keyRate userID application
    exact ⟨s.credits, added, h1, statusStep_list_refl _, h2⟩
  | _, _, .sweep f0 fs s now =>
    ⟨_, [], by simp, processPendingPayments_credits f0 fs s now, by simp⟩
  | _, _, .other s s1 h => ⟨s.credits, [], by simp [h], statusStep_list_refl _, by simp⟩

theorem reachable_status (s : Store) (h : Reachable s) :
    ∀ c ∈ s.credits, c.Status = CreditStatus.CreditStatusApproved ∨
      c.Status = CreditStatus.CreditStatusOverdue := by
  induction h with
  | init s h => intro c hc; rw [h] at hc; cases hc
  | step s s1 _ hs ih =>
    intro c hc
    obtain ⟨kept, added, he, hk, ha⟩ := step_credits s s1 hs
    rw [he, List.mem_append] at hc
    rcases hc with hc | hc
    · obtain ⟨c0, hm, hst⟩ := statusStep_list_mem _ _ hk c hc
      rcases hst with rfl | rfl
      · exact ih c hm
      · exact Or.inr rfl
    · exact Or.inl (ha c hc)

/-! ## Balance prediction -/

theorem predictLoop_length (now : Time) (d : F64) :
    ∀ (n i : Nat) (b : F64), (predictLoop now d n i b).length = n := by
  intro n
  induction n with
  | zero => intro i b; rfl
  | succ n ih => intro i b; simp [predictLoop, ih]

theorem predictLoop_getElem (now : Time) (d : F64) :
    ∀ (n i : Nat) (b : F64) (k : Nat) (p : BalancePrediction),
      (predictLoop now d n i b)[k]? = some p →
      p.Balance = (fun x => F64.add x d)^[k + 1] b := by
  intro n
  induction n with
  | zero => intro i b k p h; simp [predictLoop] at h
  | succ n ih =>
    intro i b k p h
    rw [predictLoop] at h
    cases k with
    | zero =>
      simp only [List.getElem?_cons_zero, Option.some.injEq] at h
      subst h
      rfl
    | succ k =>
      simp only [List.getElem?_cons_succ] at h
      have := ih (i + 1) _ k p h
      rw [this]
      rfl

/-- The balances of a projection that runs without rounding. -/
theorem iterate_add_exact (d : F64) :
    ∀ (n : Nat) (b : F64), predictExact d n b = true →
      ∀ k, k ≤ n → ((fun x => F64.add x d)^[k] b).toRat = b.toRat + (k : ℚ) * d.toRat := by
  intro n
  induction n with
  | zero =>
    intro b _ k hk
    have : k = 0 := by omega
    subst this
    simp
  | succ n ih =>
    intro b h k hk
    rw [predictExact, Bool.and_eq_true] at h
    cases k with
    | zero => simp
    | succ k =>
      rw [Function.iterate_succ_apply, ih _ h.2 k (by omega), (F64.isSum_toRat h.1).1]
      push_cast
      ring

/-- A projection by a daily change of zero keeps the balance. -/
theorem iterate_add_zero (b : F64) (hb : b ≠ F64.nan) (hwf : b.wf = true) :
    ∀ k, F64.eq ((fun x => F64.add x F64.zero)^[k] b) b = true := by
  intro k
  cases b with
  | nan => exact absurd rfl hb
  | inf s =>
    have : (fun x => F64.add x F64.zero)^[k] (F64.inf s) = F64.inf s :=
      Function.iterate_fixed rfl k
    rw [this]
    cases s <;> rfl
  | finite s m e =>
    have main : ∀ (k : Nat) (x : F64), x.isFinite = true → x.wf = true →
        x.toRat = (F64.finite s m e).toRat →
        ((fun x => F64.add x F64.zero)^[k] x).isFinite = true ∧
          ((fun x => F64.add x F64.zero)^[k] x).toRat = (F64.finite s m e).toRat := by
      intro k
      induction k with
      | zero => intro x hx _ h; exact ⟨hx, h⟩
      | succ k ih =>
        intro x hx hxw h
        rw [Function.iterate_succ_apply]
        have h1 := F64.add_exact x F64.zero x hx rfl hx hxw (by simp [F64.toRat, F64.zero])
        exact ih _ h1.1 h1.2.2 (h1.2.1.trans h)
    have h2 := main k (F64.finite s m e) rfl hwf rfl
    exact (F64.eq_iff_toRat _ (F64.finite s m e) h2.1 rfl).mpr h2.2

/-- The totals of `PredictBalance` are the float64 sums, in the order of the
list, of the DEPOSIT amounts and of the WITHDRAW and PAYMENT amounts. -/
theorem totals_eq_foldl :
    ∀ (l : List Transaction) (i e : F64),
      totals l i e =
        ((l.filter (fun t => decide (t.Typ = TransactionType.TransactionTypeDeposit))).foldl
            (fun acc t => F64.add acc t.Amount) i,
         (l.filter (fun t => decide (t.Typ = TransactionType.TransactionTypeWithdraw ∨
              t.Typ = TransactionType.TransactionTypePayment))).foldl
            (fun acc t => F64.add acc t.Amount) e) := by
  intro l
  induction l with
  | nil => intro i e; rfl
  | cons t rest ih =>
    intro i e
    rw [totals]
    cases ht : t.Typ <;> simp [ht, ih, List.filter_cons]

/-- Without DEPOSIT, WITHDRAW and PAYMENT entries the daily change is zero. -/
theorem dailyChange_of_no_activity (l : List Transaction)
    (h : ∀ t ∈ l, t.Typ = TransactionType.TransactionTypeTransfer ∨
      t.Typ = TransactionType.TransactionTypeCredit) : dailyChange l = F64.zero := by
  have ht : ∀ (l : List Transaction), (∀ t ∈ l, t.Typ = TransactionType.TransactionTypeTransfer ∨
      t.Typ = TransactionType.TransactionTypeCredit) → ∀ i e, totals l i e = (i, e) := by
    intro l
    induction l with
    | nil => intro _ i e; rfl
    | cons t rest ih =>
      intro h i e
      rw [totals]
      rcases h t (List.mem_cons_self _ _) with h1 | h1 <;> simp [h1] <;>
        exact ih (fun u hu => h u (List.mem_cons_of_mem _ hu)) i e
  unfold dailyChange
  rw [ht l h]
  decide

/-- The result of `PredictBalance` on an account of the caller when the two
reads succeed. -/
theorem predictBalance_run (f : Faults) (s : Store) (now : Time) (accountID userID days : Int)
    (account : Account) (hr0 : f.read 0 = false) (hr1 : f.read 1 = false)
    (hfind : s.accounts.find? (fun a => decide (a.ID = accountID)) = some account)
    (howner : account.UserID = userID) :
    ∃ transactions,
      TransactionRepository.GetUserTransactionsByPeriod f 1 s userID
        (now.AddDate 0 0 (-30)) now = .ok transactions ∧
      PredictBalance f s now accountID userID days =
        .ok (predictLoop now (dailyChange transactions)
          (if days ≤ 0 ∨ days > 365 then 30 else days).toNat 0 account.Balance) := by
  simp [PredictBalance, AccountRepository.GetByID, hr0, hfind, howner,
    TransactionRepository.GetUserTransactionsByPeriod, hr1]

/-! ## Concurrent requests -/

/-- The two steps of a `Deposit` request, run one after the other, are the
method `Deposit` when no store call fails. -/
theorem deposit_split (s : Store) (now : Time) (request : DepositRequest) (userID : Int) :
    Deposit Faults.none s now request userID =
      match depositRead s request userID with
      | .error e => (some e, s)
      | .ok account => depositCommit s now request userID account := by
  unfold Deposit depositRead depositCommit
  by_cases hle : F64.le request.Amount F64.zero = true
  · simp [hle]
  · cases h : AccountRepository.GetByID Faults.none 0 s request.AccountID with
    | error e => simp [hle]
    | ok account => by_cases hown : account.UserID = userID <;> simp [hle, hown] <;> rfl

/-- The two steps of a `Withdraw` request, run one after the other, are the
method `Withdraw` when no store call fails. -/
theorem withdraw_split (s : Store) (now : Time) (request : WithdrawRequest) (userID : Int) :
    Withdraw Faults.none s now request userID =
      match withdrawRead s request userID with
      | .error e => (some e, s)
      | .ok account => withdrawCommit s now request userID account := by
  unfold Withdraw withdrawRead withdrawCommit
  by_cases hle : F64.le request.Amount F64.zero = true
  · simp [hle]
  · cases h : AccountRepository.GetByID Faults.none 0 s request.AccountID with
    | error e => simp [hle]
    | ok account =>
      by_cases hown : account.UserID = userID
      · cases hc : account.CanWithdraw request.Amount <;> simp [hle, hown, hc] <;> rfl
      · simp [hle, hown]

/-! ## Balances that stay non-negative -/

theorem F64.scaled_false_nonneg (m k : Nat) : 0 ≤ F64.scaled false m k := by
  simp [F64.scaled]

theorem F64.zero_le_finite (s : Bool) (m : Nat) (e : Int) :
    F64.le F64.zero (F64.finite s m e) = true ↔
      0 ≤ F64.scaled s m (e - min (-1074) e).toNat := by
  simp [F64.le, F64.zero, F64.scaled]

/-- A value rounded from a non-negative number is non-negative. -/
theorem F64.zero_le_round (m : Nat) (e : Int) :
    F64.le F64.zero (F64.round false m e) = true := by
  unfold F64.round
  simp only []
  split_ifs <;> first
    | rfl
    | (rw [F64.zero_le_finite]; exact F64.scaled_false_nonneg _ _)

/-- The sign of a scaled integer does not depend on the scale. -/
theorem F64.scaled_nonneg_iff (s : Bool) (m k j : Nat) :
    0 ≤ F64.scaled s m k ↔ 0 ≤ F64.scaled s m j := by
  cases s
  · simp [F64.scaled]
  · simp only [F64.scaled, if_true, Left.nonneg_neg_iff, Nat.cast_nonpos]
    constructor <;> intro h <;> rcases Nat.mul_eq_zero.mp h with h | h
    · simp [h]
    · exact absurd h (by positivity)
    · simp [h]
    · exact absurd h (by positivity)

/-- The float64 sum of two finite values whose exact sum is non-negative is
non-negative. -/
theorem F64.zero_le_add_finite (s1 : Bool) (m1 : Nat) (e1 : Int) (s2 : Bool) (m2 : Nat)
    (e2 : Int)
    (h : 0 ≤ F64.scaled s1 m1 (e1 - min e1 e2).toNat + F64.scaled s2 m2 (e2 - min e1 e2).toNat) :
    F64.le F64.zero (F64.add (F64.finite s1 m1 e1) (F64.finite s2 m2 e2)) = true := by
  unfold F64.add
  simp only []
  split_ifs with hc
  · simp [F64.le, F64.zero, F64.scaled]
  · have : decide (F64.scaled s1 m1 (e1 - min e1 e2).toNat +
        F64.scaled s2 m2 (e2 - min e1 e2).toNat < 0) = false := by
      simp only [decide_eq_false_iff_not, not_lt]; exact h
    rw [this]
    exact F64.zero_le_round _ _

/-- The float64 sum of two non-negative values is non-negative. -/
theorem F64.zero_le_add (x y : F64) (hx : F64.le F64.zero x = true)
    (hy : F64.le F64.zero y = true) : F64.le F64.zero (F64.add x y) = true := by
  cases x with
  | nan => simp [F64.le, F64.zero] at hx
  | inf s =>
    cases y with
    | nan => simp [F64.le, F64.zero] at hy
    | inf t =>
      cases s <;> cases t <;> simp [F64.le, F64.zero] at hx hy <;> rfl
    | finite t m e => cases s <;> simp [F64.le, F64.zero] at hx <;> rfl
  | finite s m e =>
    cases y with
    | nan => simp [F64.le, F64.zero] at hy
    | inf t => cases t <;> simp [F64.le, F64.zero] at hy <;> rfl
    | finite t n d =>
      apply F64.zero_le_add_finite
      rw [F64.zero_le_finite] at hx hy
      have h1 := (F64.scaled_nonneg_iff s m _ (e - min e d).toNat).mp hx
      have h2 := (F64.scaled_nonneg_iff t n _ (d - min e d).toNat).mp hy
      omega

theorem F64.scaled_not (s : Bool) (m k : Nat) : F64.scaled (!s) m k = - F64.scaled s m k := by
  cases s <;> simp [F64.scaled]

/-- The float64 difference `b - a` is non-negative when `a <= b` and `a` is
finite. -/
theorem F64.zero_le_sub (b a : F64) (hle : F64.le a b = true) (ha : a.isFinite = true) :
    F64.le F64.zero (F64.sub b a) = true := by
  cases a with
  | nan => simp [F64.isFinite] at ha
  | inf t => simp [F64.isFinite] at ha
  | finite t n d =>
    cases b with
    | nan => simp [F64.le] at hle
    | inf s => cases s <;> simp [F64.le] at hle <;> rfl
    | finite s m e =>
      unfold F64.sub F64.neg
      apply F64.zero_le_add_finite
      rw [F64.scaled_not]
      simp only [F64.le, decide_eq_true_eq] at hle
      rw [min_comm] at hle
      omega

/-- For a finite amount, `amount <= 0` being false means `0 <= amount`. -/
theorem F64.zero_le_of_not_le (a : F64) (ha : a.isFinite = true)
    (h : F64.le a F64.zero = false) : F64.le F64.zero a = true := by
  cases a with
  | nan => simp [F64.isFinite] at ha
  | inf t => simp [F64.isFinite] at ha
  | finite t n d =>
    simp only [F64.le, F64.zero, decide_eq_false_iff_not, not_le, decide_eq_true_eq] at h ⊢
    rw [min_comm] at h
    omega

/-- For a finite amount and a balance that is not NaN, `balance < amount` being
false means `amount <= balance`. -/
theorem F64.le_of_not_lt (b a : F64) (ha : a.isFinite = true)
    (hb : F64.le F64.zero b = true) (h : F64.lt b a = false) : F64.le a b = true := by
  cases a with
  | nan => simp [F64.isFinite] at ha
  | inf t => simp [F64.isFinite] at ha
  | finite t n d =>
    cases b with
    | nan => simp [F64.le, F64.zero] at hb
    | inf s => cases s <;> simp [F64.le, F64.zero] at hb <;> rfl
    | finite s m e =>
      simp only [F64.lt, F64.le, decide_eq_false_iff_not, not_lt, decide_eq_true_eq] at h ⊢
      rw [min_comm] at h
      omega

theorem Store.nonneg_iff (s : Store) :
    s.nonneg = true ↔ ∀ a ∈ s.accounts, F64.le F64.zero a.Balance = true := by
  simp [Store.nonneg, List.all_eq_true]

/-- Writing a non-negative balance keeps all balances non-negative. -/
theorem setBalance_nonneg (accounts : List Account) (id : Int) (b : F64)
    (h : ∀ a ∈ accounts, F64.le F64.zero a.Balance = true) (hb : F64.le F64.zero b = true) :
    ∀ a ∈ AccountRepository.setBalance accounts id b, F64.le F64.zero a.Balance = true := by
  intro a ha
  unfold AccountRepository.setBalance at ha
  obtain ⟨x, hx, rfl⟩ := List.mem_map.mp ha
  split_ifs
  · exact hb
  · exact h x hx

theorem mem_of_find {accounts : List Account} {id : Int} {a : Account}
    (h : accounts.find? (fun x => decide (x.ID = id)) = some a) : a ∈ accounts :=
  List.mem_of_find?_eq_some h

theorem processPayment_fail (f : Faults) (s : Store) (request : CardPaymentRequest)
    (userID : Int) (h : (ProcessPayment f s request userID).1 ≠ none) :
    (ProcessPayment f s request userID).2 = s := by
  revert h
  unfold ProcessPayment
  simp only [CardRepository.GetByID, AccountRepository.GetByID, BeginTx,
    AccountRepository.UpdateBalanceTx, Tx.Commit, Tx.Rollback]
  rcases f.read 0 with _ | _ <;> (try simp) <;> rcases f.read 1 with _ | _ <;> (try simp) <;>
    rcases f.beginTx with _ | _ <;> (try simp) <;> rcases f.write 0 with _ | _ <;> (try simp) <;>
    rcases f.commit with _ | _ <;> (try simp) <;> (repeat' split) <;> (try simp_all)

/-- The accounts after one iteration of the sweep: as before, or the account of
the credit debited by the amount of the installment, which its balance covers. -/
theorem processOne_accounts (f : Faults) (s : Store) (now : Time) (p : PaymentSchedule) :
    (processOne f s now p).accounts = s.accounts ∨
    ∃ credit account, s.credits.find? (fun c => decide (c.ID = p.CreditID)) = some credit ∧
      s.accounts.find? (fun a => decide (a.ID = credit.AccountID)) = some account ∧
      F64.ge account.Balance p.Amount = true ∧
      (processOne f s now p).accounts =
        AccountRepository.setBalance s.accounts account.ID
          (F64.sub account.Balance p.Amount) := by
  by_cases hr0 : f.read 0 = true
  · left; simp [processOne, CreditRepository.GetByID, hr0]
  cases hc : s.credits.find? (fun c => decide (c.ID = p.CreditID)) with
  | none => left; simp [processOne, CreditRepository.GetByID, hr0, hc]
  | some credit =>
    by_cases hr1 : f.read 1 = true
    · left; simp [processOne, CreditRepository.GetByID, hr0, hc, AccountRepository.GetByID, hr1]
    cases ha : s.accounts.find? (fun a => decide (a.ID = credit.AccountID)) with
    | none =>
      left; simp [processOne, CreditRepository.GetByID, hr0, hc, AccountRepository.GetByID, hr1, ha]
    | some account =>
      by_cases hb : f.beginTx = true
      · left
        simp [processOne, CreditRepository.GetByID, hr0, hc, AccountRepository.GetByID, hr1, ha,
          BeginTx, hb]
      by_cases hge : F64.ge account.Balance p.Amount = true
      · by_cases hw0 : f.write 0 = true
        · left
          simp [processOne, CreditRepository.GetByID, hr0, hc, AccountRepository.GetByID, hr1,
            ha, BeginTx, hb, hge, AccountRepository.UpdateBalanceTx, hw0, Tx.Rollback]
        by_cases hcm : f.commit = true
        · left
          simp [processOne, CreditRepository.GetByID, hr0, hc, AccountRepository.GetByID, hr1,
            ha, BeginTx, hb, hge, AccountRepository.UpdateBalanceTx, hw0, Tx.Commit, hcm]
        right
        refine ⟨credit, account, rfl, ha, hge, ?_⟩
        by_cases hw1 : f.write 1 = true <;>
          simp [processOne, CreditRepository.GetByID, hr0, hc, AccountRepository.GetByID, hr1,
            ha, BeginTx, hb, hge, AccountRepository.UpdateBalanceTx, hw0, Tx.Commit, hcm,
            PaymentRepository.UpdateStatus, hw1]
      · left
        by_cases hw1 : f.write 1 = true <;> by_cases hw2 : f.write 2 = true <;>
          simp [processOne, CreditRepository.GetByID, hr0, hc, AccountRepository.GetByID, hr1,
            ha, BeginTx, hb, hge, Tx.Rollback, PaymentRepository.UpdateStatus, hw1,
            CreditRepository.UpdateStatus, hw2]

theorem processOne_nonneg (f : Faults) (s : Store) (now : Time) (p : PaymentSchedule)
    (hs : s.nonneg = true) (hp : p.Amount.isFinite = true) :
    (processOne f s now p).nonneg = true := by
  rw [Store.nonneg_iff] at hs ⊢
  rcases processOne_accounts f s now p with h | ⟨credit, account, -, ha, hge, h⟩
  · rw [h]; exact hs
  · rw [h]
    exact setBalance_nonneg _ _ _ hs (F64.zero_le_sub _ _ hge hp)

theorem sweepLoop_nonneg (fs : Nat → Faults) (now : Time) (ps : List PaymentSchedule)
    (hp : ∀ p ∈ ps, p.Amount.isFinite = true) :
    ∀ k s, s.nonneg = true → (sweepLoop fs now k s ps).nonneg = true := by
  induction ps with
  | nil => intro k s hs; exact hs
  | cons p rest ih =>
    intro k s hs
    rw [sweepLoop]
    exact ih (fun q hq => hp q (List.mem_cons_of_mem _ hq)) _ _
      (processOne_nonneg (fs k) s now p hs (hp p (List.mem_cons_self _ _)))

theorem processPendingPayments_nonneg (f0 : Faults) (fs : Nat → Faults) (s : Store) (now : Time)
    (hs : s.nonneg = true) (hp : ∀ p ∈ s.payments, p.Amount.isFinite = true) :
    (ProcessPendingPayments f0 fs s now).2.nonneg = true := by
  unfold ProcessPendingPayments PaymentRepository.GetPendingPayments
  by_cases hr : f0.read 0 = true
  · simp [hr, hs]
  · simp only [hr]
    apply sweepLoop_nonneg
    · intro p hpm
      have := (List.perm_insertionSort _ _).mem_iff.mp hpm
      exact hp p (List.mem_filter.mp this).1
    · exact hs

/-! ## The schedule in exact arithmetic -/

theorem exactScheduleLoop_length (term : Int) (M r : ℚ) (adjust : Bool) :
    ∀ (n i : Nat) (rem : ℚ), (exactScheduleLoop term M r adjust n i rem).length = n := by
  intro n
  induction n with
  | zero => intro i rem; rfl
  | succ n ih => intro i rem; simp [exactScheduleLoop, ih]

/-- The rows of the exact loop without the final adjustment, in terms of the
debt recurrence. -/
theorem exactScheduleLoop_getElem (term : Int) (M r : ℚ) :
    ∀ (n i : Nat) (rem : ℚ) (k : Nat) (p : ExactInstallment),
      (exactScheduleLoop term M r false n i rem)[k]? = some p →
      p.Amount = M ∧ p.Interest = (exactDebtStep M r)^[k] rem * r ∧
      p.Principal = M - (exactDebtStep M r)^[k] rem * r ∧
      p.RemainingDebt = (exactDebtStep M r)^[k + 1] rem := by
  intro n
  induction n with
  | zero => intro i rem k p h; simp [exactScheduleLoop] at h
  | succ n ih =>
    intro i rem k p h
    rw [exactScheduleLoop] at h
    cases k with
    | zero =>
      simp only [List.getElem?_cons_zero, Option.some.injEq] at h
      subst h
      simp [exactDebtStep]
    | succ k =>
      simp only [List.getElem?_cons_succ, Bool.false_and, Bool.false_eq_true, if_false] at h
      have := ih (i + 1) _ k p h
      simpa [Function.iterate_succ_apply, exactDebtStep] using this

/-- When the debt is zero after `term` installments, the final adjustment
changes nothing. -/
theorem exactScheduleLoop_adjust (term : Int) (M r amount : ℚ)
    (hz : (exactDebtStep M r)^[term.toNat] amount = 0) :
    ∀ (n i : Nat), i + n = term.toNat → 1 ≤ term →
      exactScheduleLoop term M r true n i ((exactDebtStep M r)^[i] amount) =
        exactScheduleLoop term M r false n i ((exactDebtStep M r)^[i] amount) := by
  intro n
  induction n with
  | zero => intro i _ _; rfl
  | succ n ih =>
    intro i hi ht
    rw [exactScheduleLoop, exactScheduleLoop]
    simp only [Bool.true_and, Bool.false_and, Bool.false_eq_true, if_false, decide_eq_true_eq]
    have hstep : (exactDebtStep M r)^[i] amount -
        (M - (exactDebtStep M r)^[i] amount * r) = (exactDebtStep M r)^[i + 1] amount := by
      rw [Function.iterate_succ_apply']
      rfl
    by_cases hl : (i : Int) = term - 1
    · have hn : n = 0 := by omega
      subst hn
      have hT : i + 1 = term.toNat := by omega
      rw [if_pos hl, if_pos hl, hstep, hT, hz]
      simp [exactScheduleLoop]
    · rw [if_neg hl, if_neg hl, hstep]
      have := ih (i + 1) (by omega) ht
      rw [this]

/-- The closed form of the debt after `j` installments when the monthly
payment is the annuity payment. -/
theorem exactDebt_closed (amount r : ℚ) (n : Nat) (hr : 0 < r) (hn : 1 ≤ n) :
    ∀ j, (exactDebtStep (amount * r * (1 + r) ^ n / ((1 + r) ^ n - 1)) r)^[j] amount =
      amount * ((1 + r) ^ n - (1 + r) ^ j) / ((1 + r) ^ n - 1) := by
  have h1 : (1 : ℚ) < (1 + r) ^ n := one_lt_pow₀ (by linarith) (by omega)
  have hD : (1 + r) ^ n - 1 ≠ 0 := by linarith
  intro j
  induction j with
  | zero =>
    simp only [Function.iterate_zero, id_eq, pow_zero]
    field_simp
  | succ j ih =>
    rw [Function.iterate_succ_apply', ih]
    unfold exactDebtStep
    field_simp
    ring

/-! ## Rounding errors of float64 addition and subtraction -/

/-- The leading bit of a positive number. -/
theorem F64.two_pow_le_of_bitLen (m : Nat) (hm : m ≠ 0) : 2 ^ (F64.bitLen m - 1) ≤ m := by
  by_contra h
  have h1 : m < 2 ^ (F64.bitLen m - 1) := by omega
  have h2 := (F64.bitLen_le_iff m (F64.bitLen m - 1)).mpr h1
  have h3 : F64.bitLen m ≠ 0 := by
    intro h0
    have := F64.lt_two_pow_bitLen m
    rw [h0] at this
    omega
  omega

/-- The error of rounding to nearest is at most `2^-53` times the rounded
value, for an exact value whose exponent is not below the least exponent. -/
theorem F64.round_error (s : Bool) (m : Nat) (e : Int) (he : -1074 ≤ e)
    (s1 : Bool) (m1 : Nat) (e1 : Int) (h : F64.round s m e = F64.finite s1 m1 e1) :
    s1 = s ∧ |(m1 : ℚ) * 2 ^ e1 - (m : ℚ) * 2 ^ e| ≤ (m1 : ℚ) * 2 ^ e1 / 2 ^ 53 := by
  unfold F64.round at h
  by_cases hm : m = 0
  · rw [if_pos hm] at h
    cases h
    subst hm
    simp
  rw [if_neg hm] at h
  simp only [] at h
  have hL := F64.lt_two_pow_bitLen m
  have hB := F64.two_pow_le_of_bitLen m hm
  have htl : e + (F64.bitLen m : Int) - 53 ≤ max (e + (F64.bitLen m : Int) - 53) (-1074) :=
    le_max_left _ _
  have hmax : max (e + (F64.bitLen m : Int) - 53) (-1074) = e + (F64.bitLen m : Int) - 53 ∨
      max (e + (F64.bitLen m : Int) - 53) (-1074) = -1074 := by
    rcases max_choice (e + (F64.bitLen m : Int) - 53) (-1074) with h | h
    · exact Or.inl h
    · exact Or.inr h
  generalize max (e + (F64.bitLen m : Int) - 53) (-1074) = t at h htl hmax
  by_cases hte : t ≤ e
  · rw [if_pos hte] at h
    by_cases hbig : 971 < t
    · rw [if_pos hbig] at h; cases h
    · rw [if_neg hbig] at h
      obtain ⟨hs, hm1, he1⟩ := F64.finite.inj h
      subst hs hm1 he1
      refine ⟨rfl, ?_⟩
      have : ((m * 2 ^ (e - t).toNat : Nat) : ℚ) * 2 ^ t = (m : ℚ) * 2 ^ e := by
        push_cast
        rw [F64.zpow_split t e hte]
        ring
      rw [this, sub_self, abs_zero]
      positivity
  · rw [if_neg hte] at h
    have htv : t = e + (F64.bitLen m : Int) - 53 := by omega
    obtain ⟨sh, hsh⟩ : ∃ sh : Nat, (t - e).toNat = sh + 1 := ⟨(t - e).toNat - 1, by omega⟩
    rw [hsh] at h
    simp only [Nat.add_sub_cancel] at h
    have hbl : F64.bitLen m = sh + 54 := by omega
    have hP : 2 ^ (sh + 1) = 2 * 2 ^ sh := by rw [pow_succ]; ring
    have hHpos : 0 < 2 ^ sh := by positivity
    have hdm : m = m / 2 ^ (sh + 1) * 2 ^ (sh + 1) + m % 2 ^ (sh + 1) := by
      rw [mul_comm]; exact (Nat.div_add_mod m _).symm
    have hrlt : m % 2 ^ (sh + 1) < 2 ^ (sh + 1) := Nat.mod_lt _ (by positivity)
    have hq52 : 2 ^ 52 ≤ m / 2 ^ (sh + 1) := by
      rw [Nat.le_div_iff_mul_le (by positivity), ← pow_add]
      rw [hbl] at hB
      have : 52 + (sh + 1) = sh + 54 - 1 := by omega
      rw [this]
      exact hB
    generalize m / 2 ^ (sh + 1) = q at h hdm hq52
    generalize m % 2 ^ (sh + 1) = r at h hdm hrlt
    -- the value of the result is `q1 * 2^t`
    have key : ∀ q1 : Nat, 2 ^ 52 ≤ q1 →
        ((q1 : Int) * 2 ^ (sh + 1) - (m : Int) ≤ 2 ^ sh ∧
          (m : Int) - (q1 : Int) * 2 ^ (sh + 1) ≤ 2 ^ sh) →
        |(q1 : ℚ) * 2 ^ t - (m : ℚ) * 2 ^ e| ≤ (q1 : ℚ) * 2 ^ t / 2 ^ 53 := by
      intro q1 hq1 hd
      have hte' : e ≤ t := by omega
      have hsplit : (2 : ℚ) ^ t = 2 ^ (sh + 1) * 2 ^ e := by
        rw [F64.zpow_split e t hte', hsh]
      have hpe : (0 : ℚ) < 2 ^ e := zpow_pos (by norm_num) _
      have h1 : (q1 : ℚ) * 2 ^ t - (m : ℚ) * 2 ^ e =
          ((q1 : ℚ) * 2 ^ (sh + 1) - (m : ℚ)) * 2 ^ e := by rw [hsplit]; ring
      have h2 : |(q1 : ℚ) * 2 ^ (sh + 1) - (m : ℚ)| ≤ 2 ^ sh := by
        rw [abs_le]
        constructor
        · have := hd.2
          have h3 : ((m : Int) : ℚ) - ((q1 : Int) : ℚ) * 2 ^ (sh + 1) ≤ 2 ^ sh := by
            exact_mod_cast this
          push_cast at h3
          linarith
        · have := hd.1
          have h3 : ((q1 : Int) : ℚ) * 2 ^ (sh + 1) - ((m : Int) : ℚ) ≤ 2 ^ sh := by
            exact_mod_cast this
          push_cast at h3
          linarith
      rw [h1, abs_mul, abs_of_pos hpe, hsplit]
      have h4 : (2 : ℚ) ^ sh ≤ (q1 : ℚ) * 2 ^ (sh + 1) / 2 ^ 53 := by
        rw [le_div_iff₀ (by positivity)]
        have h5 : ((2 ^ 52 : Nat) : ℚ) ≤ (q1 : ℚ) := by exact_mod_cast hq1
        push_cast at h5
        calc (2 : ℚ) ^ sh * 2 ^ 53 = 2 ^ 52 * 2 ^ (sh + 1) := by rw [pow_succ]; ring
          _ ≤ (q1 : ℚ) * 2 ^ (sh + 1) := by
            apply mul_le_mul_of_nonneg_right h5; positivity
      calc |(q1 : ℚ) * 2 ^ (sh + 1) - (m : ℚ)| * 2 ^ e ≤ 2 ^ sh * 2 ^ e := by
            apply mul_le_mul_of_nonneg_right h2 hpe.le
        _ ≤ (q1 : ℚ) * 2 ^ (sh + 1) / 2 ^ 53 * 2 ^ e := by
            apply mul_le_mul_of_nonneg_right h4 hpe.le
        _ = (q1 : ℚ) * (2 ^ (sh + 1) * 2 ^ e) / 2 ^ 53 := by ring
    by_cases hup : 2 ^ sh < r ∨ (r = 2 ^ sh ∧ q % 2 = 1)
    · rw [if_pos hup] at h
      have hk := key (q + 1) (by omega) (by
        have hPi : (2 : Int) ^ (sh + 1) = 2 * 2 ^ sh := by rw [pow_succ]; ring
        have hm' : (m : Int) = q * 2 ^ (sh + 1) + r := by exact_mod_cast hdm
        have hr' : (r : Int) < 2 ^ (sh + 1) := by exact_mod_cast hrlt
        have hge : (r : Int) ≥ 2 ^ sh := by
          rcases hup with h1 | h1
          · exact_mod_cast h1.le
          · exact_mod_cast h1.1.ge
        have e1' : (((q + 1 : Nat) : Int)) * 2 ^ (sh + 1) - (m : Int) = 2 * 2 ^ sh - r := by
          rw [hm', hPi]; push_cast; ring
        constructor
        · rw [e1']; linarith
        · have : (m : Int) - ((q + 1 : Nat) : Int) * 2 ^ (sh + 1) = -(2 * 2 ^ sh - r) := by
            rw [← e1']; ring
          rw [this, hPi] at *
          have hp' : (0 : Int) < 2 ^ sh := by positivity
          linarith)
      by_cases h53 : q + 1 = 2 ^ 53
      · rw [if_pos h53] at h
        by_cases hov : 971 < t + 1
        · rw [if_pos hov] at h; cases h
        · rw [if_neg hov] at h
          obtain ⟨hs, hm1, he1⟩ := F64.finite.inj h
          subst hs hm1 he1
          refine ⟨rfl, ?_⟩
          have hv : ((2 ^ 52 : Nat) : ℚ) * 2 ^ (t + 1) = ((q + 1 : Nat) : ℚ) * 2 ^ t := by
            rw [h53, zpow_add₀ (by norm_num : (2 : ℚ) ≠ 0)]
            push_cast
            ring
          rw [hv]
          exact hk
      · rw [if_neg h53] at h
        by_cases hov : 971 < t
        · rw [if_pos hov] at h; cases h
        · rw [if_neg hov] at h
          obtain ⟨hs, hm1, he1⟩ := F64.finite.inj h
          subst hs hm1 he1
          exact ⟨rfl, hk⟩
    · rw [if_neg hup] at h
      have hk := key q hq52 (by
        have hm' : (m : Int) = q * 2 ^ (sh + 1) + r := by exact_mod_cast hdm
        have hr0 : (0 : Int) ≤ r := by positivity
        have hp' : (0 : Int) < 2 ^ sh := by positivity
        have hrle : (r : Int) ≤ 2 ^ sh := by
          have : r ≤ 2 ^ sh := by
            by_contra hc
            exact hup (Or.inl (by omega))
          exact_mod_cast this
        constructor
        · rw [hm']; linarith
        · rw [hm']; linarith)
      by_cases h53 : q = 2 ^ 53
      · rw [if_pos h53] at h
        by_cases hov : 971 < t + 1
        · rw [if_pos hov] at h; cases h
        · rw [if_neg hov] at h
          obtain ⟨hs, hm1, he1⟩ := F64.finite.inj h
          subst hs hm1 he1
          refine ⟨rfl, ?_⟩
          have hv : ((2 ^ 52 : Nat) : ℚ) * 2 ^ (t + 1) = (q : ℚ) * 2 ^ t := by
            rw [h53, zpow_add₀ (by norm_num : (2 : ℚ) ≠ 0)]
            push_cast
            ring
          rw [hv]
          exact hk
      · rw [if_neg h53] at h
        by_cases hov : 971 < t
        · rw [if_pos hov] at h; cases h
        · rw [if_neg hov] at h
          obtain ⟨hs, hm1, he1⟩ := F64.finite.inj h
          subst hs hm1 he1
          exact ⟨rfl, hk⟩

/-- The rounding error of a float64 addition is at most `2^-53` times the
magnitude of its result. -/
theorem F64.add_error (x y : F64) (hx : x.wf = true) (hy : y.wf = true)
    (hxf : x.isFinite = true) (hyf : y.isFinite = true)
    (hf : (F64.add x y).isFinite = true) :
    |(F64.add x y).toRat - (x.toRat + y.toRat)| ≤ |(F64.add x y).toRat| / 2 ^ 53 := by
  cases x with
  | nan => simp [F64.isFinite] at hxf
  | inf s => simp [F64.isFinite] at hxf
  | finite s1 m1 e1 =>
    cases y with
    | nan => simp [F64.isFinite] at hyf
    | inf s => simp [F64.isFinite] at hyf
    | finite s2 m2 e2 =>
      simp only [F64.wf, Bool.and_eq_true, decide_eq_true_eq] at hx hy
      have he : -1074 ≤ min e1 e2 := le_min hx.1.2 hy.1.2
      have hsum : (F64.finite s1 m1 e1).toRat + (F64.finite s2 m2 e2).toRat =
          ((F64.scaled s1 m1 (e1 - min e1 e2).toNat +
            F64.scaled s2 m2 (e2 - min e1 e2).toNat : Int) : ℚ) * 2 ^ (min e1 e2) := by
        rw [F64.toRat_scaled s1 m1 e1 (min e1 e2) (min_le_left _ _),
          F64.toRat_scaled s2 m2 e2 (min e1 e2) (min_le_right _ _)]
        push_cast
        ring
      rw [hsum]
      unfold F64.add at hf ⊢
      simp only [] at hf ⊢
      generalize F64.scaled s1 m1 (e1 - min e1 e2).toNat +
        F64.scaled s2 m2 (e2 - min e1 e2).toNat = c at hf ⊢
      by_cases hc : c = 0
      · rw [if_pos hc, hc]
        simp [F64.toRat]
      · rw [if_neg hc] at hf ⊢
        cases hr : F64.round (decide (c < 0)) c.natAbs (min e1 e2) with
        | nan => rw [hr] at hf; simp [F64.isFinite] at hf
        | inf s => rw [hr] at hf; simp [F64.isFinite] at hf
        | finite s3 m3 e3 =>
          obtain ⟨hs, hb⟩ := F64.round_error _ _ _ he s3 m3 e3 hr
          subst hs
          have hp3 : (0 : ℚ) ≤ (m3 : ℚ) * 2 ^ e3 := by positivity
          by_cases hneg : c < 0
          · have hcq : (c : ℚ) = -((c.natAbs : Nat) : ℚ) := by
              have h1 : ((c.natAbs : Nat) : Int) = -c := by omega
              have h2 : (((c.natAbs : Nat) : Int) : ℚ) = ((-c : Int) : ℚ) := by rw [h1]
              rw [Int.cast_natCast, Int.cast_neg] at h2
              linarith
            simp only [F64.toRat, hneg, decide_True, if_true]
            rw [hcq]
            have e1' : -1 * (m3 : ℚ) * 2 ^ e3 - -((c.natAbs : Nat) : ℚ) * 2 ^ min e1 e2 =
                -((m3 : ℚ) * 2 ^ e3 - ((c.natAbs : Nat) : ℚ) * 2 ^ min e1 e2) := by ring
            have e2' : |-1 * (m3 : ℚ) * 2 ^ e3| = (m3 : ℚ) * 2 ^ e3 := by
              rw [show -1 * (m3 : ℚ) * 2 ^ e3 = -((m3 : ℚ) * 2 ^ e3) by ring, abs_neg,
                abs_of_nonneg hp3]
            rw [e1', abs_neg, e2']
            exact hb
          · have hcq : (c : ℚ) = ((c.natAbs : Nat) : ℚ) := by
              have h1 : ((c.natAbs : Nat) : Int) = c := by omega
              have h2 : (((c.natAbs : Nat) : Int) : ℚ) = ((c : Int) : ℚ) := by rw [h1]
              rw [Int.cast_natCast] at h2
              linarith
            simp only [F64.toRat, hneg, decide_False, Bool.false_eq_true, if_false]
            rw [hcq, one_mul, abs_of_nonneg hp3]
            exact hb

/-- The rounding error of a float64 subtraction is at most `2^-53` times the
magnitude of its result. -/
theorem F64.sub_error (x y : F64) (hx : x.wf = true) (hy : y.wf = true)
    (hxf : x.isFinite = true) (hyf : y.isFinite = true)
    (hf : (F64.sub x y).isFinite = true) :
    |(F64.sub x y).toRat - (x.toRat - y.toRat)| ≤ |(F64.sub x y).toRat| / 2 ^ 53 := by
  have hn : (F64.neg y).wf = true := by cases y <;> exact hy
  have hnf : (F64.neg y).isFinite = true := by rw [F64.isFinite_neg]; exact hyf
  have := F64.add_error x (F64.neg y) hx hn hxf hnf hf
  rw [F64.toRat_neg] at this
  have h2 : x.toRat - y.toRat = x.toRat + -y.toRat := sub_eq_add_neg _ _
  show |(F64.add x (F64.neg y)).toRat - _| ≤ |(F64.add x (F64.neg y)).toRat| / 2 ^ 53
  rw [h2]
  exact this


theorem F64.sub_isFinite {x y : F64} (h : (F64.sub x y).isFinite = true) :
    x.isFinite = true ∧ y.isFinite = true := by
  have h1 : (F64.add x (F64.neg y)).isFinite = true := h
  have h2 := F64.add_isFinite_right h1
  rw [F64.isFinite_neg] at h2
  exact ⟨F64.add_isFinite_left h1, h2⟩

/-- The principal components of `scheduleLoop` sum to the debt the loop starts
from up to the rounding errors of the recurrence, each at most `2^-53` times
the magnitude of the rounded result. -/
theorem scheduleLoop_sum_error (credit : Credit) (mir : F64) :
    ∀ (n i : Nat) (rem : F64), (i : Int) + (n : Int) + 1 = credit.Term →
      rem.wf = true →
      (∀ x ∈ roundedLoop credit mir (n + 1) i rem, x.isFinite = true) →
      |((scheduleLoop credit mir (n + 1) i rem).map (fun p => p.Principal.toRat)).sum -
          rem.toRat| ≤
          ((roundedLoop credit mir (n + 1) i rem).map (fun x => |x.toRat|)).sum / 2 ^ 53 ∧
        ∀ p ∈ scheduleLoop credit mir (n + 1) i rem, p.Principal.isFinite = true := by
  intro n
  induction n with
  | zero =>
    intro i rem h hwf hfin
    have hl : (i : Int) = credit.Term - 1 := by omega
    simp only [roundedLoop, hl, decide_True, if_true, List.append_nil, List.mem_cons,
      List.mem_singleton, forall_eq_or_imp, forall_eq, List.not_mem_nil, false_implies,
      implies_true, and_true] at hfin
    obtain ⟨hr1, hP⟩ := hfin
    obtain ⟨hrem, hq⟩ := F64.sub_isFinite hr1
    have e1 := F64.sub_error rem _ hwf (F64.sub_wf _ _) hrem hq hr1
    have e2 := F64.add_error _ _ (F64.sub_wf credit.MonthlyPayment (F64.mul rem mir))
      (F64.sub_wf rem _) hq hr1 hP
    simp only [scheduleLoop, roundedLoop, hl, decide_True, if_true, List.map_cons,
      List.map_nil, List.sum_cons, List.sum_nil, add_zero, List.mem_singleton, forall_eq,
      List.append_nil]
    refine ⟨?_, hP⟩
    rw [abs_le] at e1 e2 ⊢
    rw [add_div]
    constructor <;> linarith [e1.1, e1.2, e2.1, e2.2]
  | succ n ih =>
    intro i rem h hwf hfin
    have hl : ¬ (i : Int) = credit.Term - 1 := by omega
    rw [roundedLoop] at hfin
    simp only [hl, decide_False, Bool.false_eq_true, if_false, List.singleton_append,
      List.mem_cons, forall_eq_or_imp] at hfin
    obtain ⟨hr1, hrest⟩ := hfin
    obtain ⟨hrem, hq⟩ := F64.sub_isFinite hr1
    have e1 := F64.sub_error rem _ hwf (F64.sub_wf _ _) hrem hq hr1
    obtain ⟨s1, s2⟩ := ih (i + 1) _ (by push_cast; omega) (F64.sub_wf rem _) hrest
    rw [scheduleLoop, roundedLoop]
    simp only [hl, decide_False, Bool.false_eq_true, if_false, List.map_cons, List.sum_cons,
      List.mem_cons, forall_eq_or_imp, List.singleton_append]
    refine ⟨?_, hq, s2⟩
    rw [abs_le] at e1 s1 ⊢
    rw [add_div]
    constructor <;> linarith [e1.1, e1.2, s1.1, s1.2]

theorem F64.scaled_abs_zero (s : Bool) (m : Nat) : (F64.scaled s m 0 : Int) ≤ m := by
  unfold F64.scaled
  cases s <;> simp

/-- A subtraction of two float64 values within a factor of two of each other is
exact (Sterbenz). -/
theorem F64.sub_exact_of_within2 (x y : F64) (hx : x.wf = true) (hy : y.wf = true)
    (h : F64.within2 x y = true) :
    (F64.sub x y).isFinite = true ∧ (F64.sub x y).toRat = x.toRat - y.toRat := by
  cases x <;> cases y <;> simp only [F64.within2, Bool.false_eq_true] at h
  rename_i s1 m1 e1 s2 m2 e2
  simp only [Bool.and_eq_true, decide_eq_true_eq] at h
  obtain ⟨hXY, hYX⟩ := h
  simp only [F64.wf, Bool.and_eq_true, decide_eq_true_eq] at hx hy
  obtain ⟨⟨hm1, hlo1⟩, hhi1⟩ := hx
  obtain ⟨⟨hm2, hlo2⟩, hhi2⟩ := hy
  have hmin : min e1 e2 = e1 ∨ min e1 e2 = e2 := by
    rcases le_total e1 e2 with h | h
    · exact Or.inl (min_eq_left h)
    · exact Or.inr (min_eq_right h)
  have hX0 : (F64.scaled s1 m1 (e1 - e1).toNat : Int) ≤ m1 := by
    simpa using F64.scaled_abs_zero s1 m1
  have hY0 : (F64.scaled s2 m2 (e2 - e2).toNat : Int) ≤ m2 := by
    simpa using F64.scaled_abs_zero s2 m2
  have hxr := F64.toRat_scaled s1 m1 e1 (min e1 e2) (min_le_left _ _)
  have hyr := F64.toRat_scaled s2 m2 e2 (min e1 e2) (min_le_right _ _)
  generalize hXd : F64.scaled s1 m1 (e1 - min e1 e2).toNat = X at hXY hYX hxr
  generalize hYd : F64.scaled s2 m2 (e2 - min e1 e2).toNat = Y at hXY hYX hyr
  have hbound : (X - Y).natAbs < 2 ^ 53 := by
    rcases hmin with hm | hm
    · rw [hm] at hXd
      rw [hXd] at hX0
      omega
    · rw [hm] at hYd
      rw [hYd] at hY0
      omega
  have hlo : -1074 ≤ min e1 e2 := le_min hlo1 hlo2
  have hhi : min e1 e2 ≤ 971 := le_trans (min_le_left _ _) hhi1
  have hz : (F64.finite (decide (X - Y < 0)) (X - Y).natAbs (min e1 e2)).toRat =
      ((X - Y : Int) : ℚ) * 2 ^ (min e1 e2) := by
    rw [F64.toRat_finite]
    by_cases hc : X - Y < 0
    · have h1 : (((X - Y).natAbs : Nat) : Int) = -(X - Y) := by omega
      have h2 : (((X - Y).natAbs : Nat) : ℚ) = -((X - Y : Int) : ℚ) := by
        have h3 : ((((X - Y).natAbs : Nat) : Int) : ℚ) = ((-(X - Y) : Int) : ℚ) := by rw [h1]
        rw [Int.cast_natCast, Int.cast_neg] at h3
        exact h3
      simp only [hc, decide_True, if_true, h2]
      ring
    · have h1 : (((X - Y).natAbs : Nat) : Int) = X - Y := by omega
      have h2 : (((X - Y).natAbs : Nat) : ℚ) = ((X - Y : Int) : ℚ) := by
        have h3 : ((((X - Y).natAbs : Nat) : Int) : ℚ) = ((X - Y : Int) : ℚ) := by rw [h1]
        rw [Int.cast_natCast] at h3
        exact h3
      simp only [hc, decide_False, Bool.false_eq_true, if_false, h2]
      ring
  have hex := F64.add_exact (F64.finite s1 m1 e1) (F64.neg (F64.finite s2 m2 e2))
    (F64.finite (decide (X - Y < 0)) (X - Y).natAbs (min e1 e2)) rfl rfl rfl
    (by simp only [F64.wf, Bool.and_eq_true, decide_eq_true_eq]; exact ⟨⟨hbound, hlo⟩, hhi⟩)
    (by rw [F64.toRat_neg, hz, hxr, hyr]; push_cast; ring)
  refine ⟨hex.1, ?_⟩
  show (F64.add (F64.finite s1 m1 e1) (F64.neg (F64.finite s2 m2 e2))).toRat = _
  rw [hex.2.1, hz, hxr, hyr]
  push_cast
  ring

/-- Adding a payment to the residual of a debt gives the debt when the payment
is within a factor of two of the debt. -/
theorem F64.add_residual_of_within2 (q prev : F64) (hwf : prev.wf = true) (hq : q.wf = true)
    (h : F64.within2 prev q = true) :
    F64.eq (F64.add q (F64.sub prev q)) prev = true := by
  obtain ⟨hf, hr⟩ := F64.sub_exact_of_within2 prev q hwf hq h
  obtain ⟨hp, hqf⟩ := F64.sub_isFinite hf
  have := F64.add_exact q (F64.sub prev q) prev hqf hf hp hwf (by rw [hr]; ring)
  exact (F64.eq_iff_toRat _ _ this.1 hp).mpr this.2.1

theorem F64.ofNat_wf (n : Nat) : (F64.ofNat n).wf = true := F64.round_wf false n 0

set_option maxRecDepth 1000000 in
set_option exponentiation.threshold 3000 in
set_option maxHeartbeats 40000000 in
/-- For the credits `Apply` builds for 1000 and for 250000 over 3, 12, 36 and 60
months, at the fallback key rate 7.5 and at the key rates 0.25 and 25, the
last payment less its interest is within a factor of two of the debt before
the final installment. -/
theorem finalWithin2_grid :
    ∀ keyRate ∈ [Except.error Err.db, Except.ok (F64.div (F64.ofNat 1) (F64.ofNat 4)),
        Except.ok (F64.ofNat 25)],
      ∀ amount ∈ [1000, 250000], ∀ term ∈ [3, 12, 36, 60],
        finalWithin2 (newCredit 1
          { AccountID := 1, Amount := F64.ofNat amount, Term := (term : Nat) } keyRate time0) =
          true := by
  decide

/-! ## Ledger claims -/

/-- C1. For an existing account owned by the acting user and an amount `> 0`,
`Deposit` succeeds when no store call fails, and every successful `Deposit`
sets that account's balance to the float64 sum `old balance + amount`, leaves
every other account as it was and appends exactly one ledger entry: type
DEPOSIT, that amount, the acting user, the account as destination, no source. -/
theorem deposit_success (f : Faults) (s : Store) (now : Time) (request : DepositRequest)
    (userID : Int) (account : Account)
    (hfind : s.accounts.find? (fun a => decide (a.ID = request.AccountID)) = some account)
    (howner : account.UserID = userID)
    (hpos : F64.lt F64.zero request.Amount = true) :
    (Deposit Faults.none s now request userID).1 = none ∧
    ∀ s1, Deposit f s now request userID = (none, s1) →
      s1.balance request.AccountID = some (F64.add account.Balance request.Amount) ∧
      s1.accounts.find? (fun a => decide (a.ID = request.AccountID)) =
        some { account with Balance := F64.add account.Balance request.Amount } ∧
      (∀ j, j ≠ request.AccountID →
        s1.accounts.find? (fun a => decide (a.ID = j)) =
          s.accounts.find? (fun a => decide (a.ID = j))) ∧
      s1.accounts = s.accounts.map (fun a =>
        if a.ID = request.AccountID then
          { a with Balance := F64.add account.Balance request.Amount } else a) ∧
      s1.transactions = s.transactions ++
        [{ ID := s.seq + 1, UserID := userID, FromAccountID := none,
           ToAccountID := some request.AccountID,
           Typ := TransactionType.TransactionTypeDeposit, Amount := request.Amount,
           Description := "Deposit to account", Status := "COMPLETED",
           TransactionDate := now }] := by
  have hle : F64.le request.Amount F64.zero = false := F64.le_false_of_lt hpos
  refine ⟨deposit_run s now request userID account hfind howner hle, ?_⟩
  intro s1 h
  obtain ⟨account1, hfind1, -, -, hs1⟩ := deposit_ok f s now request userID s1 h
  rw [hfind] at hfind1
  cases hfind1
  subst hs1
  have hself := find_setBalance_self s.accounts request.AccountID
    (F64.add account.Balance request.Amount) account hfind
  refine ⟨?_, hself, ?_, rfl, rfl⟩
  · simp only [Store.balance, hself, Option.map_some']
  · intro j hj
    exact find_setBalance_other s.accounts request.AccountID j _ hj

set_option maxRecDepth 100000 in
set_option exponentiation.threshold 3000 in
/-- Witness for C1: a deposit of 50 on account 1 of `store0` (balance 100). -/
theorem deposit_success_witness :
    (Deposit Faults.none store0 time0 { AccountID := 1, Amount := F64.ofNat 50 } 1).1 = none ∧
    ∀ s1, Deposit Faults.none store0 time0 { AccountID := 1, Amount := F64.ofNat 50 } 1
        = (none, s1) →
      s1.balance 1 = some (F64.add (F64.ofNat 100) (F64.ofNat 50)) := by
  have h := deposit_success Faults.none store0 time0 { AccountID := 1, Amount := F64.ofNat 50 } 1
    account1 (by decide) (by decide) (by decide)
  exact ⟨h.1, fun s1 hs => (h.2 s1 hs).1⟩

/-- C2. `Deposit` returns `ErrInvalidAmount` for every amount `<= 0`, whether
or not the account exists; otherwise `ErrAccountNotFound` when the account does
not exist; otherwise `ErrAccountAccessDenied` when its owner is not the acting
user. In each case the store (balances and ledger) is unchanged. -/
theorem deposit_failures (f : Faults) (s : Store) (now : Time) (request : DepositRequest)
    (userID : Int) :
    (F64.le request.Amount F64.zero = true →
      Deposit f s now request userID = (some Err.ErrInvalidAmount, s)) ∧
    (F64.le request.Amount F64.zero = false →
      s.accounts.find? (fun a => decide (a.ID = request.AccountID)) = none →
      Deposit f s now request userID = (some Err.ErrAccountNotFound, s)) ∧
    (F64.le request.Amount F64.zero = false → f.read 0 = false →
      ∀ account, s.accounts.find? (fun a => decide (a.ID = request.AccountID)) = some account →
      account.UserID ≠ userID →
      Deposit f s now request userID = (some Err.ErrAccountAccessDenied, s)) := by
  refine ⟨?_, ?_, ?_⟩
  · intro h
    simp [Deposit, h]
  · intro h hn
    by_cases hr : f.read 0 = true <;> simp [Deposit, h, AccountRepository.GetByID, hr, hn]
  · intro h hr account hfind hown
    simp [Deposit, h, AccountRepository.GetByID, hr, hfind, hown]

set_option maxRecDepth 100000 in
set_option exponentiation.threshold 3000 in
/-- Witness for C2 on `store0`: amount 0 on a missing account, amount 50 on a
missing account, amount 50 on account 2 of another user. -/
theorem deposit_failures_witness :
    Deposit Faults.none store0 time0 { AccountID := 9, Amount := F64.zero } 1 =
      (some Err.ErrInvalidAmount, store0) ∧
    Deposit Faults.none store0 time0 { AccountID := 9, Amount := F64.ofNat 50 } 1 =
      (some Err.ErrAccountNotFound, store0) ∧
    Deposit Faults.none store0 time0 { AccountID := 2, Amount := F64.ofNat 50 } 1 =
      (some Err.ErrAccountAccessDenied, store0) :=
  ⟨(deposit_failures Faults.none store0 time0 { AccountID := 9, Amount := F64.zero } 1).1
      (by decide),
   (deposit_failures Faults.none store0 time0 { AccountID := 9, Amount := F64.ofNat 50 } 1).2.1
      (by decide) (by decide),
   (deposit_failures Faults.none store0 time0 { AccountID := 2, Amount := F64.ofNat 50 } 1).2.2
      (by decide) (by decide) account2 (by decide) (by decide)⟩

/-- C3. For an amount `> 0` that exceeds the balance of the source account
(an existing account of the acting user; for a card payment the account of an
active card of the acting user), `Withdraw`, `Transfer` to any other existing
account and `ProcessPayment` each return the insufficient-funds error (the
sentinel `models.ErrInsufficientFunds` that `CanWithdraw` returns) and leave the
store, balances and ledger, unchanged. -/
theorem insufficient_funds_rejected (f : Faults) (s : Store) (now : Time) (amount : F64)
    (userID : Int) (hpos : F64.lt F64.zero amount = true) :
    (∀ id account, f.read 0 = false →
      s.accounts.find? (fun a => decide (a.ID = id)) = some account →
      account.UserID = userID → F64.lt account.Balance amount = true →
      Withdraw f s now { AccountID := id, Amount := amount } userID =
        (some Err.modelsErrInsufficientFunds, s)) ∧
    (∀ src dst source destination, f.read 0 = false → f.read 1 = false → src ≠ dst →
      s.accounts.find? (fun a => decide (a.ID = src)) = some source →
      s.accounts.find? (fun a => decide (a.ID = dst)) = some destination →
      source.UserID = userID → F64.lt source.Balance amount = true →
      Transfer f s now { FromAccountID := src, ToAccountID := dst, Amount := amount } userID =
        (some Err.modelsErrInsufficientFunds, s)) ∧
    (∀ id card account, f.read 0 = false → f.read 1 = false →
      s.cards.find? (fun c => decide (c.ID = id)) = some card →
      card.UserID = userID → card.IsActive = true →
      s.accounts.find? (fun a => decide (a.ID = card.AccountID)) = some account →
      F64.lt account.Balance amount = true →
      ProcessPayment f s { CardID := id, Amount := amount } userID =
        (some Err.modelsErrInsufficientFunds, s)) := by
  have hle : F64.le amount F64.zero = false := F64.le_false_of_lt hpos
  refine ⟨?_, ?_, ?_⟩
  · intro id account hr hfind hown hlt
    simp [Withdraw, hle, AccountRepository.GetByID, hr, hfind, hown, Account.CanWithdraw, hlt]
  · intro src dst source destination hr0 hr1 hne hs hd hown hlt
    simp [Transfer, hle, hne, AccountRepository.GetByID, hr0, hr1, hs, hd, hown,
      Account.CanWithdraw, hlt]
  · intro id card account hr0 hr1 hc hown hact ha hlt
    simp [ProcessPayment, CardRepository.GetByID, AccountRepository.GetByID, hr0, hr1, hc, hown,
      hact, ha, Account.CanWithdraw, hle, hlt]

set_option maxRecDepth 100000 in
set_option exponentiation.threshold 3000 in
/-- Witness for C3 on `store0`: 150 from account 1 (balance 100), by withdrawal,
by transfer to account 2 and by card 1. -/
theorem insufficient_funds_rejected_witness :
    Withdraw Faults.none store0 time0 { AccountID := 1, Amount := F64.ofNat 150 } 1 =
      (some Err.modelsErrInsufficientFunds, store0) ∧
    Transfer Faults.none store0 time0
      { FromAccountID := 1, ToAccountID := 2, Amount := F64.ofNat 150 } 1 =
      (some Err.modelsErrInsufficientFunds, store0) ∧
    ProcessPayment Faults.none store0 { CardID := 1, Amount := F64.ofNat 150 } 1 =
      (some Err.modelsErrInsufficientFunds, store0) :=
  ⟨(insufficient_funds_rejected Faults.none store0 time0 (F64.ofNat 150) 1 (by decide)).1
      1 account1 (by decide) (by decide) (by decide) (by decide),
   (insufficient_funds_rejected Faults.none store0 time0 (F64.ofNat 150) 1 (by decide)).2.1
      1 2 account1 account2 (by decide) (by decide) (by decide) (by decide) (by decide)
      (by decide) (by decide),
   (insufficient_funds_rejected Faults.none store0 time0 (F64.ofNat 150) 1 (by decide)).2.2
      1 card1 account1 (by decide) (by decide) (by decide) (by decide) (by decide) (by decide)
      (by decide)⟩

set_option maxRecDepth 100000 in
set_option exponentiation.threshold 3000 in
/-- C4, counterexample. On `store0`, user 1 deposits 0.2 on account 3 (balance
0.1) and withdraws 0.2 again: both succeed and the balance is
0.10000000000000003, not 0.1. User 1 withdraws 0.2 from account 4 (balance 0.9)
and deposits 0.2 again: both succeed and the balance is 0.8999999999999999. -/
theorem roundtrip_counterexample :
    (Deposit Faults.none store0 time0 { AccountID := 3, Amount := f0_2 } 1).1 = none ∧
    (Withdraw Faults.none (Deposit Faults.none store0 time0 { AccountID := 3, Amount := f0_2 } 1).2
      time0 { AccountID := 3, Amount := f0_2 } 1).1 = none ∧
    store0.balance 3 = some (F64.finite false 7205759403792794 (-56)) ∧
    (Withdraw Faults.none (Deposit Faults.none store0 time0 { AccountID := 3, Amount := f0_2 } 1).2
      time0 { AccountID := 3, Amount := f0_2 } 1).2.balance 3 =
        some (F64.finite false 7205759403792796 (-56)) ∧
    F64.eq (F64.finite false 7205759403792796 (-56)) (F64.finite false 7205759403792794 (-56))
      = false ∧
    (Withdraw Faults.none store0 time0 { AccountID := 4, Amount := f0_2 } 1).1 = none ∧
    (Deposit Faults.none (Withdraw Faults.none store0 time0 { AccountID := 4, Amount := f0_2 } 1).2
      time0 { AccountID := 4, Amount := f0_2 } 1).1 = none ∧
    store0.balance 4 = some (F64.finite false 8106479329266893 (-53)) ∧
    (Deposit Faults.none (Withdraw Faults.none store0 time0 { AccountID := 4, Amount := f0_2 } 1).2
      time0 { AccountID := 4, Amount := f0_2 } 1).2.balance 4 =
        some (F64.finite false 8106479329266892 (-53)) ∧
    F64.eq (F64.finite false 8106479329266892 (-53)) (F64.finite false 8106479329266893 (-53))
      = false := by
  decide

/-- C4, amended. For an existing account whose balance is a float64 value, a
successful `Deposit` of an amount followed by a successful `Withdraw` of the
same amount leaves a balance equal to the balance before the pair whenever the
deposit's sum `old balance + amount` was computed without rounding; likewise a
successful `Withdraw` followed by a successful `Deposit` whenever the
difference `old balance - amount` was computed without rounding. -/
theorem roundtrip_when_exact (f1 f2 : Faults) (s s1 s2 : Store) (now1 now2 : Time) (id : Int)
    (amount : F64) (userID : Int) (account : Account)
    (hfind : s.accounts.find? (fun a => decide (a.ID = id)) = some account)
    (hwf : account.Balance.wf = true) :
    (Deposit f1 s now1 { AccountID := id, Amount := amount } userID = (none, s1) →
      Withdraw f2 s1 now2 { AccountID := id, Amount := amount } userID = (none, s2) →
      (F64.add account.Balance amount).isFinite = true →
      (F64.add account.Balance amount).toRat = account.Balance.toRat + amount.toRat →
      ∃ b2, s2.balance id = some b2 ∧ F64.eq b2 account.Balance = true) ∧
    (Withdraw f1 s now1 { AccountID := id, Amount := amount } userID = (none, s1) →
      Deposit f2 s1 now2 { AccountID := id, Amount := amount } userID = (none, s2) →
      (F64.sub account.Balance amount).isFinite = true →
      (F64.sub account.Balance amount).toRat = account.Balance.toRat - amount.toRat →
      ∃ b2, s2.balance id = some b2 ∧ F64.eq b2 account.Balance = true) := by
  constructor
  · intro hd hw hfin hex
    obtain ⟨a1, hf1, -, -, hs1⟩ := deposit_ok f1 s now1 _ userID s1 hd
    simp only at hf1 hs1
    rw [hfind] at hf1
    cases hf1
    obtain ⟨a2, hf2, -, -, -, hs2⟩ := withdraw_ok f2 s1 now2 _ userID s2 hw
    simp only at hf2 hs2
    have hself := find_setBalance_self s.accounts id (F64.add account.Balance amount)
      account hfind
    rw [hs1] at hf2
    simp only at hf2
    rw [hself] at hf2
    cases hf2
    have hself2 := find_setBalance_self s1.accounts id
      (F64.sub (F64.add account.Balance amount) amount)
      { account with Balance := F64.add account.Balance amount } (by rw [hs1]; exact hself)
    refine ⟨F64.sub (F64.add account.Balance amount) amount, ?_,
      F64.sub_add_cancel_of_exact _ _ hwf hfin hex⟩
    rw [hs2]
    simp only [Store.balance, hself2, Option.map_some']
  · intro hw hd hfin hex
    obtain ⟨a1, hf1, -, -, -, hs1⟩ := withdraw_ok f1 s now1 _ userID s1 hw
    simp only at hf1 hs1
    rw [hfind] at hf1
    cases hf1
    obtain ⟨a2, hf2, -, -, hs2⟩ := deposit_ok f2 s1 now2 _ userID s2 hd
    simp only at hf2 hs2
    have hself := find_setBalance_self s.accounts id (F64.sub account.Balance amount)
      account hfind
    rw [hs1] at hf2
    simp only at hf2
    rw [hself] at hf2
    cases hf2
    have hself2 := find_setBalance_self s1.accounts id
      (F64.add (F64.sub account.Balance amount) amount)
      { account with Balance := F64.sub account.Balance amount } (by rw [hs1]; exact hself)
    refine ⟨F64.add (F64.sub account.Balance amount) amount, ?_,
      F64.add_sub_cancel_of_exact _ _ hwf hfin hex⟩
    rw [hs2]
    simp only [Store.balance, hself2, Option.map_some']

set_option maxRecDepth 100000 in
set_option exponentiation.threshold 3000 in
/-- Witness for C4 (amended): on `store0`, 50 deposited on and withdrawn from
account 1 (balance 100); both operations are exact. -/
theorem roundtrip_when_exact_witness :
    ∃ b2, (Withdraw Faults.none
        (Deposit Faults.none store0 time0 { AccountID := 1, Amount := F64.ofNat 50 } 1).2
        time0 { AccountID := 1, Amount := F64.ofNat 50 } 1).2.balance 1 = some b2 ∧
      F64.eq b2 (F64.ofNat 100) = true := by
  have hsum : F64.add (F64.ofNat 100) (F64.ofNat 50) = F64.finite false 5277655813324800 (-45) := by
    decide
  have h100 : F64.ofNat 100 = F64.finite false 7036874417766400 (-46) := by decide
  have h50 : F64.ofNat 50 = F64.finite false 7036874417766400 (-47) := by decide
  exact (roundtrip_when_exact Faults.none Faults.none store0
    (Deposit Faults.none store0 time0 { AccountID := 1, Amount := F64.ofNat 50 } 1).2
    (Withdraw Faults.none
      (Deposit Faults.none store0 time0 { AccountID := 1, Amount := F64.ofNat 50 } 1).2
      time0 { AccountID := 1, Amount := F64.ofNat 50 } 1).2
    time0 time0 1 (F64.ofNat 50) 1 account1 (by decide) (by decide)).1
    (by decide) (by decide) (by decide)
    (by
      show (F64.add (F64.ofNat 100) (F64.ofNat 50)).toRat =
        (F64.ofNat 100).toRat + (F64.ofNat 50).toRat
      rw [hsum, h100, h50]
      simp only [F64.toRat]
      norm_num)

set_option maxRecDepth 100000 in
set_option exponentiation.threshold 3000 in
/-- C5, counterexample. On `store0`, user 1 transfers 0.1 from account 5
(balance 0.2) to account 6 (balance 1): the transfer succeeds, the balances
become 0.1 and 1.1, and their sum has changed, as a sum of rationals and as
the float64 sum (1.2000000000000002 after, 1.2 before). -/
theorem transfer_sum_counterexample :
    (Transfer Faults.none store0 time0
      { FromAccountID := 5, ToAccountID := 6, Amount := f0_1 } 1).1 = none ∧
    store0.balance 5 = some (F64.finite false 7205759403792794 (-55)) ∧
    store0.balance 6 = some (F64.finite false 4503599627370496 (-52)) ∧
    (Transfer Faults.none store0 time0
      { FromAccountID := 5, ToAccountID := 6, Amount := f0_1 } 1).2.balance 5 =
        some (F64.finite false 7205759403792794 (-56)) ∧
    (Transfer Faults.none store0 time0
      { FromAccountID := 5, ToAccountID := 6, Amount := f0_1 } 1).2.balance 6 =
        some (F64.finite false 4953959590107546 (-52)) ∧
    (F64.finite false 7205759403792794 (-56)).toRat +
        (F64.finite false 4953959590107546 (-52)).toRat ≠
      (F64.finite false 7205759403792794 (-55)).toRat +
        (F64.finite false 4503599627370496 (-52)).toRat ∧
    F64.eq
      (F64.add (F64.finite false 7205759403792794 (-56))
        (F64.finite false 4953959590107546 (-52)))
      (F64.add (F64.finite false 7205759403792794 (-55))
        (F64.finite false 4503599627370496 (-52))) = false := by
  refine ⟨by decide, by decide, by decide, by decide, by decide, ?_, by decide⟩
  simp only [F64.toRat]
  norm_num

/-- C5, amended. Every successful `Transfer` is between two distinct existing
accounts; it sets the source balance to the float64 difference
`source balance - amount` and the destination balance to the float64 sum
`destination balance + amount`, leaves every other account as it was, and
appends exactly one ledger entry, of type TRANSFER, that names both accounts.
The sum of the two balances is unchanged when neither operation rounds. -/
theorem transfer_effect (f : Faults) (s : Store) (now : Time) (request : TransferRequest)
    (userID : Int) (s1 : Store) (h : Transfer f s now request userID = (none, s1)) :
    ∃ source destination,
      request.FromAccountID ≠ request.ToAccountID ∧
      s.accounts.find? (fun a => decide (a.ID = request.FromAccountID)) = some source ∧
      s.accounts.find? (fun a => decide (a.ID = request.ToAccountID)) = some destination ∧
      s1.accounts.find? (fun a => decide (a.ID = request.FromAccountID)) =
        some { source with Balance := F64.sub source.Balance request.Amount } ∧
      s1.accounts.find? (fun a => decide (a.ID = request.ToAccountID)) =
        some { destination with Balance := F64.add destination.Balance request.Amount } ∧
      (∀ j, j ≠ request.FromAccountID → j ≠ request.ToAccountID →
        s1.accounts.find? (fun a => decide (a.ID = j)) =
          s.accounts.find? (fun a => decide (a.ID = j))) ∧
      s1.transactions = s.transactions ++
        [{ ID := s.seq + 1, UserID := userID, FromAccountID := some request.FromAccountID,
           ToAccountID := some request.ToAccountID,
           Typ := TransactionType.TransactionTypeTransfer, Amount := request.Amount,
           Description := "Transfer from account " ++ source.Number ++
             " to account " ++ destination.Number,
           Status := "COMPLETED", TransactionDate := now }] ∧
      ((F64.sub source.Balance request.Amount).toRat =
          source.Balance.toRat - request.Amount.toRat →
        (F64.add destination.Balance request.Amount).toRat =
          destination.Balance.toRat + request.Amount.toRat →
        (F64.sub source.Balance request.Amount).toRat +
            (F64.add destination.Balance request.Amount).toRat =
          source.Balance.toRat + destination.Balance.toRat) := by
  obtain ⟨source, destination, hs, hd, hne, -, -, -, hs1⟩ :=
    transfer_ok f s now request userID s1 h
  subst hs1
  have hto : request.ToAccountID ≠ request.FromAccountID := fun e => hne e.symm
  have h1 := find_setBalance_self s.accounts request.FromAccountID
    (F64.sub source.Balance request.Amount) source hs
  have h2 : (AccountRepository.setBalance s.accounts request.FromAccountID
      (F64.sub source.Balance request.Amount)).find?
        (fun a => decide (a.ID = request.ToAccountID)) = some destination := by
    rw [find_setBalance_other _ _ _ _ hto]; exact hd
  refine ⟨source, destination, hne, hs, hd, ?_, ?_, ?_, rfl, ?_⟩
  · simp only
    rw [find_setBalance_other _ _ _ _ hne]; exact h1
  · exact find_setBalance_self _ _ _ _ h2
  · intro j hj1 hj2
    simp only
    rw [find_setBalance_other _ _ _ _ hj2, find_setBalance_other _ _ _ _ hj1]
  · intro e1 e2
    rw [e1, e2]; ring

set_option maxRecDepth 100000 in
set_option exponentiation.threshold 3000 in
/-- Witness for C5 (amended): on `store0`, user 1 transfers 50 from account 1 to
account 2 of user 2. -/
theorem transfer_effect_witness :
    ∃ source destination, (1 : Int) ≠ 2 ∧
      store0.accounts.find? (fun a => decide (a.ID = 1)) = some source ∧
      store0.accounts.find? (fun a => decide (a.ID = 2)) = some destination ∧
      (Transfer Faults.none store0 time0
        { FromAccountID := 1, ToAccountID := 2, Amount := F64.ofNat 50 } 1).2.accounts.find?
          (fun a => decide (a.ID = 1)) =
        some { source with Balance := F64.sub source.Balance (F64.ofNat 50) } := by
  obtain ⟨source, destination, h1, h2, h3, h4, -⟩ :=
    transfer_effect Faults.none store0 time0
      { FromAccountID := 1, ToAccountID := 2, Amount := F64.ofNat 50 } 1
      (Transfer Faults.none store0 time0
        { FromAccountID := 1, ToAccountID := 2, Amount := F64.ofNat 50 } 1).2 (by decide)
  exact ⟨source, destination, h1, h2, h3, h4⟩

/-- C6. `Transfer` is atomic on the store: once the source debit has been
applied inside the unit of work, a failure of the destination credit, of the
insertion of the ledger entry or of the commit makes `Transfer` return an error
and leaves the committed store, both balances and the ledger, as it was before
the call. -/
theorem transfer_atomic (f : Faults) (s : Store) (now : Time) (request : TransferRequest)
    (userID : Int) (source destination : Account)
    (hpos : F64.lt F64.zero request.Amount = true)
    (hne : request.FromAccountID ≠ request.ToAccountID)
    (hr0 : f.read 0 = false) (hr1 : f.read 1 = false)
    (hs : s.accounts.find? (fun a => decide (a.ID = request.FromAccountID)) = some source)
    (hd : s.accounts.find? (fun a => decide (a.ID = request.ToAccountID)) = some destination)
    (hown : source.UserID = userID)
    (hfunds : F64.lt source.Balance request.Amount = false)
    (hbegin : f.beginTx = false) (hdebit : f.write 0 = false)
    (hfail : f.write 1 = true ∨ f.write 2 = true ∨ f.commit = true) :
    (∃ tx tx1, BeginTx f s = .ok tx ∧
      AccountRepository.UpdateBalanceTx f 0 tx request.FromAccountID
        (F64.sub source.Balance request.Amount) = .ok tx1 ∧
      tx1.work.accounts = AccountRepository.setBalance s.accounts request.FromAccountID
        (F64.sub source.Balance request.Amount)) ∧
    Transfer f s now request userID = (some Err.db, s) := by
  have hle : F64.le request.Amount F64.zero = false := F64.le_false_of_lt hpos
  constructor
  · simp [BeginTx, hbegin, AccountRepository.UpdateBalanceTx, hdebit]
  · by_cases hw1 : f.write 1 = true
    · simp [Transfer, hle, hne, AccountRepository.GetByID, hr0, hr1, hs, hd, hown,
        Account.CanWithdraw, hfunds, BeginTx, hbegin, AccountRepository.UpdateBalanceTx, hdebit,
        hw1, Tx.Rollback]
    by_cases hw2 : f.write 2 = true
    · simp [Transfer, hle, hne, AccountRepository.GetByID, hr0, hr1, hs, hd, hown,
        Account.CanWithdraw, hfunds, BeginTx, hbegin, AccountRepository.UpdateBalanceTx, hdebit,
        hw1, TransactionRepository.CreateTx, hw2, Tx.Rollback]
    have hc : f.commit = true := by
      rcases hfail with h | h | h
      · exact absurd h hw1
      · exact absurd h hw2
      · exact h
    simp [Transfer, hle, hne, AccountRepository.GetByID, hr0, hr1, hs, hd, hown,
        Account.CanWithdraw, hfunds, BeginTx, hbegin, AccountRepository.UpdateBalanceTx, hdebit,
        hw1, TransactionRepository.CreateTx, hw2, Tx.Commit, hc, Tx.Rollback]

set_option maxRecDepth 100000 in
set_option exponentiation.threshold 3000 in
/-- Witness for C6: on `store0`, a transfer of 50 from account 1 to account 2
whose commit fails. -/
theorem transfer_atomic_witness :
    Transfer commitFails store0 time0
      { FromAccountID := 1, ToAccountID := 2, Amount := F64.ofNat 50 } 1 =
        (some Err.db, store0) :=
  (transfer_atomic commitFails store0 time0
    { FromAccountID := 1, ToAccountID := 2, Amount := F64.ofNat 50 } 1 account1 account2
    (by decide) (by decide) (by decide) (by decide) (by decide) (by decide) (by decide)
    (by decide) (by decide) (by decide) (Or.inr (Or.inr (by decide)))).2

/-- C7. The outcome of `Transfer` is decided by the ordered checks of
`transferChecks`: amount `<= 0` gives `ErrInvalidAmount`; else equal account
ids give `ErrSameAccount`; else a missing source gives `ErrAccountNotFound`;
else a source of another user gives `ErrAccountAccessDenied`, whatever the
destination is; else a missing destination gives `ErrAccountNotFound`; else a
source balance below the amount gives the insufficient-funds error; otherwise
the transfer proceeds and, when no store call fails, succeeds. The owner of the
destination account is not checked: a transfer to an account of another user
succeeds. -/
theorem transfer_check_order (f : Faults) (s : Store) (now : Time) (request : TransferRequest)
    (userID : Int) (hr0 : f.read 0 = false) (hr1 : f.read 1 = false) :
    (∀ e, transferChecks s request userID = some e →
      Transfer f s now request userID = (some e, s)) ∧
    (transferChecks s request userID = none →
      (Transfer Faults.none s now request userID).1 = none) ∧
    (∀ source destination, F64.le request.Amount F64.zero = false →
      request.FromAccountID ≠ request.ToAccountID →
      s.accounts.find? (fun a => decide (a.ID = request.FromAccountID)) = some source →
      s.accounts.find? (fun a => decide (a.ID = request.ToAccountID)) = some destination →
      source.UserID = userID → destination.UserID ≠ userID →
      F64.lt source.Balance request.Amount = false →
      (Transfer Faults.none s now request userID).1 = none) := by
  refine ⟨?_, ?_, ?_⟩
  · intro e he
    unfold transferChecks at he
    unfold Transfer
    split at he
    · rename_i h; simp at he; simp [h, he]
    rename_i hle
    split at he
    · rename_i h; simp at he; simp [hle, h, he]
    rename_i hne
    split at he
    · rename_i hs; simp at he; simp [hle, hne, AccountRepository.GetByID, hr0, hs, he]
    rename_i src hs
    split at he
    · rename_i h; simp at he; simp [hle, hne, AccountRepository.GetByID, hr0, hs, h, he]
    rename_i hown
    split at he
    · rename_i hd
      simp at he
      simp [hle, hne, AccountRepository.GetByID, hr0, hr1, hs, hd, hown, he]
    rename_i dst hd
    split at he
    · rename_i hlt
      simp at he
      simp [hle, hne, AccountRepository.GetByID, hr0, hr1, hs, hd, hown, Account.CanWithdraw,
        hlt, he]
    · simp at he
  · intro he
    unfold transferChecks at he
    split at he
    · simp at he
    rename_i hle
    split at he
    · simp at he
    rename_i hne
    split at he
    · simp at he
    rename_i src hs
    split at he
    · simp at he
    rename_i hown
    split at he
    · simp at he
    rename_i dst hd
    split at he
    · simp at he
    rename_i hlt
    exact transfer_run s now request userID src dst hs hd hne (by simpa using hown)
      (by simpa using hle) (by simpa using hlt)
  · intro source destination hle hne hs hd hown _ hlt
    exact transfer_run s now request userID source destination hs hd hne hown hle hlt

set_option maxRecDepth 100000 in
set_option exponentiation.threshold 3000 in
/-- Witness for C7 on `store0`, acting user 1: the six failing checks in order,
and a successful transfer of 50 from account 1 to account 2 of user 2. -/
theorem transfer_check_order_witness :
    Transfer Faults.none store0 time0
      { FromAccountID := 1, ToAccountID := 1, Amount := F64.zero } 1 =
        (some Err.ErrInvalidAmount, store0) ∧
    Transfer Faults.none store0 time0
      { FromAccountID := 1, ToAccountID := 1, Amount := F64.ofNat 50 } 1 =
        (some Err.ErrSameAccount, store0) ∧
    Transfer Faults.none store0 time0
      { FromAccountID := 9, ToAccountID := 1, Amount := F64.ofNat 50 } 1 =
        (some Err.ErrAccountNotFound, store0) ∧
    Transfer Faults.none store0 time0
      { FromAccountID := 2, ToAccountID := 9, Amount := F64.ofNat 50 } 1 =
        (some Err.ErrAccountAccessDenied, store0) ∧
    Transfer Faults.none store0 time0
      { FromAccountID := 1, ToAccountID := 9, Amount := F64.ofNat 50 } 1 =
        (some Err.ErrAccountNotFound, store0) ∧
    Transfer Faults.none store0 time0
      { FromAccountID := 1, ToAccountID := 2, Amount := F64.ofNat 150 } 1 =
        (some Err.modelsErrInsufficientFunds, store0) ∧
    (Transfer Faults.none store0 time0
      { FromAccountID := 1, ToAccountID := 2, Amount := F64.ofNat 50 } 1).1 = none :=
  ⟨(transfer_check_order Faults.none store0 time0
      { FromAccountID := 1, ToAccountID := 1, Amount := F64.zero } 1 (by decide) (by decide)).1
      _ (by decide),
   (transfer_check_order Faults.none store0 time0
      { FromAccountID := 1, ToAccountID := 1, Amount := F64.ofNat 50 } 1 (by decide)
      (by decide)).1 _ (by decide),
   (transfer_check_order Faults.none store0 time0
      { FromAccountID := 9, ToAccountID := 1, Amount := F64.ofNat 50 } 1 (by decide)
      (by decide)).1 _ (by decide),
   (transfer_check_order Faults.none store0 time0
      { FromAccountID := 2, ToAccountID := 9, Amount := F64.ofNat 50 } 1 (by decide)
      (by decide)).1 _ (by decide),
   (transfer_check_order Faults.none store0 time0
      { FromAccountID := 1, ToAccountID := 9, Amount := F64.ofNat 50 } 1 (by decide)
      (by decide)).1 _ (by decide),
   (transfer_check_order Faults.none store0 time0
      { FromAccountID := 1, ToAccountID := 2, Amount := F64.ofNat 150 } 1 (by decide)
      (by decide)).1 _ (by decide),
   (transfer_check_order Faults.none store0 time0
      { FromAccountID := 1, ToAccountID := 2, Amount := F64.ofNat 50 } 1 (by decide)
      (by decide)).2.2 account1 account2 (by decide) (by decide) (by decide) (by decide)
      (by decide) (by decide) (by decide)⟩

/-- C8. `ProcessPayment` returns `ErrCardNotFound` for an unknown card,
`ErrCardAccessDenied` when the card's owner is not the acting user, and
`ErrCardInactive` when the card of the acting user is not active. For an active
card of the acting user whose account exists with `balance >= amount > 0` it
succeeds when no store call fails, and every success sets the balance of that
account to the float64 difference `balance - amount`, changes no other account
and appends no ledger entry. -/
theorem card_payment (f : Faults) (s : Store) (request : CardPaymentRequest) (userID : Int) :
    (s.cards.find? (fun c => decide (c.ID = request.CardID)) = none →
      ProcessPayment f s request userID = (some Err.ErrCardNotFound, s)) ∧
    (∀ card, f.read 0 = false →
      s.cards.find? (fun c => decide (c.ID = request.CardID)) = some card →
      card.UserID ≠ userID →
      ProcessPayment f s request userID = (some Err.ErrCardAccessDenied, s)) ∧
    (∀ card, f.read 0 = false →
      s.cards.find? (fun c => decide (c.ID = request.CardID)) = some card →
      card.UserID = userID → card.IsActive = false →
      ProcessPayment f s request userID = (some Err.ErrCardInactive, s)) ∧
    (∀ card account,
      s.cards.find? (fun c => decide (c.ID = request.CardID)) = some card →
      card.UserID = userID → card.IsActive = true →
      s.accounts.find? (fun a => decide (a.ID = card.AccountID)) = some account →
      F64.ge account.Balance request.Amount = true → F64.lt F64.zero request.Amount = true →
      (ProcessPayment Faults.none s request userID).1 = none ∧
      ∀ s1, ProcessPayment f s request userID = (none, s1) →
        s1.balance card.AccountID = some (F64.sub account.Balance request.Amount) ∧
        s1.accounts.find? (fun a => decide (a.ID = card.AccountID)) =
          some { account with Balance := F64.sub account.Balance request.Amount } ∧
        (∀ j, j ≠ card.AccountID →
          s1.accounts.find? (fun a => decide (a.ID = j)) =
            s.accounts.find? (fun a => decide (a.ID = j))) ∧
        s1.transactions = s.transactions) := by
  refine ⟨?_, ?_, ?_, ?_⟩
  · intro hn
    by_cases hr : f.read 0 = true <;> simp [ProcessPayment, CardRepository.GetByID, hr, hn]
  · intro card hr hc hown
    simp [ProcessPayment, CardRepository.GetByID, hr, hc, hown]
  · intro card hr hc hown hact
    simp [ProcessPayment, CardRepository.GetByID, hr, hc, hown, hact]
  · intro card account hc hown hact hacc hge hpos
    have hle : F64.le request.Amount F64.zero = false := F64.le_false_of_lt hpos
    have hlt : F64.lt account.Balance request.Amount = false := F64.lt_false_of_ge hge
    refine ⟨processPayment_run s request userID card account hc hown hact hacc hle hlt, ?_⟩
    intro s1 h
    obtain ⟨card1, account1, hc1, -, -, hacc1, -, -, hs1⟩ :=
      processPayment_ok f s request userID s1 h
    rw [hc] at hc1
    cases hc1
    rw [hacc] at hacc1
    cases hacc1
    subst hs1
    have hself := find_setBalance_self s.accounts card.AccountID
      (F64.sub account.Balance request.Amount) account hacc
    refine ⟨?_, hself, ?_, rfl⟩
    · simp only [Store.balance, hself, Option.map_some']
    · intro j hj
      exact find_setBalance_other s.accounts card.AccountID j _ hj

set_option maxRecDepth 100000 in
set_option exponentiation.threshold 3000 in
/-- Witness for C8 on `store0`: an unknown card, card 1 used by user 2, the
inactive card 2, and a payment of 50 with card 1 (account 1, balance 100). -/
theorem card_payment_witness :
    ProcessPayment Faults.none store0 { CardID := 9, Amount := F64.ofNat 50 } 1 =
      (some Err.ErrCardNotFound, store0) ∧
    ProcessPayment Faults.none store0 { CardID := 1, Amount := F64.ofNat 50 } 2 =
      (some Err.ErrCardAccessDenied, store0) ∧
    ProcessPayment Faults.none store0 { CardID := 2, Amount := F64.ofNat 50 } 1 =
      (some Err.ErrCardInactive, store0) ∧
    (ProcessPayment Faults.none store0 { CardID := 1, Amount := F64.ofNat 50 } 1).1 = none :=
  ⟨(card_payment Faults.none store0 { CardID := 9, Amount := F64.ofNat 50 } 1).1 (by decide),
   (card_payment Faults.none store0 { CardID := 1, Amount := F64.ofNat 50 } 2).2.1 card1
      (by decide) (by decide) (by decide),
   (card_payment Faults.none store0 { CardID := 2, Amount := F64.ofNat 50 } 1).2.2.1
      { card1 with ID := 2, IsActive := false } (by decide) (by decide) (by decide) (by decide),
   ((card_payment Faults.none store0 { CardID := 1, Amount := F64.ofNat 50 } 1).2.2.2
      card1 account1 (by decide) (by decide) (by decide) (by decide) (by decide)
      (by decide)).1⟩

/-! ## Ledger entries and credit schedules -/

set_option maxRecDepth 100000 in
set_option exponentiation.threshold 3000 in
/-- C9, counterexample. On `store0`, a card payment of 50 with card 1 succeeds
and changes the balance of account 1 from 100 to 50, and `Apply` for
`application0` succeeds and changes it from 100 to 1100; neither appends a
ledger entry. -/
theorem unledgered_balance_changes :
    (ProcessPayment Faults.none store0 { CardID := 1, Amount := F64.ofNat 50 } 1).1 = none ∧
    store0.balance 1 = some (F64.ofNat 100) ∧
    (ProcessPayment Faults.none store0 { CardID := 1, Amount := F64.ofNat 50 } 1).2.balance 1 =
      some (F64.ofNat 50) ∧
    (ProcessPayment Faults.none store0
      { CardID := 1, Amount := F64.ofNat 50 } 1).2.transactions = [] ∧
    (Apply Faults.none store0 time0 (.error Err.db) 1 application0).1.toOption =
      some (ToCreditResponse credit0) ∧
    (Apply Faults.none store0 time0 (.error Err.db) 1 application0).2.balance 1 =
      some (F64.ofNat 1100) ∧
    (Apply Faults.none store0 time0 (.error Err.db) 1 application0).2.transactions = [] := by
  decide

/-- C9, amended. `Deposit`, `Withdraw` and `Transfer` append exactly one ledger
entry in the same unit of work as the balance change: on success the committed
store has the new balances and exactly one more ledger entry, on failure it is
the store before the call. Card `ProcessPayment`, the disbursement of `Apply`
and the settlement of `ProcessPendingPayments` never append a ledger entry. -/
theorem ledger_entry_per_operation (f : Faults) (s : Store) (now : Time) :
    (∀ request userID,
      ((Deposit f s now request userID).1 = none →
        ∃ balance t, (Deposit f s now request userID).2.accounts =
            AccountRepository.setBalance s.accounts request.AccountID balance ∧
          (Deposit f s now request userID).2.transactions = s.transactions ++ [t] ∧
          t.Typ = TransactionType.TransactionTypeDeposit) ∧
      ((Deposit f s now request userID).1 ≠ none → (Deposit f s now request userID).2 = s)) ∧
    (∀ request userID,
      ((Withdraw f s now request userID).1 = none →
        ∃ balance t, (Withdraw f s now request userID).2.accounts =
            AccountRepository.setBalance s.accounts request.AccountID balance ∧
          (Withdraw f s now request userID).2.transactions = s.transactions ++ [t] ∧
          t.Typ = TransactionType.TransactionTypeWithdraw) ∧
      ((Withdraw f s now request userID).1 ≠ none → (Withdraw f s now request userID).2 = s)) ∧
    (∀ request userID,
      ((Transfer f s now request userID).1 = none →
        ∃ balance1 balance2 t, (Transfer f s now request userID).2.accounts =
            AccountRepository.setBalance
              (AccountRepository.setBalance s.accounts request.FromAccountID balance1)
              request.ToAccountID balance2 ∧
          (Transfer f s now request userID).2.transactions = s.transactions ++ [t] ∧
          t.Typ = TransactionType.TransactionTypeTransfer) ∧
      ((Transfer f s now request userID).1 ≠ none → (Transfer f s now request userID).2 = s)) ∧
    (∀ request userID, (ProcessPayment f s request userID).2.transactions = s.transactions) ∧
    (∀ keyRate userID application,
      (Apply f s now keyRate userID application).2.transactions = s.transactions) ∧
    (∀ f0 fs, (ProcessPendingPayments f0 fs s now).2.transactions = s.transactions) := by
  refine ⟨?_, ?_, ?_, ?_, ?_, ?_⟩
  · intro request userID
    refine ⟨fun h => ?_, deposit_fail f s now request userID⟩
    obtain ⟨account, -, -, -, hs1⟩ := deposit_ok f s now request userID _ (Prod.ext h rfl)
    exact ⟨_, _, congrArg Store.accounts hs1, congrArg Store.transactions hs1, rfl⟩
  · intro request userID
    refine ⟨fun h => ?_, withdraw_fail f s now request userID⟩
    obtain ⟨account, -, -, -, -, hs1⟩ := withdraw_ok f s now request userID _ (Prod.ext h rfl)
    exact ⟨_, _, congrArg Store.accounts hs1, congrArg Store.transactions hs1, rfl⟩
  · intro request userID
    refine ⟨fun h => ?_, transfer_fail f s now request userID⟩
    obtain ⟨source, destination, -, -, -, -, -, -, hs1⟩ :=
      transfer_ok f s now request userID _ (Prod.ext h rfl)
    exact ⟨_, _, _, congrArg Store.accounts hs1, congrArg Store.transactions hs1, rfl⟩
  · exact processPayment_transactions f s
  · exact apply_transactions f s now
  · intro f0 fs
    exact processPendingPayments_transactions f0 fs s now

set_option maxRecDepth 100000 in
set_option exponentiation.threshold 3000 in
/-- C10, counterexample: `credit3` is the credit `Apply` builds for a request of
10^16 over 4 months when the rate service fails (rate 12.5, monthly payment
2565441486710472). The principal components of its schedule are
2461274820043805.5, 2486913099419261.5, 2512818444204879 and 2538993636332053:
their sum is 9999999999999999, one whole currency unit less than the amount,
so the sum does not equal the amount to the minimal unit 0.01. -/
theorem schedule_sum_counterexample :
    (Apply Faults.none store0 time0 (.error Err.db) 1 application2).1.toOption =
      some (ToCreditResponse credit3) ∧
    (Apply Faults.none store0 time0 (.error Err.db) 1 application2).2.payments.map
        (fun p => p.Principal) =
      (generatePaymentSchedule credit3).map (fun p => p.Principal) ∧
    F64.lt F64.zero credit3.Amount = true ∧ credit3.Term = 4 ∧
    F64.eq credit3.Amount (F64.ofNat 10000000000000000) = true ∧
    credit3.Amount.toRat = 10000000000000000 ∧
    credit3.InterestRate = F64.finite false 7036874417766400 (-49) ∧
    credit3.MonthlyPayment = F64.finite false 5130882973420944 (-1) ∧
    (generatePaymentSchedule credit3).map (fun p => p.Principal) =
      [F64.finite false 4922549640087611 (-1), F64.finite false 4973826198838523 (-1),
       F64.finite false 5025636888409758 (-1), F64.finite false 5077987272664106 (-1)] ∧
    ((generatePaymentSchedule credit3).map (fun p => p.Principal.toRat)).sum =
      9999999999999999 ∧
    (1 : ℚ) / 100 <
      |((generatePaymentSchedule credit3).map (fun p => p.Principal.toRat)).sum -
        credit3.Amount.toRat| := by
  have hp : (generatePaymentSchedule credit3).map (fun p => p.Principal) =
      [F64.finite false 4922549640087611 (-1), F64.finite false 4973826198838523 (-1),
       F64.finite false 5025636888409758 (-1), F64.finite false 5077987272664106 (-1)] := by
    decide
  have hs : ((generatePaymentSchedule credit3).map (fun p => p.Principal.toRat)).sum =
      9999999999999999 := by
    have := congrArg (fun l => (l.map F64.toRat).sum) hp
    simp only [List.map_map] at this
    rw [show ((fun p : PaymentSchedule => p.Principal.toRat)) =
      (F64.toRat ∘ fun p : PaymentSchedule => p.Principal) from rfl, this]
    simp only [List.map_cons, List.map_nil, List.sum_cons, List.sum_nil, F64.toRat]
    norm_num
  have ha : credit3.Amount.toRat = 10000000000000000 := by
    have : credit3.Amount = F64.finite false 5000000000000000 1 := by decide
    rw [this]
    simp only [F64.toRat]
    norm_num
  refine ⟨by decide, by decide, by decide, by decide, by decide, ha, by decide, by decide,
    hp, hs, ?_⟩
  rw [hs, ha]
  norm_num

/-- C10, amended. For every credit with a term of at least one month, whatever
its amount, rate and monthly payment (so for every credit built by `Apply`),
the final installment of `generatePaymentSchedule` has remaining debt exactly
zero. The principal components sum to the credit's original amount up to
float64 rounding: when the amount is a float64 value and no rounded result of
the debt recurrence (`roundedValues`: every `remainingDebt - principal` and the
final `principal + residual`) overflows, all principal components are finite
and their sum differs from the amount by at most `2^-53` times the sum of the
magnitudes of those rounded results, hence by at most the minimal currency
unit 0.01 whenever that sum of magnitudes is at most `2^53 / 100`; and the sum
equals the amount when the recurrence runs without rounding (`roundingFree`). -/
theorem schedule_amortizes (credit : Credit) (hterm : 1 ≤ credit.Term) :
    (∃ last, (generatePaymentSchedule credit).getLast? = some last ∧
      last.RemainingDebt = F64.zero) ∧
    (roundingFree credit = true →
      ((generatePaymentSchedule credit).map (fun p => p.Principal.toRat)).sum =
          credit.Amount.toRat ∧
        ∀ p ∈ generatePaymentSchedule credit, p.Principal.isFinite = true) ∧
    (credit.Amount.wf = true → (∀ x ∈ roundedValues credit, x.isFinite = true) →
      (∀ p ∈ generatePaymentSchedule credit, p.Principal.isFinite = true) ∧
      |((generatePaymentSchedule credit).map (fun p => p.Principal.toRat)).sum -
          credit.Amount.toRat| ≤
        ((roundedValues credit).map (fun x => |x.toRat|)).sum / 2 ^ 53 ∧
      (((roundedValues credit).map (fun x => |x.toRat|)).sum ≤ 2 ^ 53 / 100 →
        |((generatePaymentSchedule credit).map (fun p => p.Principal.toRat)).sum -
          credit.Amount.toRat| ≤ 1 / 100)) := by
  obtain ⟨n, hn⟩ : ∃ n : Nat, credit.Term.toNat = n + 1 :=
    ⟨credit.Term.toNat - 1, by omega⟩
  have hT : ((0 : Nat) : Int) + (n : Int) + 1 = credit.Term := by omega
  unfold generatePaymentSchedule roundingFree roundedValues
  rw [hn]
  refine ⟨scheduleLoop_last credit _ n 0 credit.Amount hT,
    scheduleLoop_sum credit _ n 0 credit.Amount hT, ?_⟩
  intro hwf hfin
  obtain ⟨hb, hf⟩ := scheduleLoop_sum_error credit _ n 0 credit.Amount hT hwf hfin
  refine ⟨hf, hb, ?_⟩
  intro hbudget
  refine le_trans hb ?_
  rw [div_le_iff₀ (by norm_num)]
  calc _ ≤ (2 : ℚ) ^ 53 / 100 := hbudget
    _ = 1 / 100 * 2 ^ 53 := by ring

set_option maxRecDepth 100000 in
set_option exponentiation.threshold 3000 in
/-- Witness for C10 (amended): for `credit0`, the credit `Apply` builds for 1000
over 4 months at the fallback rate, the final remaining debt is zero and the
principal components sum to 1000 to the minimal currency unit (the rounded
results of its recurrence have magnitudes summing to less than 1768); so do
those of `credit4`, built by `Apply` for 100000 over 12 months, to 100000; for
`credit1` (8 over 3 months, monthly rate one half, payment 5), whose
recurrence does not round, they sum to 8 exactly. -/
theorem schedule_amortizes_witness :
    (∃ last, (generatePaymentSchedule credit0).getLast? = some last ∧
      last.RemainingDebt = F64.zero) ∧
    |((generatePaymentSchedule credit0).map (fun p => p.Principal.toRat)).sum -
        credit0.Amount.toRat| ≤ 1 / 100 ∧
    |((generatePaymentSchedule credit4).map (fun p => p.Principal.toRat)).sum -
        credit4.Amount.toRat| ≤ 1 / 100 ∧
    ((generatePaymentSchedule credit1).map (fun p => p.Principal.toRat)).sum =
      credit1.Amount.toRat :=
  ⟨(schedule_amortizes credit0 (by decide)).1,
    ((schedule_amortizes credit0 (by decide)).2.2 (by decide) (by decide)).2.2
      (by
        have h : roundedValues credit0 =
            [F64.finite false 6631132795175643 (-43), F64.finite false 8887241798223398 (-44),
             F64.finite false 8933289683188357 (-45), F64.finite false 4996180836614144 (-90),
             F64.finite false 8933289683188357 (-45)] := by decide
        rw [h]
        simp only [List.map_cons, List.map_nil, List.sum_cons, List.sum_nil, F64.toRat]
        norm_num [abs_of_nonneg]),
    ((schedule_amortizes credit4 (by decide)).2.2 (by decide) (by decide)).2.2
      (by
        have h : roundedValues credit4 =
            [F64.finite false 6331357690704931 (-36), F64.finite false 5785136562154705 (-36),
             F64.finite false 5233225630182081 (-36), F64.finite false 4675565626001409 (-36),
             F64.finite false 8224193326887710 (-37), F64.finite false 7085516465052653 (-37),
             F64.finite false 5934978385906814 (-37), F64.finite false 4772455535103206 (-37),
             F64.finite false 7195646142540787 (-38), F64.finite false 4821909705211978 (-38),
             F64.finite false 4846893693321988 (-39), F64.finite false 7318349394477056 (-84),
             F64.finite false 4846893693321988 (-39)] := by decide
        rw [h]
        simp only [List.map_cons, List.map_nil, List.sum_cons, List.sum_nil, F64.toRat]
        norm_num [abs_of_nonneg]),
    ((schedule_amortizes credit1 (by decide)).2.1 (by decide)).1⟩

/-! ## The credit engine -/

/-- C11. For every credit with a term of `n >= 1` months, `generatePaymentSchedule`
returns exactly `n` installments; the `i`-th (`i = 1..n`) is due at the start
date plus `i` months, has the credit's monthly payment as amount, the credit's
id as parent, status PENDING and no settlement date; the due dates are
strictly increasing along the list. -/
theorem schedule_shape (credit : Credit) (hterm : 1 ≤ credit.Term) :
    ((generatePaymentSchedule credit).length : Int) = credit.Term ∧
    (∀ (k : Nat) (p : PaymentSchedule), (generatePaymentSchedule credit)[k]? = some p →
      p.PaymentDate = credit.StartDate.AddDate 0 ((k : Int) + 1) 0 ∧
      p.Amount = credit.MonthlyPayment ∧ p.CreditID = credit.ID ∧
      p.Status = PaymentStatus.PaymentStatusPending ∧ p.PaidDate = none) ∧
    (generatePaymentSchedule credit).Pairwise
      (fun p q => Time.Before p.PaymentDate q.PaymentDate = true) := by
  unfold generatePaymentSchedule
  refine ⟨?_, ?_, scheduleLoop_pairwise credit _ _ 0 credit.Amount⟩
  · rw [scheduleLoop_length]
    omega
  · intro k p h
    have := scheduleLoop_getElem credit _ _ 0 credit.Amount k p h
    simp only [Nat.zero_add] at this
    exact ⟨this.1, this.2.1, this.2.2.1, this.2.2.2.1, this.2.2.2.2.1⟩

set_option maxRecDepth 100000 in
set_option exponentiation.threshold 3000 in
/-- Witness for C11: the three installments of `credit1`, which starts on
2024-01-31, are due on 2024-03-02, 2024-03-31 and 2024-05-01. -/
theorem schedule_shape_witness :
    ((generatePaymentSchedule credit1).length : Int) = 3 ∧
    (generatePaymentSchedule credit1).map (fun p => p.PaymentDate) =
      [{ year := 2024, month := 3, day := 2, nanos := 0 },
       { year := 2024, month := 3, day := 31, nanos := 0 },
       { year := 2024, month := 5, day := 1, nanos := 0 }] ∧
    (generatePaymentSchedule credit1).Pairwise
      (fun p q => Time.Before p.PaymentDate q.PaymentDate = true) :=
  ⟨(schedule_shape credit1 (by decide)).1, by decide, (schedule_shape credit1 (by decide)).2.2⟩


set_option maxRecDepth 100000 in
set_option exponentiation.threshold 3000 in
/-- Remark. For `credit2` (1000 over 3 months at 12.5 per cent with a
monthly payment of 1000, a credit that `Apply` does not build, since `Apply`
prices 1000 over 3 months at 340.3 a month) the last payment overshoots the
residual debt more than twice, the inner difference of the final principal
rounds, and the final principal `-8703512616049777 * 2^-43` differs from the
remaining debt `-8703512616049778 * 2^-43` in the last bit. -/
theorem final_principal_rounds :
    (generatePaymentSchedule credit2).length = 3 ∧
    ((generatePaymentSchedule credit2)[2]?).map (fun p => p.Principal) =
      some (F64.finite true 8703512616049777 (-43)) ∧
    debtBefore credit2.Amount (generatePaymentSchedule credit2) 2 =
      F64.finite true 8703512616049778 (-43) ∧
    ((generatePaymentSchedule credit2)[2]?).map
      (fun p => F64.within2 (debtBefore credit2.Amount (generatePaymentSchedule credit2) 2)
        (F64.sub credit2.MonthlyPayment p.Interest)) = some false ∧
    ((generatePaymentSchedule credit2)[2]?).map
      (fun p => F64.eq p.Principal
        (debtBefore credit2.Amount (generatePaymentSchedule credit2) 2)) = some false := by
  decide

/-- C12. The schedule of a credit with a term of `n >= 1` months and a float64
amount has `n` installments and follows the recurrence: with the debt before
the first installment being the amount and the monthly rate
`InterestRate / 100 / 12`, every installment has interest
`debtBefore * monthlyRate`; every non-final installment has principal
`MonthlyPayment - interest` and remaining debt `debtBefore - principal`; the
final installment has remaining debt 0 and its principal, computed as
`(MonthlyPayment - interest) + (debtBefore - (MonthlyPayment - interest))`,
equals the debt before it, the whole residual debt, whenever
`MonthlyPayment - interest` and that debt are within a factor of two of each
other (`F64.within2`; for an annuity payment the two are equal up to rounding),
and more generally whenever the inner difference is computed without
rounding. -/
theorem schedule_recurrence (credit : Credit) (hterm : 1 ≤ credit.Term)
    (hwf : credit.Amount.wf = true) :
    ((generatePaymentSchedule credit).length : Int) = credit.Term ∧
    ∀ (k : Nat) (p : PaymentSchedule), (generatePaymentSchedule credit)[k]? = some p →
      p.Interest = F64.mul (debtBefore credit.Amount (generatePaymentSchedule credit) k)
        (monthlyInterestRate credit) ∧
      ((k : Int) + 1 < credit.Term →
        p.Principal = F64.sub credit.MonthlyPayment p.Interest ∧
        p.RemainingDebt =
          F64.sub (debtBefore credit.Amount (generatePaymentSchedule credit) k) p.Principal) ∧
      ((k : Int) + 1 = credit.Term →
        p.Principal = F64.add (F64.sub credit.MonthlyPayment p.Interest)
          (F64.sub (debtBefore credit.Amount (generatePaymentSchedule credit) k)
            (F64.sub credit.MonthlyPayment p.Interest)) ∧
        (F64.isSum (debtBefore credit.Amount (generatePaymentSchedule credit) k)
            (F64.sub (debtBefore credit.Amount (generatePaymentSchedule credit) k)
              (F64.sub credit.MonthlyPayment p.Interest))
            (F64.sub credit.MonthlyPayment p.Interest) = true →
          F64.eq p.Principal
            (debtBefore credit.Amount (generatePaymentSchedule credit) k) = true) ∧
        (F64.within2 (debtBefore credit.Amount (generatePaymentSchedule credit) k)
            (F64.sub credit.MonthlyPayment p.Interest) = true →
          F64.eq p.Principal
            (debtBefore credit.Amount (generatePaymentSchedule credit) k) = true) ∧
        p.RemainingDebt = F64.zero) := by
  refine ⟨?_, ?_⟩
  · unfold generatePaymentSchedule
    rw [scheduleLoop_length]
    omega
  · intro k p h
    have hr := scheduleLoop_recurrence credit (monthlyInterestRate credit) credit.Term.toNat 0
      credit.Amount k p hwf h
    have hg : scheduleLoop credit (monthlyInterestRate credit) credit.Term.toNat 0
        credit.Amount = generatePaymentSchedule credit := rfl
    rw [hg] at hr
    obtain ⟨hw, hi, hn, hl⟩ := hr
    refine ⟨hi, ?_, ?_⟩
    · intro hlt
      exact hn (by simp only [Nat.zero_add]; omega)
    · intro he
      obtain ⟨hp, hz⟩ := hl (by simp only [Nat.zero_add]; omega)
      refine ⟨hp, ?_, ?_, hz⟩
      · intro hs
        rw [hp]
        exact F64.add_residual _ _ hw hs
      · intro hs
        rw [hp]
        exact F64.add_residual_of_within2 _ _ hw (F64.sub_wf _ _) hs

set_option maxRecDepth 100000 in
set_option exponentiation.threshold 3000 in
/-- Witness for C12: `credit1` (8 over 3 months, monthly rate one half, payment
5) has the rows (interest, principal, remaining debt) (4, 1, 7),
(3.5, 1.5, 5.5) and (2.75, 5.5, 0). For `credit0`, the credit `Apply` builds
for 1000 over 4 months at the fallback rate, and for `credit3`, built by
`Apply` for 10^16 over 4 months, the last payment less its interest is within
a factor of two of the debt before the final installment, and the principal
of the final installment equals that debt. The same holds for the credits
`Apply` builds for 1000 and for 250000 over 3, 12, 36 and 60 months at the
fallback key rate and at the key rates 0.25 and 25. -/
theorem schedule_recurrence_witness :
    (generatePaymentSchedule credit1).map
        (fun p => (p.Interest, p.Principal, p.RemainingDebt)) =
      [(F64.ofNat 4, F64.ofNat 1, F64.ofNat 7),
       (F64.div (F64.ofNat 7) (F64.ofNat 2), F64.div (F64.ofNat 3) (F64.ofNat 2),
        F64.div (F64.ofNat 11) (F64.ofNat 2)),
       (F64.div (F64.ofNat 11) (F64.ofNat 4), F64.div (F64.ofNat 11) (F64.ofNat 2),
        F64.zero)] ∧
    ((generatePaymentSchedule credit1).length : Int) = credit1.Term ∧
    (∀ p, (generatePaymentSchedule credit0)[3]? = some p →
      F64.eq p.Principal (debtBefore credit0.Amount (generatePaymentSchedule credit0) 3) =
        true) ∧
    (∀ p, (generatePaymentSchedule credit3)[3]? = some p →
      F64.eq p.Principal (debtBefore credit3.Amount (generatePaymentSchedule credit3) 3) =
        true) ∧
    (∀ keyRate ∈ [Except.error Err.db, Except.ok (F64.div (F64.ofNat 1) (F64.ofNat 4)),
        Except.ok (F64.ofNat 25)],
      ∀ amount ∈ [1000, 250000], ∀ term ∈ [3, 12, 36, 60], ∀ p,
        (generatePaymentSchedule (newCredit 1
          { AccountID := 1, Amount := F64.ofNat amount, Term := (term : Nat) } keyRate
          time0))[term - 1]? = some p →
        F64.eq p.Principal
          (debtBefore (F64.ofNat amount)
            (generatePaymentSchedule (newCredit 1
              { AccountID := 1, Amount := F64.ofNat amount, Term := (term : Nat) } keyRate
              time0)) (term - 1)) = true) :=
  ⟨by decide, (schedule_recurrence credit1 (by decide) (by decide)).1,
    fun p h =>
      (((schedule_recurrence credit0 (by decide) (by decide)).2 3 p h).2.2 (by decide)).2.2.1
        (by
          have h0 : (generatePaymentSchedule credit0)[3]? =
              some ((generatePaymentSchedule credit0)[3]) := by decide
          rw [h0] at h
          cases h
          decide),
    fun p h =>
      (((schedule_recurrence credit3 (by decide) (by decide)).2 3 p h).2.2 (by decide)).2.2.1
        (by
          have h0 : (generatePaymentSchedule credit3)[3]? =
              some ((generatePaymentSchedule credit3)[3]) := by decide
          rw [h0] at h
          cases h
          decide),
    fun keyRate hk amount ha term ht p h =>
      (((schedule_recurrence
            (newCredit 1 { AccountID := 1, Amount := F64.ofNat amount, Term := (term : Nat) }
              keyRate time0)
            (by
              have h3 : 3 ≤ term := by
                simp only [List.mem_cons, List.mem_singleton, List.not_mem_nil, or_false] at ht
                omega
              show (1 : Int) ≤ (term : Nat)
              omega)
            (F64.ofNat_wf amount)).2 (term - 1) p h).2.2
          (by
            have h3 : 3 ≤ term := by
              simp only [List.mem_cons, List.mem_singleton, List.not_mem_nil, or_false] at ht
              omega
            show ((term - 1 : Nat) : Int) + 1 = ((term : Nat) : Int)
            omega)).2.2.1
        (by
          have hg := finalWithin2_grid keyRate hk amount ha term ht
          unfold finalWithin2 at hg
          have ht1 : (newCredit 1
              { AccountID := 1, Amount := F64.ofNat amount, Term := (term : Nat) } keyRate
              time0).Term.toNat - 1 = term - 1 := by
            show ((term : Nat) : Int).toNat - 1 = term - 1
            simp
          rw [ht1, h] at hg
          exact hg)⟩

/-- C13. For an application with an amount `> 0` and a term from 3 to 60 on an
existing account of the acting user, `Apply` succeeds when no store call
fails, and every successful `Apply` returns (and stores) a credit priced as
follows, in float64 arithmetic: interest rate = key rate + 5, where the key
rate is the rate service's value or 7.5 when the service returns an error;
with `mr = interest rate / 100 / 12` and `pw = Pow(1 + mr, term)`, monthly
payment = `amount * mr * pw / (pw - 1)`; total payment = monthly payment *
term. With a key rate of 7.5 (given or by fallback) the interest rate is
exactly 12.5, and for amount 100000 and term 12 the monthly payment is the
float64 `4897382169293884 * 2^-39`, which is within `10^-9` of the closed-form
annuity value computed exactly, itself within 0.005 of 8908.29. -/
theorem apply_pricing (s : Store) (now : Time) (keyRate : Except Err F64)
    (userID : Int) (application : CreditApplication) (account : Account)
    (hfind : s.accounts.find? (fun a => decide (a.ID = application.AccountID)) = some account)
    (howner : account.UserID = userID)
    (hpos : F64.lt F64.zero application.Amount = true)
    (h3 : 3 ≤ application.Term) (h60 : application.Term ≤ 60) :
    (∃ r, (Apply Faults.none s now keyRate userID application).1 = .ok r) ∧
    ∀ (f : Faults) (r : CreditResponse) (s1 : Store),
      Apply f s now keyRate userID application = (.ok r, s1) →
      r.InterestRate = F64.add
        (match keyRate with
          | .ok k => k
          | .error _ => F64.finite false 15 (-1)) (F64.ofNat 5) ∧
      (∀ mr pw : F64,
        mr = F64.div (F64.div r.InterestRate (F64.ofNat 100)) (F64.ofNat 12) →
        pw = F64.powNat (F64.add (F64.ofNat 1) mr) application.Term.toNat →
        r.MonthlyPayment = F64.div (F64.mul (F64.mul application.Amount mr) pw)
          (F64.sub pw (F64.ofNat 1))) ∧
      r.TotalPayment = F64.mul r.MonthlyPayment (F64.ofInt application.Term) ∧
      (∃ c, s1.credits = s.credits ++ [c] ∧ ToCreditResponse c = r) ∧
      ((keyRate = .ok (F64.finite false 15 (-1)) ∨ ∃ e, keyRate = .error e) →
        r.InterestRate.toRat = 25 / 2 ∧
        (application.Amount = F64.ofNat 100000 → application.Term = 12 →
          r.MonthlyPayment = F64.finite false 4897382169293884 (-39) ∧
          |r.MonthlyPayment.toRat - annuityPayment 100000 (25 / 2 / 100 / 12) 12|
            < 1 / 10 ^ 9 ∧
          |annuityPayment 100000 (25 / 2 / 100 / 12) 12 - 890829 / 100| < 1 / 200)) := by
  refine ⟨⟨_, apply_run s now keyRate userID application account hfind howner
    (F64.le_false_of_lt hpos) h3 h60⟩, ?_⟩
  intro f r s1 h
  obtain ⟨account, -, -, -, -, -, hr, hs1⟩ := apply_ok f s now keyRate userID application r s1 h
  subst hr hs1
  refine ⟨?_, ?_, ?_, ⟨_, rfl, rfl⟩, ?_⟩
  · cases keyRate <;> rfl
  · intro mr pw hmr hpw
    subst hmr hpw
    rfl
  · rfl
  · intro hk
    have hp : price application.Amount application.Term keyRate =
        price application.Amount application.Term (.ok (F64.finite false 15 (-1))) := by
      rcases hk with hk | ⟨e, hk⟩ <;> subst hk <;> rfl
    refine ⟨?_, ?_⟩
    · show (price application.Amount application.Term keyRate).1.toRat = 25 / 2
      rw [hp]
      show (F64.add (F64.finite false 15 (-1)) (F64.ofNat 5)).toRat = 25 / 2
      have : F64.add (F64.finite false 15 (-1)) (F64.ofNat 5) =
          F64.finite false 7036874417766400 (-49) := by decide
      rw [this]
      exact annuity_example.2.2
    · intro ha ht
      show (price application.Amount application.Term keyRate).2.1 = _ ∧
        |(price application.Amount application.Term keyRate).2.1.toRat - _| < _ ∧ _
      rw [hp, ha, ht, price_example.2]
      exact ⟨rfl, annuity_example.1, annuity_example.2.1⟩

set_option maxRecDepth 100000 in
set_option exponentiation.threshold 3000 in
/-- Witness for C13: user 1 applies on `store0` for 100000 over 12 months while
the rate service fails; the response carries the monthly payment
`4897382169293884 * 2^-39` (8908.286271059995...). -/
theorem apply_pricing_witness :
    ((Apply Faults.none store0 time0 (.error Err.db) 1 application1).1.toOption.map
      (fun r => r.MonthlyPayment)) = some (F64.finite false 4897382169293884 (-39)) ∧
    ∃ r, (Apply Faults.none store0 time0 (.error Err.db) 1 application1).1 = .ok r :=
  ⟨by decide, (apply_pricing store0 time0 (.error Err.db) 1 application1 account1
    (by decide) (by decide) (by decide) (by decide) (by decide)).1⟩

/-- C14. `Apply` returns `ErrInvalidCreditAmount` for every amount `<= 0`,
whatever the term; otherwise `ErrInvalidCreditTerm` for every term `< 3` or
`> 60`; otherwise `ErrAccountNotFound` when the account does not exist;
otherwise `ErrAccountAccessDenied` when the account's owner is not the acting
user. Each of these results leaves the store as it was and is the same
whatever the rate service would return. The terms 3 and 60 are accepted: on an
existing account of the acting user `Apply` then succeeds when no store call
fails. -/
theorem apply_validation (f : Faults) (s : Store) (now : Time) (keyRate : Except Err F64)
    (userID : Int) (application : CreditApplication) :
    (F64.le application.Amount F64.zero = true →
      Apply f s now keyRate userID application = (.error Err.ErrInvalidCreditAmount, s)) ∧
    (F64.le application.Amount F64.zero = false →
      (application.Term < 3 ∨ application.Term > 60) →
      Apply f s now keyRate userID application = (.error Err.ErrInvalidCreditTerm, s)) ∧
    (F64.le application.Amount F64.zero = false →
      3 ≤ application.Term → application.Term ≤ 60 →
      s.accounts.find? (fun a => decide (a.ID = application.AccountID)) = none →
      Apply f s now keyRate userID application = (.error Err.ErrAccountNotFound, s)) ∧
    (F64.le application.Amount F64.zero = false →
      3 ≤ application.Term → application.Term ≤ 60 → f.read 0 = false →
      ∀ account,
        s.accounts.find? (fun a => decide (a.ID = application.AccountID)) = some account →
        account.UserID ≠ userID →
        Apply f s now keyRate userID application = (.error Err.ErrAccountAccessDenied, s)) ∧
    (F64.le application.Amount F64.zero = false →
      (application.Term = 3 ∨ application.Term = 60) →
      ∀ account,
        s.accounts.find? (fun a => decide (a.ID = application.AccountID)) = some account →
        account.UserID = userID →
        ∃ r, (Apply Faults.none s now keyRate userID application).1 = .ok r ∧
          r.Term = application.Term) := by
  refine ⟨?_, ?_, ?_, ?_, ?_⟩
  · intro h
    simp [Apply, h]
  · intro h ht
    simp [Apply, h, ht]
  · intro h h3 h60 hn
    have ht : ¬ (application.Term < 3 ∨ application.Term > 60) := by omega
    by_cases hr : f.read 0 = true <;> simp [Apply, h, ht, AccountRepository.GetByID, hr, hn]
  · intro h h3 h60 hr account hfind hown
    have ht : ¬ (application.Term < 3 ∨ application.Term > 60) := by omega
    simp [Apply, h, ht, AccountRepository.GetByID, hr, hfind, hown]
  · intro h ht account hfind hown
    exact ⟨_, apply_run s now keyRate userID application account hfind hown h
      (by omega) (by omega), rfl⟩

set_option maxRecDepth 100000 in
set_option exponentiation.threshold 3000 in
/-- Witness for C14 on `store0`: amount 0; terms 2 and 61; a missing account;
account 2 of another user; terms 3 and 60 on account 1. -/
theorem apply_validation_witness :
    Apply Faults.none store0 time0 (.error Err.db) 1
        { AccountID := 9, Amount := F64.zero, Term := 0 } =
      (.error Err.ErrInvalidCreditAmount, store0) ∧
    Apply Faults.none store0 time0 (.error Err.db) 1
        { AccountID := 9, Amount := F64.ofNat 1000, Term := 2 } =
      (.error Err.ErrInvalidCreditTerm, store0) ∧
    Apply Faults.none store0 time0 (.error Err.db) 1
        { AccountID := 9, Amount := F64.ofNat 1000, Term := 61 } =
      (.error Err.ErrInvalidCreditTerm, store0) ∧
    Apply Faults.none store0 time0 (.error Err.db) 1
        { AccountID := 9, Amount := F64.ofNat 1000, Term := 3 } =
      (.error Err.ErrAccountNotFound, store0) ∧
    Apply Faults.none store0 time0 (.error Err.db) 1
        { AccountID := 2, Amount := F64.ofNat 1000, Term := 60 } =
      (.error Err.ErrAccountAccessDenied, store0) ∧
    (∃ r, (Apply Faults.none store0 time0 (.error Err.db) 1
        { AccountID := 1, Amount := F64.ofNat 1000, Term := 3 }).1 = .ok r ∧ r.Term = 3) ∧
    (∃ r, (Apply Faults.none store0 time0 (.error Err.db) 1
        { AccountID := 1, Amount := F64.ofNat 1000, Term := 60 }).1 = .ok r ∧ r.Term = 60) :=
  ⟨(apply_validation Faults.none store0 time0 (.error Err.db) 1
      { AccountID := 9, Amount := F64.zero, Term := 0 }).1 (by decide),
   (apply_validation Faults.none store0 time0 (.error Err.db) 1
      { AccountID := 9, Amount := F64.ofNat 1000, Term := 2 }).2.1 (by decide) (by decide),
   (apply_validation Faults.none store0 time0 (.error Err.db) 1
      { AccountID := 9, Amount := F64.ofNat 1000, Term := 61 }).2.1 (by decide) (by decide),
   (apply_validation Faults.none store0 time0 (.error Err.db) 1
      { AccountID := 9, Amount := F64.ofNat 1000, Term := 3 }).2.2.1
      (by decide) (by decide) (by decide) (by decide),
   (apply_validation Faults.none store0 time0 (.error Err.db) 1
      { AccountID := 2, Amount := F64.ofNat 1000, Term := 60 }).2.2.2.1
      (by decide) (by decide) (by decide) rfl account2 (by decide) (by decide),
   (apply_validation Faults.none store0 time0 (.error Err.db) 1
      { AccountID := 1, Amount := F64.ofNat 1000, Term := 3 }).2.2.2.2
      (by decide) (by decide) account1 (by decide) (by decide),
   (apply_validation Faults.none store0 time0 (.error Err.db) 1
      { AccountID := 1, Amount := F64.ofNat 1000, Term := 60 }).2.2.2.2
      (by decide) (by decide) account1 (by decide) (by decide)⟩

/-- C15. For an application with an amount `> 0` and a term from 3 to 60 on an
existing account of the acting user, `Apply` succeeds when no store call
fails, and every successful `Apply` appends one credit to the credits - with
the id of the response, status APPROVED, start date `now`, end date `now` plus
term months, the acting user, the account, the amount and the term of the
application - appends exactly term installments, every one with that credit's
id as parent and status PENDING, sets the account's balance to the float64 sum
`old balance + amount`, leaves every other account, the ledger and the cards
as they were. -/
theorem apply_effect (s : Store) (now : Time) (keyRate : Except Err F64)
    (userID : Int) (application : CreditApplication) (account : Account)
    (hfind : s.accounts.find? (fun a => decide (a.ID = application.AccountID)) = some account)
    (howner : account.UserID = userID)
    (hpos : F64.lt F64.zero application.Amount = true)
    (h3 : 3 ≤ application.Term) (h60 : application.Term ≤ 60) :
    (∃ r, (Apply Faults.none s now keyRate userID application).1 = .ok r) ∧
    ∀ (f : Faults) (r : CreditResponse) (s1 : Store),
      Apply f s now keyRate userID application = (.ok r, s1) →
      (∃ c ps, s1.credits = s.credits ++ [c] ∧ c.ID = r.ID ∧
        c.Status = CreditStatus.CreditStatusApproved ∧
        r.Status = CreditStatus.CreditStatusApproved ∧
        c.StartDate = now ∧ c.EndDate = now.AddDate 0 application.Term 0 ∧
        c.UserID = userID ∧ c.AccountID = application.AccountID ∧
        c.Amount = application.Amount ∧ c.Term = application.Term ∧
        s1.payments = s.payments ++ ps ∧ (ps.length : Int) = application.Term ∧
        ∀ p ∈ ps, p.CreditID = c.ID ∧ p.Status = PaymentStatus.PaymentStatusPending) ∧
      s1.balance application.AccountID =
        some (F64.add account.Balance application.Amount) ∧
      (∀ j, j ≠ application.AccountID →
        s1.accounts.find? (fun a => decide (a.ID = j)) =
          s.accounts.find? (fun a => decide (a.ID = j))) ∧
      s1.accounts = s.accounts.map (fun a =>
        if a.ID = application.AccountID then
          { a with Balance := F64.add account.Balance application.Amount } else a) ∧
      s1.transactions = s.transactions ∧ s1.cards = s.cards := by
  refine ⟨⟨_, apply_run s now keyRate userID application account hfind howner
    (F64.le_false_of_lt hpos) h3 h60⟩, ?_⟩
  intro f r s1 h
  obtain ⟨account1, hfind1, -, -, -, -, hr, hs1⟩ :=
    apply_ok f s now keyRate userID application r s1 h
  rw [hfind] at hfind1
  cases hfind1
  subst hr hs1
  have hself := find_setBalance_self s.accounts application.AccountID
    (F64.add account.Balance application.Amount) account hfind
  refine ⟨⟨_, _, rfl, rfl, rfl, rfl, rfl, rfl, rfl, rfl, rfl, rfl, rfl, ?_, ?_⟩, ?_, ?_, rfl, rfl, rfl⟩
  · rw [PaymentRepository.withIDs_length]
    unfold generatePaymentSchedule
    rw [scheduleLoop_length]
    show ((application.Term.toNat : Nat) : Int) = application.Term
    omega
  · intro p hp
    obtain ⟨q, hq, id, hid⟩ := PaymentRepository.withIDs_mem _ _ p hp
    obtain ⟨k, hk⟩ := List.getElem?_of_mem hq
    have := scheduleLoop_getElem _ _ _ 0 _ k q hk
    subst hid
    exact ⟨this.2.2.1, this.2.2.2.1⟩
  · simp only [Store.balance, hself, Option.map_some']
  · intro j hj
    exact find_setBalance_other s.accounts application.AccountID j _ hj

set_option maxRecDepth 100000 in
set_option exponentiation.threshold 3000 in
/-- Witness for C15: user 1 applies on `store0` (account 1 holds 100) for 1000
over 4 months; afterwards there is one credit, with id 1, there are four
installments and account 1 holds 1100. -/
theorem apply_effect_witness :
    (∃ r, (Apply Faults.none store0 time0 (.error Err.db) 1 application0).1 = .ok r) ∧
    (Apply Faults.none store0 time0 (.error Err.db) 1 application0).2.credits = [credit0] ∧
    ((Apply Faults.none store0 time0 (.error Err.db) 1 application0).2.payments.map
      (fun p => (p.ID, p.CreditID))) = [(2, 1), (3, 1), (4, 1), (5, 1)] ∧
    ((Apply Faults.none store0 time0 (.error Err.db) 1 application0).2.balance 1).map
      (fun b => F64.eq b (F64.ofNat 1100)) = some true :=
  ⟨(apply_effect store0 time0 (.error Err.db) 1 application0 account1
    (by decide) (by decide) (by decide) (by decide) (by decide)).1, by decide, by decide,
    by decide⟩

/-- C16. `Apply` is atomic on the store: for a valid application on an
existing account of the acting user, once the unit of work has begun (and,
unless the first statement fails, holds the new credit), a
failure of the insertion of the credit, of the batch insertion of the
installments, of the balance update or of the commit makes `Apply` return an
error and leaves the committed store as it was before the call: no new
credit, no new installment, the same balances. -/
theorem apply_atomic (f : Faults) (s : Store) (now : Time) (keyRate : Except Err F64)
    (userID : Int) (application : CreditApplication) (account : Account)
    (hpos : F64.lt F64.zero application.Amount = true)
    (h3 : 3 ≤ application.Term) (h60 : application.Term ≤ 60)
    (hr0 : f.read 0 = false)
    (hfind : s.accounts.find? (fun a => decide (a.ID = application.AccountID)) = some account)
    (hown : account.UserID = userID)
    (hbegin : f.beginTx = false)
    (hfail : f.write 0 = true ∨ f.write 1 = true ∨ f.write 2 = true ∨ f.commit = true) :
    (f.write 0 = false → ∃ tx id tx1, BeginTx f s = .ok tx ∧
      CreditRepository.CreateTx f 0 tx (newCredit userID application keyRate now) =
        .ok (id, tx1) ∧
      tx1.work.credits.length = s.credits.length + 1) ∧
    Apply f s now keyRate userID application = (.error Err.db, s) ∧
    (Apply f s now keyRate userID application).2.credits = s.credits ∧
    (Apply f s now keyRate userID application).2.payments = s.payments ∧
    (Apply f s now keyRate userID application).2.balance application.AccountID =
      some account.Balance := by
  have hle : F64.le application.Amount F64.zero = false := F64.le_false_of_lt hpos
  have ht : ¬ (application.Term < 3 ∨ application.Term > 60) := by omega
  have main : Apply f s now keyRate userID application = (.error Err.db, s) := by
    by_cases hw0 : f.write 0 = true
    · simp [Apply, hle, ht, AccountRepository.GetByID, hr0, hfind, hown, BeginTx, hbegin,
        CreditRepository.CreateTx, hw0, Tx.Rollback]
    by_cases hw1 : f.write 1 = true
    · simp [Apply, hle, ht, AccountRepository.GetByID, hr0, hfind, hown, BeginTx, hbegin,
        CreditRepository.CreateTx, hw0, PaymentRepository.CreateBatchTx, hw1, Tx.Rollback]
    by_cases hw2 : f.write 2 = true
    · simp [Apply, hle, ht, AccountRepository.GetByID, hr0, hfind, hown, BeginTx, hbegin,
        CreditRepository.CreateTx, hw0, PaymentRepository.CreateBatchTx, hw1,
        AccountRepository.UpdateBalanceTx, hw2, Tx.Rollback]
    have hc : f.commit = true := by
      rcases hfail with h | h | h | h
      · exact absurd h hw0
      · exact absurd h hw1
      · exact absurd h hw2
      · exact h
    simp [Apply, hle, ht, AccountRepository.GetByID, hr0, hfind, hown, BeginTx, hbegin,
        CreditRepository.CreateTx, hw0, PaymentRepository.CreateBatchTx, hw1,
        AccountRepository.UpdateBalanceTx, hw2, Tx.Commit, hc, Tx.Rollback]
  rw [main]
  refine ⟨?_, rfl, rfl, rfl, by simp only [Store.balance, hfind, Option.map_some']⟩
  intro hw0
  simp only [BeginTx, hbegin, CreditRepository.CreateTx, hw0]
  exact ⟨_, _, _, rfl, rfl, by simp⟩

set_option maxRecDepth 100000 in
set_option exponentiation.threshold 3000 in
/-- Witness for C16: on `store0`, the application for 1000 over 4 months whose
commit fails. -/
theorem apply_atomic_witness :
    Apply commitFails store0 time0 (.error Err.db) 1 application0 = (.error Err.db, store0) :=
  (apply_atomic commitFails store0 time0 (.error Err.db) 1 application0 account1
    (by decide) (by decide) (by decide) (by decide) (by decide) (by decide) (by decide)
    (Or.inr (Or.inr (Or.inr (by decide))))).2.1

/-- C17. Let the due pending installments of the store be exactly one
installment whose parent credit and that credit's account resolve, and let no
store call fail. One run of `ProcessPendingPayments` returns no error and: if
the account balance is `>=` the installment amount, the installment becomes
PAID with settlement date `now`, the account's balance becomes the float64
difference `balance - amount`, every other account and every credit stays as
it was; if the account balance is `<` the installment amount, the installment
becomes OVERDUE and gets no settlement date (the update writes none), the
parent credit becomes OVERDUE and the accounts stay as they were. -/
theorem sweep_settles_or_defaults (s : Store) (now : Time) (p : PaymentSchedule)
    (credit : Credit) (account : Account)
    (hdue : s.payments.filter (fun q =>
      decide (q.Status = PaymentStatus.PaymentStatusPending) && Time.le q.PaymentDate now) = [p])
    (hcredit : s.credits.find? (fun c => decide (c.ID = p.CreditID)) = some credit)
    (haccount : s.accounts.find? (fun a => decide (a.ID = credit.AccountID)) = some account) :
    p ∈ s.payments ∧ p.Status = PaymentStatus.PaymentStatusPending ∧
    (ProcessPendingPayments Faults.none (fun _ => Faults.none) s now).1 = none ∧
    (F64.ge account.Balance p.Amount = true →
      ∀ s1, (ProcessPendingPayments Faults.none (fun _ => Faults.none) s now).2 = s1 →
        s1.payments = s.payments.map (fun q =>
          if q.ID = p.ID then
            { q with Status := PaymentStatus.PaymentStatusPaid, PaidDate := some now }
          else q) ∧
        { p with Status := PaymentStatus.PaymentStatusPaid, PaidDate := some now } ∈ s1.payments ∧
        s1.balance credit.AccountID = some (F64.sub account.Balance p.Amount) ∧
        (∀ j, j ≠ credit.AccountID →
          s1.accounts.find? (fun a => decide (a.ID = j)) =
            s.accounts.find? (fun a => decide (a.ID = j))) ∧
        s1.credits = s.credits) ∧
    (F64.lt account.Balance p.Amount = true →
      ∀ s1, (ProcessPendingPayments Faults.none (fun _ => Faults.none) s now).2 = s1 →
        s1.payments = s.payments.map (fun q =>
          if q.ID = p.ID then { q with Status := PaymentStatus.PaymentStatusOverdue } else q) ∧
        { p with Status := PaymentStatus.PaymentStatusOverdue } ∈ s1.payments ∧
        (p.PaidDate = none →
          { p with Status := PaymentStatus.PaymentStatusOverdue, PaidDate := none } ∈
            s1.payments) ∧
        s1.credits.find? (fun c => decide (c.ID = p.CreditID)) =
          some { credit with Status := CreditStatus.CreditStatusOverdue } ∧
        s1.accounts = s.accounts) := by
  have hmem : p ∈ s.payments.filter (fun q =>
      decide (q.Status = PaymentStatus.PaymentStatusPending) && Time.le q.PaymentDate now) := by
    rw [hdue]; exact List.mem_singleton_self p
  rw [List.mem_filter] at hmem
  have hpend : p.Status = PaymentStatus.PaymentStatusPending := by
    have := hmem.2
    simp only [Bool.and_eq_true, decide_eq_true_eq] at this
    exact this.1
  have hcid : credit.ID = p.CreditID := by
    have := List.find?_some hcredit
    simpa using this
  have haid : account.ID = credit.AccountID := find_ID haccount
  rw [sweep_single s now p hdue]
  refine ⟨hmem.1, hpend, rfl, ?_, ?_⟩
  · intro hge s1 hs1
    subst hs1
    have hrun : processOne Faults.none s now p =
        { s with
          accounts := AccountRepository.setBalance s.accounts credit.AccountID
            (F64.sub account.Balance p.Amount),
          payments := s.payments.map (fun q =>
            if q.ID = p.ID then
              { q with Status := PaymentStatus.PaymentStatusPaid, PaidDate := some now }
            else q) } := by
      simp [processOne, CreditRepository.GetByID, AccountRepository.GetByID, Faults.none,
        hcredit, haccount, BeginTx, hge, AccountRepository.UpdateBalanceTx, Tx.Commit,
        PaymentRepository.UpdateStatus, haid]
    rw [hrun]
    refine ⟨rfl, ?_, ?_, ?_, rfl⟩
    · show _ ∈ s.payments.map _
      rw [List.mem_map]
      exact ⟨p, hmem.1, by simp⟩
    · simp only [Store.balance, find_setBalance_self s.accounts credit.AccountID _ account haccount,
        Option.map_some']
    · intro j hj
      exact find_setBalance_other s.accounts credit.AccountID j _ hj
  · intro hlt s1 hs1
    subst hs1
    have hge : F64.ge account.Balance p.Amount = false := F64.le_false_of_lt hlt
    have hrun : processOne Faults.none s now p =
        { s with
          payments := s.payments.map (fun q =>
            if q.ID = p.ID then { q with Status := PaymentStatus.PaymentStatusOverdue } else q),
          credits := s.credits.map (fun c =>
            if c.ID = p.CreditID then { c with Status := CreditStatus.CreditStatusOverdue }
            else c) } := by
      simp [processOne, CreditRepository.GetByID, AccountRepository.GetByID, Faults.none,
        hcredit, haccount, BeginTx, hge, Tx.Rollback,
        PaymentRepository.UpdateStatus, CreditRepository.UpdateStatus, hcid]
    rw [hrun]
    have hm : { p with Status := PaymentStatus.PaymentStatusOverdue } ∈
        s.payments.map (fun q =>
          if q.ID = p.ID then { q with Status := PaymentStatus.PaymentStatusOverdue } else q) := by
      rw [List.mem_map]
      exact ⟨p, hmem.1, by simp⟩
    refine ⟨rfl, hm, ?_, ?_, rfl⟩
    · intro hnone
      have : ({ p with Status := PaymentStatus.PaymentStatusOverdue, PaidDate := none } :
          PaymentSchedule) = { p with Status := PaymentStatus.PaymentStatusOverdue } := by
        rw [← hnone]
      rw [this]
      exact hm
    · exact find_setStatus_self s.credits p.CreditID _ credit hcredit

set_option maxRecDepth 100000 in
set_option exponentiation.threshold 3000 in
/-- Witness for C17: the sweep of 2024-03-15 over `store1` (account 1 holds
1100) settles the first installment of `credit0`; over `store2` (account 1
holds 100) it marks the installment and the credit OVERDUE. -/
theorem sweep_settles_or_defaults_witness :
    ((ProcessPendingPayments Faults.none (fun _ => Faults.none) store1 time1).2.balance 1 =
        some (F64.sub (F64.add (F64.ofNat 100) (F64.ofNat 1000)) installment1.Amount) ∧
      (ProcessPendingPayments Faults.none (fun _ => Faults.none) store1 time1).2.credits =
        store1.credits) ∧
    ((ProcessPendingPayments Faults.none (fun _ => Faults.none) store2 time1).2.credits.find?
        (fun c => decide (c.ID = 1)) =
        some { credit0 with Status := CreditStatus.CreditStatusOverdue } ∧
      (ProcessPendingPayments Faults.none (fun _ => Faults.none) store2 time1).2.accounts =
        store2.accounts) := by
  have h1 := (sweep_settles_or_defaults store1 time1 installment1 credit0
    { account1 with Balance := F64.add (F64.ofNat 100) (F64.ofNat 1000) }
    (by decide) (by decide) (by decide)).2.2.2.1 (by decide) _ rfl
  have h2 := (sweep_settles_or_defaults store2 time1 installment1 credit0
    { account1 with
      Balance := (F64.sub (F64.add (F64.ofNat 100) (F64.ofNat 1000)) (F64.ofNat 1000)) }
    (by decide) (by decide) (by decide)).2.2.2.2 (by decide) _ rfl
  exact ⟨⟨h1.2.2.1, h1.2.2.2.2⟩, ⟨h2.2.2.2.1, h2.2.2.2.2⟩⟩

set_option maxRecDepth 100000 in
set_option exponentiation.threshold 3000 in
/-- C18, evaluation of the code at the failing input. On `store1` (account 1
holds 1100, the first installment of `credit0`, about 256.54, is due) the
sweep of 2024-03-15 commits the debit of the installment, the update of the
installment's status then fails and `ProcessPendingPayments` ignores that
error: it returns no error, account 1 holds `1100 - amount` and the
installment is still PENDING. The sweep of 2024-03-16, in which no store call
fails, selects the same installment again, debits account 1 a second time
(`1100 - amount - amount`) and only then marks it PAID. -/
theorem sweep_debits_twice :
    ProcessPendingPayments Faults.none (fun _ => statusUpdateFails) store1 time1 =
      (none, store3) ∧
    store3.balance 1 =
      some (F64.sub (F64.add (F64.ofNat 100) (F64.ofNat 1000)) installment1.Amount) ∧
    store3.payments = store1.payments ∧
    store3.payments.filter (fun q =>
      decide (q.Status = PaymentStatus.PaymentStatusPending) && Time.le q.PaymentDate time2) =
      [installment1] ∧
    (ProcessPendingPayments Faults.none (fun _ => Faults.none) store3 time2).1 = none ∧
    (ProcessPendingPayments Faults.none (fun _ => Faults.none) store3 time2).2.balance 1 =
      some (F64.sub (F64.sub (F64.add (F64.ofNat 100) (F64.ofNat 1000)) installment1.Amount)
        installment1.Amount) ∧
    (ProcessPendingPayments Faults.none (fun _ => Faults.none) store3 time2).2.payments.map
      (fun q => (q.ID, q.Status, q.PaidDate)) =
      [(2, PaymentStatus.PaymentStatusPaid, some time2),
       (3, PaymentStatus.PaymentStatusPending, none),
       (4, PaymentStatus.PaymentStatusPending, none),
       (5, PaymentStatus.PaymentStatusPending, none)] := by
  decide

/-- C19. Failures are isolated per installment in a sweep. Let the query for
the due pending installments return `pre ++ p :: post` and let the iteration
for `p` be abandoned because resolving the credit or the account, beginning
the unit of work or, when the balance suffices, updating the balance or
committing fails. Then that iteration leaves the store as it was,
`ProcessPendingPayments` returns no error and ends in the store that the sweep
over `pre ++ post` with the same outcomes of the store calls in the other
iterations ends in. `ProcessPendingPayments` returns an error exactly when the
query for the due pending installments fails, and then changes nothing. -/
theorem sweep_isolates_failures (f0 : Faults) (fs : Nat → Faults) (s : Store) (now : Time)
    (pre : List PaymentSchedule) (p : PaymentSchedule) (post : List PaymentSchedule)
    (hquery : PaymentRepository.GetPendingPayments f0 0 s now = .ok (pre ++ p :: post))
    (hfail : iterationFails (fs pre.length) (sweepLoop fs now 0 s pre) p = true) :
    processOne (fs pre.length) (sweepLoop fs now 0 s pre) now p = sweepLoop fs now 0 s pre ∧
    ProcessPendingPayments f0 fs s now =
      (none, sweepLoop (skipIteration fs pre.length) now 0 s (pre ++ post)) ∧
    (∀ (g0 : Faults) (gs : Nat → Faults) (t : Store) (u : Time),
      ((ProcessPendingPayments g0 gs t u).1 ≠ none ↔ g0.read 0 = true) ∧
      ((ProcessPendingPayments g0 gs t u).1 ≠ none →
        (ProcessPendingPayments g0 gs t u).2 = t)) := by
  have h1 := processOne_of_fails _ _ now p hfail
  refine ⟨h1, ?_, ?_⟩
  · unfold ProcessPendingPayments
    rw [hquery]
    simp only
    rw [sweepLoop_append, sweepLoop_append]
    simp only [sweepLoop, Nat.zero_add]
    rw [h1]
    rw [sweepLoop_congr fs (skipIteration fs pre.length) now pre 0 0 s]
    · congr 1
      apply sweepLoop_congr
      intro i _
      simp [skipIteration]
      congr 1
      omega
    · intro i hi
      simp [skipIteration, hi]
  · intro g0 gs t u
    unfold ProcessPendingPayments PaymentRepository.GetPendingPayments
    by_cases hr : g0.read 0 = true
    · simp [hr]
    · simp [hr]

set_option maxRecDepth 100000 in
set_option exponentiation.threshold 3000 in
/-- Witness for C19: in the sweep of 2024-04-15 over `store1` the first two
installments of `credit0` are due; the commit of the first iteration fails.
The sweep returns no error, leaves the first installment PENDING and settles
the second. -/
theorem sweep_isolates_failures_witness :
    ProcessPendingPayments Faults.none firstCommitFails store1 time3 =
      (none, sweepLoop (skipIteration firstCommitFails 0) time3 0 store1
        ([] ++ (store1.payments.drop 1).take 1)) ∧
    (ProcessPendingPayments Faults.none firstCommitFails store1 time3).2.payments.map
      (fun q => (q.ID, q.Status)) =
      [(2, PaymentStatus.PaymentStatusPending), (3, PaymentStatus.PaymentStatusPaid),
       (4, PaymentStatus.PaymentStatusPending), (5, PaymentStatus.PaymentStatusPending)] ∧
    (ProcessPendingPayments Faults.none firstCommitFails store1 time3).2.balance 1 =
      some (F64.sub (F64.add (F64.ofNat 100) (F64.ofNat 1000)) installment1.Amount) :=
  ⟨(sweep_isolates_failures Faults.none firstCommitFails store1 time3 [] installment1
      ((store1.payments.drop 1).take 1) (congrArg Except.ok (by decide)) (by decide)).2.1,
    by decide, by decide⟩

/-- C20. In every store the service can reach from a store without credits,
every credit has status APPROVED or OVERDUE, hence never PENDING or REJECTED.
Every credit a successful `Apply` creates has status APPROVED, and a single
operation changes the credits only by appending credits with status APPROVED
and by turning the status of existing credits into OVERDUE. Operation by
operation: `Deposit`, `Withdraw`, `Transfer` and card `ProcessPayment` leave
the credits exactly as they were, whether they succeed or fail; `Apply` leaves
every existing credit as it was and only appends credits with status
APPROVED; the sweep `ProcessPendingPayments` keeps every credit in place and
either leaves it as it was or changes its status, and nothing else, to
OVERDUE. -/
theorem credit_status_invariant (s : Store) (h : Reachable s) :
    (∀ c ∈ s.credits,
      (c.Status = CreditStatus.CreditStatusApproved ∨
        c.Status = CreditStatus.CreditStatusOverdue) ∧
      c.Status ≠ CreditStatus.CreditStatusPending ∧
      c.Status ≠ CreditStatus.CreditStatusRejected) ∧
    (∀ (f : Faults) (now : Time) (keyRate : Except Err F64) (userID : Int)
        (application : CreditApplication) (r : CreditResponse) (s1 : Store),
      Apply f s now keyRate userID application = (.ok r, s1) →
      r.Status = CreditStatus.CreditStatusApproved ∧
      ∃ c, s1.credits = s.credits ++ [c] ∧ c.Status = CreditStatus.CreditStatusApproved) ∧
    (∀ s1, Step s s1 →
      ∃ kept added, s1.credits = kept ++ added ∧ List.Forall₂ statusStep s.credits kept ∧
        ∀ c ∈ added, c.Status = CreditStatus.CreditStatusApproved) ∧
    (∀ (f : Faults) (now : Time) (request : DepositRequest) (userID : Int),
      (Deposit f s now request userID).2.credits = s.credits) ∧
    (∀ (f : Faults) (now : Time) (request : WithdrawRequest) (userID : Int),
      (Withdraw f s now request userID).2.credits = s.credits) ∧
    (∀ (f : Faults) (now : Time) (request : TransferRequest) (userID : Int),
      (Transfer f s now request userID).2.credits = s.credits) ∧
    (∀ (f : Faults) (request : CardPaymentRequest) (userID : Int),
      (ProcessPayment f s request userID).2.credits = s.credits) ∧
    (∀ (f : Faults) (now : Time) (keyRate : Except Err F64) (userID : Int)
        (application : CreditApplication),
      ∃ added, (Apply f s now keyRate userID application).2.credits = s.credits ++ added ∧
        ∀ c ∈ added, c.Status = CreditStatus.CreditStatusApproved) ∧
    (∀ (f0 : Faults) (fs : Nat → Faults) (now : Time),
      List.Forall₂ statusStep s.credits (ProcessPendingPayments f0 fs s now).2.credits) := by
  refine ⟨?_, ?_, fun s1 hs => step_credits s s1 hs,
    fun f now request userID => deposit_credits f s now request userID,
    fun f now request userID => withdraw_credits f s now request userID,
    fun f now request userID => transfer_credits f s now request userID,
    fun f request userID => processPayment_credits f s request userID,
    fun f now keyRate userID application => apply_credits f s now keyRate userID application,
    fun f0 fs now => processPendingPayments_credits f0 fs s now⟩
  · intro c hc
    rcases reachable_status s h c hc with h1 | h1 <;> rw [h1] <;> decide
  · intro f now keyRate userID application r s1 ha
    obtain ⟨_, _, _, _, _, _, hr, hs1⟩ := apply_ok f s now keyRate userID application r s1 ha
    subst hr hs1
    exact ⟨rfl, _, rfl, rfl⟩

set_option maxRecDepth 100000 in
set_option exponentiation.threshold 3000 in
/-- Witness for C20: the store reached from `store0` by the approval of
`application0`, the withdrawal of 1000 and the sweep of 2024-03-15 holds one
credit, whose status is OVERDUE; the withdrawal left the credits of `store1`
as they were, and the sweep changed nothing but the status of the credit of
`store2`. -/
theorem credit_status_invariant_witness :
    (ProcessPendingPayments Faults.none (fun _ => Faults.none) store2 time1).2.credits.map
      (fun c => c.Status) = [CreditStatus.CreditStatusOverdue] ∧
    (∀ c ∈ (ProcessPendingPayments Faults.none (fun _ => Faults.none) store2 time1).2.credits,
      (c.Status = CreditStatus.CreditStatusApproved ∨
        c.Status = CreditStatus.CreditStatusOverdue) ∧
      c.Status ≠ CreditStatus.CreditStatusPending ∧
      c.Status ≠ CreditStatus.CreditStatusRejected) ∧
    (Withdraw Faults.none store1 time0 { AccountID := 1, Amount := F64.ofNat 1000 } 1).2.credits =
      store1.credits ∧
    List.Forall₂ statusStep store2.credits
      (ProcessPendingPayments Faults.none (fun _ => Faults.none) store2 time1).2.credits :=
  ⟨by decide,
    (credit_status_invariant _
      (Reachable.step store2 _
        (Reachable.step store1 store2
          (Reachable.step store0 store1 (Reachable.init store0 rfl)
            (Step.apply Faults.none store0 time0 (.error Err.db) 1 application0))
          (Step.withdraw Faults.none store1 time0
            { AccountID := 1, Amount := F64.ofNat 1000 } 1))
        (Step.sweep Faults.none (fun _ => Faults.none) store2 time1))).1,
    (credit_status_invariant store1
      (Reachable.step store0 store1 (Reachable.init store0 rfl)
        (Step.apply Faults.none store0 time0 (.error Err.db) 1 application0))).2.2.2.2.1
      Faults.none time0 { AccountID := 1, Amount := F64.ofNat 1000 } 1,
    (credit_status_invariant store2
      (Reachable.step store1 store2
        (Reachable.step store0 store1 (Reachable.init store0 rfl)
          (Step.apply Faults.none store0 time0 (.error Err.db) 1 application0))
        (Step.withdraw Faults.none store1 time0
          { AccountID := 1, Amount := F64.ofNat 1000 } 1))).2.2.2.2.2.2.2.2
      Faults.none (fun _ => Faults.none) time1⟩

/-! ## Balance prediction -/

/-- C21. For every `days`, `PredictBalance` on an existing account owned by the
caller returns, when its two reads succeed, exactly `h` projections, where
`h = days` when `1 <= days <= 365` and `h = 30` otherwise; hence the number of
projections lies between 1 and 365. -/
theorem predict_count (f : Faults) (s : Store) (now : Time) (accountID userID days : Int)
    (account : Account) (hr0 : f.read 0 = false) (hr1 : f.read 1 = false)
    (hfind : s.accounts.find? (fun a => decide (a.ID = accountID)) = some account)
    (howner : account.UserID = userID) :
    ∃ predictions, PredictBalance f s now accountID userID days = .ok predictions ∧
      (predictions.length : Int) = (if 1 ≤ days ∧ days ≤ 365 then days else 30) ∧
      1 ≤ predictions.length ∧ predictions.length ≤ 365 := by
  obtain ⟨transactions, -, h⟩ :=
    predictBalance_run f s now accountID userID days account hr0 hr1 hfind howner
  refine ⟨_, h, ?_, ?_, ?_⟩ <;> rw [predictLoop_length] <;> split_ifs <;> omega

set_option maxRecDepth 100000 in
set_option exponentiation.threshold 3000 in
/-- Witness for C21: on account 1 of `store0`, the horizons 10, 365, 0, -5 and
366 give 10, 365, 30, 30 and 30 projections. -/
theorem predict_count_witness :
    [10, 365, 0, -5, 366].map (fun days =>
      (PredictBalance Faults.none store0 time0 1 1 days).toOption.map (fun ps => ps.length)) =
      [some 10, some 365, some 30, some 30, some 30] ∧
    ∃ predictions, PredictBalance Faults.none store0 time0 1 1 10 = .ok predictions ∧
      (predictions.length : Int) = 10 ∧ 1 ≤ predictions.length ∧ predictions.length ≤ 365 :=
  ⟨by decide, predict_count Faults.none store0 time0 1 1 10 account1 rfl rfl (by decide)
    (by decide)⟩

set_option maxRecDepth 100000 in
set_option exponentiation.threshold 3000 in
/-- C22, counterexample. In `store4` account 1 of user 1 holds 110 and the only
entry of the lookback is a DEPOSIT of 10, so `I = 10`, `E = 0` and
`110 + 3 * (I - E) / 30 = 111`; the third projection of `PredictBalance` is
`7810930603720703 * 2^-46` (110.99999999999999), which is below 111. -/
theorem predict_counterexample :
    (PredictBalance Faults.none store4 time0 1 1 3).toOption.map
        (fun ps => ps.map (fun p => p.Balance)) =
      some [F64.finite false 7764018107602261 (-46), F64.finite false 7787474355661482 (-46),
        F64.finite false 7810930603720703 (-46)] ∧
    store4.balance 1 = some (F64.finite false 7740561859543040 (-46)) ∧
    (F64.finite false 7740561859543040 (-46)).toRat = 110 ∧
    (TransactionRepository.GetUserTransactionsByPeriod Faults.none 1 store4 1
        (time0.AddDate 0 0 (-30)) time0).toOption.map
        (fun l => l.map (fun t => (t.Typ, F64.eq t.Amount (F64.ofNat 10)))) =
      some [(TransactionType.TransactionTypeDeposit, true)] ∧
    (F64.finite false 7810930603720703 (-46)).toRat < 110 + 3 * (10 - 0) / 30 ∧
    F64.lt (F64.finite false 7810930603720703 (-46))
      (F64.add (F64.ofNat 110)
        (F64.div (F64.mul (F64.ofNat 3) (F64.sub (F64.ofNat 10) F64.zero)) (F64.ofNat 30))) =
      true := by
  refine ⟨by decide, by decide, ?_, by decide, ?_, by decide⟩
  · simp only [F64.toRat]; norm_num
  · simp only [F64.toRat]; norm_num

/-- C22, amended. `PredictBalance` is the repeated float64 addition of one
daily change: with `I` the float64 sum of the DEPOSIT amounts and `E` the
float64 sum of the WITHDRAW and PAYMENT amounts among the entries returned for
the 30-day lookback, taken in the order returned (TRANSFER and CREDIT entries
contribute nothing), and `d = I / 30 - E / 30` in float64, the `k`-th
projection (`k = 1..h`) has the balance obtained from the current balance by
adding `d` `k` times in float64. When none of the `h` additions rounds, this is
exactly `current balance + k * d`. When the lookback holds no DEPOSIT, WITHDRAW
or PAYMENT entry, `d` is zero and every projection equals (`==`) the current
balance, whatever the horizon. -/
theorem predict_linear (f : Faults) (s : Store) (now : Time) (accountID userID days : Int)
    (account : Account) (hr0 : f.read 0 = false) (hr1 : f.read 1 = false)
    (hfind : s.accounts.find? (fun a => decide (a.ID = accountID)) = some account)
    (howner : account.UserID = userID) :
    ∃ transactions predictions,
      TransactionRepository.GetUserTransactionsByPeriod f 1 s userID
        (now.AddDate 0 0 (-30)) now = .ok transactions ∧
      PredictBalance f s now accountID userID days = .ok predictions ∧
      dailyChange transactions =
        F64.sub
          (F64.div
            ((transactions.filter (fun t =>
              decide (t.Typ = TransactionType.TransactionTypeDeposit))).foldl
                (fun acc t => F64.add acc t.Amount) F64.zero) (F64.ofNat 30))
          (F64.div
            ((transactions.filter (fun t =>
              decide (t.Typ = TransactionType.TransactionTypeWithdraw ∨
                t.Typ = TransactionType.TransactionTypePayment))).foldl
                (fun acc t => F64.add acc t.Amount) F64.zero) (F64.ofNat 30)) ∧
      (∀ (k : Nat) (p : BalancePrediction), predictions[k]? = some p →
        p.Balance = (fun x => F64.add x (dailyChange transactions))^[k + 1] account.Balance ∧
        (predictExact (dailyChange transactions) predictions.length account.Balance = true →
          p.Balance.toRat =
            account.Balance.toRat + ((k : ℚ) + 1) * (dailyChange transactions).toRat)) ∧
      ((∀ t ∈ transactions, t.Typ = TransactionType.TransactionTypeTransfer ∨
          t.Typ = TransactionType.TransactionTypeCredit) →
        account.Balance ≠ F64.nan → account.Balance.wf = true →
        ∀ p ∈ predictions, F64.eq p.Balance account.Balance = true) := by
  obtain ⟨transactions, hq, h⟩ :=
    predictBalance_run f s now accountID userID days account hr0 hr1 hfind howner
  refine ⟨transactions, _, hq, h, ?_, ?_, ?_⟩
  · unfold dailyChange
    rw [totals_eq_foldl]
  · intro k p hp
    have hb := predictLoop_getElem now _ _ 0 account.Balance k p hp
    refine ⟨hb, ?_⟩
    intro hex
    rw [predictLoop_length] at hex
    have hk : k + 1 ≤ (if days ≤ 0 ∨ days > 365 then 30 else days).toNat := by
      have := (List.getElem?_eq_some_iff.mp hp).1
      rw [predictLoop_length] at this
      omega
    rw [hb, iterate_add_exact _ _ _ hex (k + 1) hk]
    push_cast
    ring
  · intro hno hnan hwf p hp
    obtain ⟨k, hk⟩ := List.getElem?_of_mem hp
    rw [predictLoop_getElem now _ _ 0 account.Balance k p hk,
      dailyChange_of_no_activity transactions hno]
    exact iterate_add_zero account.Balance hnan hwf (k + 1)

set_option maxRecDepth 100000 in
set_option exponentiation.threshold 3000 in
/-- Witness for C22: in `store5` account 1 holds 130 after a DEPOSIT of 60 and
a WITHDRAW of 30, the daily change is 1 and the three projections are 131, 132
and 133; in `store0` the lookback is empty and the ten projections all equal
the balance 100 of account 1. -/
theorem predict_linear_witness :
    (PredictBalance Faults.none store5 time0 1 1 3).toOption.map
        (fun ps => ps.map (fun p => F64.eq p.Balance (F64.ofNat 131) ||
          F64.eq p.Balance (F64.ofNat 132) || F64.eq p.Balance (F64.ofNat 133))) =
      some [true, true, true] ∧
    (PredictBalance Faults.none store0 time0 1 1 10).toOption.map
        (fun ps => ps.map (fun p => F64.eq p.Balance (F64.ofNat 100))) =
      some (List.replicate 10 true) ∧
    ∃ transactions predictions,
      TransactionRepository.GetUserTransactionsByPeriod Faults.none 1 store0 1
        (time0.AddDate 0 0 (-30)) time0 = .ok transactions ∧
      PredictBalance Faults.none store0 time0 1 1 10 = .ok predictions ∧
      ∀ p ∈ predictions, F64.eq p.Balance account1.Balance = true := by
  refine ⟨by decide, by decide, ?_⟩
  obtain ⟨transactions, predictions, hq, hp, -, -, hz⟩ :=
    predict_linear Faults.none store0 time0 1 1 10 account1 rfl rfl (by decide) (by decide)
  refine ⟨transactions, predictions, hq, hp, hz ?_ (by decide) (by decide)⟩
  have : transactions = [] := by
    have h0 : TransactionRepository.GetUserTransactionsByPeriod Faults.none 1 store0 1
        (time0.AddDate 0 0 (-30)) time0 = .ok [] := rfl
    rw [h0] at hq
    exact (Except.ok.inj hq).symm
  rw [this]
  intro t ht
  cases ht

/-! ## Credit queries -/

/-- C23. `creditService.GetByID` and `GetSchedule` return `ErrCreditNotFound`
when the credit does not exist and `ErrCreditAccessDenied` when its owner is
not the caller. Otherwise `GetByID` returns the projection of the credit and
`GetSchedule`, when its second read succeeds, one projected installment for
each installment the store returns for the credit, in the order returned, with
the same due date, amount, principal, interest, remaining debt, status and
paid date. The projections do not depend on the user id and account id of the
credit nor on the id and parent id of an installment: the response types have
no such fields. In every case the store is left as it was. -/
theorem credit_queries (f : Faults) (s : Store) (id userID : Int) (hr0 : f.read 0 = false) :
    (s.credits.find? (fun c => decide (c.ID = id)) = none →
      GetByID f s id userID = (.error Err.ErrCreditNotFound, s) ∧
      GetSchedule f s id userID = (.error Err.ErrCreditNotFound, s)) ∧
    (∀ credit, s.credits.find? (fun c => decide (c.ID = id)) = some credit →
      credit.UserID ≠ userID →
      GetByID f s id userID = (.error Err.ErrCreditAccessDenied, s) ∧
      GetSchedule f s id userID = (.error Err.ErrCreditAccessDenied, s)) ∧
    (∀ credit, s.credits.find? (fun c => decide (c.ID = id)) = some credit →
      credit.UserID = userID →
      GetByID f s id userID = (.ok (ToCreditResponse credit), s) ∧
      (f.read 1 = false →
        ∃ schedules, PaymentRepository.GetByCreditID f 1 s id = .ok schedules ∧
          GetSchedule f s id userID = (.ok (schedules.map ToPaymentScheduleResponse), s) ∧
          ∀ (k : Nat) (p : PaymentSchedule), schedules[k]? = some p →
            ∃ r, (schedules.map ToPaymentScheduleResponse)[k]? = some r ∧
              r.PaymentDate = p.PaymentDate ∧ r.Amount = p.Amount ∧
              r.Principal = p.Principal ∧ r.Interest = p.Interest ∧
              r.RemainingDebt = p.RemainingDebt ∧ r.Status = p.Status ∧
              r.PaidDate = p.PaidDate)) ∧
    (∀ (credit : Credit) (u a : Int),
      ToCreditResponse { credit with UserID := u, AccountID := a } = ToCreditResponse credit) ∧
    (∀ (p : PaymentSchedule) (i c : Int),
      ToPaymentScheduleResponse { p with ID := i, CreditID := c } =
        ToPaymentScheduleResponse p) ∧
    (GetByID f s id userID).2 = s ∧ (GetSchedule f s id userID).2 = s := by
  refine ⟨?_, ?_, ?_, fun _ _ _ => rfl, fun _ _ _ => rfl, ?_, ?_⟩
  · intro hn
    simp [GetByID, GetSchedule, CreditRepository.GetByID, hr0, hn]
  · intro credit hc hu
    simp [GetByID, GetSchedule, CreditRepository.GetByID, hr0, hc, hu]
  · intro credit hc hu
    refine ⟨by simp [GetByID, CreditRepository.GetByID, hr0, hc, hu], ?_⟩
    intro hr1
    have hq : PaymentRepository.GetByCreditID f 1 s id =
        .ok ((s.payments.filter (fun p => decide (p.CreditID = id))).insertionSort
          (fun p q => Time.le p.PaymentDate q.PaymentDate = true)) := by
      simp [PaymentRepository.GetByCreditID, hr1]
    refine ⟨_, hq, ?_, ?_⟩
    · simp [GetSchedule, CreditRepository.GetByID, hr0, hc, hu,
        PaymentRepository.GetByCreditID, hr1]
    · intro k p hk
      refine ⟨ToPaymentScheduleResponse p, ?_, rfl, rfl, rfl, rfl, rfl, rfl, rfl⟩
      rw [List.getElem?_map, hk]
      rfl
  · unfold GetByID
    split
    · rfl
    · split <;> rfl
  · unfold GetSchedule
    split
    · rfl
    · split
      · rfl
      · split <;> rfl

set_option maxRecDepth 100000 in
set_option exponentiation.threshold 3000 in
/-- Witness for C23 on `store1`, which holds `credit0` of user 1 with its four
installments: user 1 reads the credit and the schedule, user 2 is denied, and
credit 9 is not found. -/
theorem credit_queries_witness :
    GetByID Faults.none store1 1 1 = (.ok (ToCreditResponse credit0), store1) ∧
    (GetSchedule Faults.none store1 1 1).1.toOption.map (fun l => l.map (fun r =>
        (r.PaymentDate.month, r.PaymentDate.day, r.Status))) =
      some [(3, 2, PaymentStatus.PaymentStatusPending), (3, 31, PaymentStatus.PaymentStatusPending),
        (5, 1, PaymentStatus.PaymentStatusPending), (5, 31, PaymentStatus.PaymentStatusPending)] ∧
    GetByID Faults.none store1 1 2 = (.error Err.ErrCreditAccessDenied, store1) ∧
    GetSchedule Faults.none store1 1 2 = (.error Err.ErrCreditAccessDenied, store1) ∧
    GetByID Faults.none store1 9 1 = (.error Err.ErrCreditNotFound, store1) ∧
    GetSchedule Faults.none store1 9 1 = (.error Err.ErrCreditNotFound, store1) :=
  ⟨((credit_queries Faults.none store1 1 1 rfl).2.2.1 credit0 (by decide) (by decide)).1,
    by decide,
    ((credit_queries Faults.none store1 1 2 rfl).2.1 credit0 (by decide) (by decide)).1,
    ((credit_queries Faults.none store1 1 2 rfl).2.1 credit0 (by decide) (by decide)).2,
    ((credit_queries Faults.none store1 9 1 rfl).1 (by decide)).1,
    ((credit_queries Faults.none store1 9 1 rfl).1 (by decide)).2⟩

/-! ## Concurrent requests -/

set_option maxRecDepth 100000 in
set_option exponentiation.threshold 3000 in
/-- C24, evaluation of the code at the failing input. User 1 deposits 50 on
account 1 of `store0` (balance 100) and withdraws 50 from it. Run one after
the other, the two requests leave the balance 100. When both requests read the
account before either unit of work runs, both return no error and both ledger
entries are written, but the unit of work that runs last overwrites the
balance of the other: the final balance is 50 when the withdrawal writes last
and 150 when the deposit writes last. -/
theorem concurrent_lost_update :
    (interleave time0 { AccountID := 1, Amount := F64.ofNat 50 }
        { AccountID := 1, Amount := F64.ofNat 50 } 1 [true, true, false, false]
        (Progress.start, Progress.start, store0)).2.2.balance 1 = some (F64.ofNat 100) ∧
    (interleave time0 { AccountID := 1, Amount := F64.ofNat 50 }
        { AccountID := 1, Amount := F64.ofNat 50 } 1 [true, false, true, false]
        (Progress.start, Progress.start, store0)).1 = Progress.returned none ∧
    (interleave time0 { AccountID := 1, Amount := F64.ofNat 50 }
        { AccountID := 1, Amount := F64.ofNat 50 } 1 [true, false, true, false]
        (Progress.start, Progress.start, store0)).2.1 = Progress.returned none ∧
    (interleave time0 { AccountID := 1, Amount := F64.ofNat 50 }
        { AccountID := 1, Amount := F64.ofNat 50 } 1 [true, false, true, false]
        (Progress.start, Progress.start, store0)).2.2.balance 1 = some (F64.ofNat 50) ∧
    ((interleave time0 { AccountID := 1, Amount := F64.ofNat 50 }
        { AccountID := 1, Amount := F64.ofNat 50 } 1 [true, false, true, false]
        (Progress.start, Progress.start, store0)).2.2.transactions.map (fun t => t.Typ)) =
      [TransactionType.TransactionTypeDeposit, TransactionType.TransactionTypeWithdraw] ∧
    (interleave time0 { AccountID := 1, Amount := F64.ofNat 50 }
        { AccountID := 1, Amount := F64.ofNat 50 } 1 [true, false, false, true]
        (Progress.start, Progress.start, store0)).1 = Progress.returned none ∧
    (interleave time0 { AccountID := 1, Amount := F64.ofNat 50 }
        { AccountID := 1, Amount := F64.ofNat 50 } 1 [true, false, false, true]
        (Progress.start, Progress.start, store0)).2.1 = Progress.returned none ∧
    (interleave time0 { AccountID := 1, Amount := F64.ofNat 50 }
        { AccountID := 1, Amount := F64.ofNat 50 } 1 [true, false, false, true]
        (Progress.start, Progress.start, store0)).2.2.balance 1 = some (F64.ofNat 150) := by
  decide

/-! ## Card numbers -/

/-- C25, evaluation of the code at the failing input. With the empty prefix
(standing for "4") and every random digit 0, `GenerateCardNumber` returns
"4000000000000006", and `ValidateLuhn` rejects it: the loop that computes the
check digit starts at the last of the 15 digits without doubling it, so once
the check digit is appended every digit has the wrong parity. The same happens
with the prefix "4000" and with the prefix "400000000000000" of 15 digits. The
valid number with these 15 digits is "4000000000000002". -/
theorem generated_number_fails_luhn :
    utils.GenerateCardNumber randZero [] = ascii "4000000000000006" ∧
    utils.ValidateLuhn (utils.GenerateCardNumber randZero []) = false ∧
    utils.GenerateCardNumber randZero (ascii "4000") = ascii "4000000000000006" ∧
    utils.ValidateLuhn (utils.GenerateCardNumber randZero (ascii "4000")) = false ∧
    utils.GenerateCardNumber randZero (ascii "400000000000000") = ascii "4000000000000006" ∧
    utils.ValidateLuhn (ascii "4000000000000002") = true := by
  decide

/-- C26. `MaskCardNumber` shows only the last four bytes of a card number: for
a string of at least 4 bytes it returns "****" followed by the last 4 bytes of
the input, 8 bytes in all; for a shorter string it returns "****"; the result
never has more than 8 bytes, and it is the same for two inputs with the same
last four bytes, whatever precedes them. -/
theorem mask_card_number (number : List Nat) :
    (4 ≤ number.length →
      MaskCardNumber number = ascii "****" ++ number.drop (number.length - 4) ∧
      (number.drop (number.length - 4)).length = 4 ∧
      (MaskCardNumber number).length = 8) ∧
    (number.length < 4 → MaskCardNumber number = ascii "****") ∧
    (MaskCardNumber number).length ≤ 8 ∧
    (∀ (before other last : List Nat), last.length = 4 →
      MaskCardNumber (before ++ last) = ascii "****" ++ last ∧
      MaskCardNumber (before ++ last) = MaskCardNumber (other ++ last)) := by
  have hstars : (ascii "****").length = 4 := rfl
  have hmask : ∀ (before last : List Nat), last.length = 4 →
      MaskCardNumber (before ++ last) = ascii "****" ++ last := by
    intro before last hl
    unfold MaskCardNumber
    rw [if_neg (by simp [hl])]
    congr 1
    rw [List.length_append, hl, Nat.add_sub_cancel, List.drop_left]
  refine ⟨?_, ?_, ?_, ?_⟩
  · intro h
    have h1 : MaskCardNumber number = ascii "****" ++ number.drop (number.length - 4) := by
      unfold MaskCardNumber
      rw [if_neg (by omega)]
    have h2 : (number.drop (number.length - 4)).length = 4 := by
      rw [List.length_drop]; omega
    refine ⟨h1, h2, ?_⟩
    rw [h1, List.length_append, h2, hstars]
  · intro h
    unfold MaskCardNumber
    rw [if_pos h]
  · unfold MaskCardNumber
    split_ifs with h
    · rw [hstars]; omega
    · rw [List.length_append, List.length_drop, hstars]; omega
  · intro before other last hl
    exact ⟨hmask before last hl, by rw [hmask before last hl, hmask other last hl]⟩

/-- Witness for C26: the masks of "4539578763621486", of "1486" and of "486". -/
theorem mask_card_number_witness :
    MaskCardNumber (ascii "4539578763621486") = ascii "****1486" ∧
    MaskCardNumber (ascii "1486") = ascii "****1486" ∧
    MaskCardNumber (ascii "486") = ascii "****" :=
  ⟨((mask_card_number (ascii "4539578763621486")).2.2.2 (ascii "453957876362") []
      (ascii "1486") rfl).1,
    by decide, by decide⟩

/-! ## Handlers -/

set_option maxRecDepth 100000 in
set_option exponentiation.threshold 3000 in
/-- C27, evaluation of the code at the failing input. On `store0` account 1 of
user 1 holds 100. A withdrawal of 500, a transfer of 500 to account 2 and a
payment of 500 with card 1 all fail with the sentinel of package `models`
(returned by `CanWithdraw` and passed on unchanged), which is not the sentinel
`ErrInsufficientFunds` of package `service` that the handlers compare against;
the three handlers therefore answer with status 500 and their default message,
not with 400 "Insufficient funds". -/
theorem insufficient_funds_answered_500 :
    (Withdraw Faults.none store0 time0 { AccountID := 1, Amount := F64.ofNat 500 } 1).1 =
      some Err.modelsErrInsufficientFunds ∧
    Err.modelsErrInsufficientFunds ≠ Err.ErrInsufficientFunds ∧
    Handler.WithdrawFromAccount Faults.none store0 time0
        { AccountID := 1, Amount := F64.ofNat 500 } 1 = ((500, "Failed to withdraw"), store0) ∧
    (Transfer Faults.none store0 time0
        { FromAccountID := 1, ToAccountID := 2, Amount := F64.ofNat 500 } 1).1 =
      some Err.modelsErrInsufficientFunds ∧
    Handler.TransferFunds Faults.none store0 time0
        { FromAccountID := 1, ToAccountID := 2, Amount := F64.ofNat 500 } 1 =
      ((500, "Failed to transfer"), store0) ∧
    (ProcessPayment Faults.none store0 { CardID := 1, Amount := F64.ofNat 500 } 1).1 =
      some Err.modelsErrInsufficientFunds ∧
    Handler.ProcessCardPayment Faults.none store0 { CardID := 1, Amount := F64.ofNat 500 } 1 =
      ((500, "Failed to process payment"), store0) := by
  decide

/-- C28, evaluation of the code at the failing input. When `rand.Intn(2)`
gives 0 and the fifteen calls of `rand.Intn(10)` give fourteen times 0 and then
1, the digits are "4000000000000001" with checksum 9; the correction replaces
the last digit by `(10 - 9) % 10 = 1`, which is the digit already there, so
`generateCardNumber` returns "4000000000000001", whose checksum is still 9 and
which `ValidateLuhn` rejects. The correction does not take out the last digit
it replaces: it gives a valid number only when that digit was 0. -/
theorem service_number_fails_luhn :
    cardService.generateCardNumber randLastOne = ascii "4000000000000001" ∧
    cardService.luhnLoop (ascii "4000000000000001").reverse 1 0 = 9 ∧
    utils.ValidateLuhn (cardService.generateCardNumber randLastOne) = false ∧
    utils.ValidateLuhn (ascii "4000000000000002") = true := by
  decide

/-! ## Non-negative balances -/

set_option maxRecDepth 100000 in
set_option exponentiation.threshold 3000 in
/-- Remark. The service methods compare amounts with `<=` and `<` only, which
are false for NaN: a `Deposit` or a `Withdraw` whose amount is NaN would pass
the checks and store the balance NaN. No request carries such an amount: the
handlers decode amounts with `encoding/json`, whose numbers are finite. -/
theorem nan_amount_passes_checks :
    store0.nonneg = true ∧
    (Deposit Faults.none store0 time0 { AccountID := 1, Amount := F64.nan } 1).1 = none ∧
    (Deposit Faults.none store0 time0 { AccountID := 1, Amount := F64.nan } 1).2.balance 1 =
      some F64.nan ∧
    F64.le F64.zero F64.nan = false ∧
    (Deposit Faults.none store0 time0 { AccountID := 1, Amount := F64.nan } 1).2.nonneg = false ∧
    (Withdraw Faults.none store0 time0 { AccountID := 1, Amount := F64.nan } 1).1 = none ∧
    (Withdraw Faults.none store0 time0 { AccountID := 1, Amount := F64.nan } 1).2.nonneg =
      false := by
  decide

/-- C29. Non-negative balances are an invariant of the ledger: if every
account balance is `>= 0`, then after any single `Deposit`, `Withdraw`,
`Transfer`, card `ProcessPayment` or `Apply`, and after any run of
`ProcessPendingPayments` (successful or failed, whatever store calls fail,
with any number of due installments processed one after the other), every
account balance is still `>= 0`. The amounts are those the service can
receive: the amount of a request is a finite float64 value, as every number
decoded by `encoding/json` is, and so are the amounts of the stored
installments the sweep debits. -/
theorem balances_stay_nonneg (s : Store) (hs : s.nonneg = true) :
    (∀ (f : Faults) (now : Time) (request : DepositRequest) (userID : Int),
      request.Amount.isFinite = true → (Deposit f s now request userID).2.nonneg = true) ∧
    (∀ (f : Faults) (now : Time) (request : WithdrawRequest) (userID : Int),
      request.Amount.isFinite = true → (Withdraw f s now request userID).2.nonneg = true) ∧
    (∀ (f : Faults) (now : Time) (request : TransferRequest) (userID : Int),
      request.Amount.isFinite = true → (Transfer f s now request userID).2.nonneg = true) ∧
    (∀ (f : Faults) (request : CardPaymentRequest) (userID : Int),
      request.Amount.isFinite = true → (ProcessPayment f s request userID).2.nonneg = true) ∧
    (∀ (f : Faults) (now : Time) (keyRate : Except Err F64) (userID : Int)
        (application : CreditApplication),
      application.Amount.isFinite = true →
      (Apply f s now keyRate userID application).2.nonneg = true) ∧
    (∀ (f0 : Faults) (fs : Nat → Faults) (now : Time),
      (∀ p ∈ s.payments, p.Amount.isFinite = true) →
      (ProcessPendingPayments f0 fs s now).2.nonneg = true) := by
  have hs1 := (Store.nonneg_iff s).mp hs
  refine ⟨?_, ?_, ?_, ?_, ?_, ?_⟩
  · intro f now request userID hfin
    cases h : (Deposit f s now request userID).1 with
    | none =>
      obtain ⟨account, hfind, -, hle, hs2⟩ := deposit_ok f s now request userID _ (Prod.ext h rfl)
      rw [Store.nonneg_iff]
      have := congrArg Store.accounts hs2
      simp only at this
      rw [this]
      exact setBalance_nonneg _ _ _ hs1 (F64.zero_le_add _ _ (hs1 _ (mem_of_find hfind))
        (F64.zero_le_of_not_le _ hfin hle))
    | some e =>
      have := deposit_fail f s now request userID (by rw [h]; simp)
      rw [this]; exact hs
  · intro f now request userID hfin
    cases h : (Withdraw f s now request userID).1 with
    | none =>
      obtain ⟨account, hfind, -, hle, hlt, hs2⟩ :=
        withdraw_ok f s now request userID _ (Prod.ext h rfl)
      rw [Store.nonneg_iff]
      have := congrArg Store.accounts hs2
      simp only at this
      rw [this]
      exact setBalance_nonneg _ _ _ hs1 (F64.zero_le_sub _ _
        (F64.le_of_not_lt _ _ hfin (hs1 _ (mem_of_find hfind)) hlt) hfin)
    | some e =>
      have := withdraw_fail f s now request userID (by rw [h]; simp)
      rw [this]; exact hs
  · intro f now request userID hfin
    cases h : (Transfer f s now request userID).1 with
    | none =>
      obtain ⟨source, destination, hfs, hfd, -, -, hle, hlt, hs2⟩ :=
        transfer_ok f s now request userID _ (Prod.ext h rfl)
      rw [Store.nonneg_iff]
      have := congrArg Store.accounts hs2
      simp only at this
      rw [this]
      refine setBalance_nonneg _ _ _ (setBalance_nonneg _ _ _ hs1 ?_) ?_
      · exact F64.zero_le_sub _ _
          (F64.le_of_not_lt _ _ hfin (hs1 _ (mem_of_find hfs)) hlt) hfin
      · exact F64.zero_le_add _ _ (hs1 _ (mem_of_find hfd)) (F64.zero_le_of_not_le _ hfin hle)
    | some e =>
      have := transfer_fail f s now request userID (by rw [h]; simp)
      rw [this]; exact hs
  · intro f request userID hfin
    cases h : (ProcessPayment f s request userID).1 with
    | none =>
      obtain ⟨card, account, -, -, -, hfind, hle, hlt, hs2⟩ :=
        processPayment_ok f s request userID _ (Prod.ext h rfl)
      rw [Store.nonneg_iff]
      have := congrArg Store.accounts hs2
      simp only at this
      rw [this]
      exact setBalance_nonneg _ _ _ hs1 (F64.zero_le_sub _ _
        (F64.le_of_not_lt _ _ hfin (hs1 _ (mem_of_find hfind)) hlt) hfin)
    | some e =>
      have := processPayment_fail f s request userID (by rw [h]; simp)
      rw [this]; exact hs
  · intro f now keyRate userID application hfin
    cases h : (Apply f s now keyRate userID application).1 with
    | ok r =>
      obtain ⟨account, hfind, -, hle, -, -, -, hs2⟩ :=
        apply_ok f s now keyRate userID application r _ (Prod.ext h rfl)
      rw [Store.nonneg_iff]
      have := congrArg Store.accounts hs2
      simp only at this
      rw [this]
      exact setBalance_nonneg _ _ _ hs1 (F64.zero_le_add _ _ (hs1 _ (mem_of_find hfind))
        (F64.zero_le_of_not_le _ hfin hle))
    | error e =>
      have := apply_fail f s now keyRate userID application e h
      rw [this]; exact hs
  · intro f0 fs now hp
    exact processPendingPayments_nonneg f0 fs s now hs hp

set_option maxRecDepth 100000 in
set_option exponentiation.threshold 3000 in
/-- Witness for C29: `store2` (account 1 holds 100, the first installment of
`credit0` is due) has only balances `>= 0`, and so has the store after the
sweep of 2024-03-15 and the store after a withdrawal of 100. -/
theorem balances_stay_nonneg_witness :
    store2.nonneg = true ∧
    (ProcessPendingPayments Faults.none (fun _ => Faults.none) store2 time1).2.nonneg = true ∧
    (Withdraw Faults.none store2 time1 { AccountID := 1, Amount := F64.ofNat 100 } 1).2.nonneg =
      true ∧
    (Withdraw Faults.none store2 time1 { AccountID := 1, Amount := F64.ofNat 100 } 1).2.balance 1 =
      some F64.zero :=
  ⟨by decide,
    (balances_stay_nonneg store2 (by decide)).2.2.2.2.2 Faults.none (fun _ => Faults.none) time1
      (by decide),
    (balances_stay_nonneg store2 (by decide)).2.1 Faults.none time1
      { AccountID := 1, Amount := F64.ofNat 100 } 1 (by decide),
    by decide⟩

/-! ## The schedule in exact arithmetic -/

/-- C30. In exact (rational) arithmetic the annuity payment amortizes the loan
fully: for every amount `> 0`, annual interest rate `> 0` and term `n >= 1`,
when the monthly payment is the value `Apply` computes, the debt that
`generatePaymentSchedule` reaches after `n` installments is zero before the
adjustment of the final installment, so the schedule is the same with and
without that adjustment; it has `n` installments, every installment, the last
included, has the monthly payment as amount and satisfies principal + interest
= amount, every principal component is positive, the remaining debt is
strictly decreasing from the amount of the credit, and it is zero after the
last installment. -/
theorem exact_amortization (amount interestRate : ℚ) (term : Int)
    (ha : 0 < amount) (hr : 0 < interestRate) (ht : 1 ≤ term) :
    (exactDebtStep (exactMonthlyPayment amount interestRate term)
      (interestRate / 100 / 12))^[term.toNat] amount = 0 ∧
    exactSchedule amount interestRate (exactMonthlyPayment amount interestRate term) term true =
      exactSchedule amount interestRate (exactMonthlyPayment amount interestRate term) term
        false ∧
    ((exactSchedule amount interestRate (exactMonthlyPayment amount interestRate term) term
      true).length : Int) = term ∧
    (∀ (k : Nat) (p : ExactInstallment),
      (exactSchedule amount interestRate (exactMonthlyPayment amount interestRate term) term
        true)[k]? = some p →
      p.Amount = exactMonthlyPayment amount interestRate term ∧
      p.Principal + p.Interest = p.Amount ∧ 0 < p.Principal ∧
      (k = 0 → p.RemainingDebt < amount) ∧
      ((k : Int) + 1 = term → p.RemainingDebt = 0) ∧
      ∀ q, (exactSchedule amount interestRate (exactMonthlyPayment amount interestRate term)
          term true)[k + 1]? = some q → q.RemainingDebt < p.RemainingDebt) := by
  have hr' : 0 < interestRate / 100 / 12 := by positivity
  have hn : 1 ≤ term.toNat := by omega
  generalize hrdef : interestRate / 100 / 12 = r at hr'
  have hM : exactMonthlyPayment amount interestRate term =
      amount * r * (1 + r) ^ term.toNat / ((1 + r) ^ term.toNat - 1) := by
    unfold exactMonthlyPayment
    rw [hrdef]
  have h1 : (1 : ℚ) < (1 + r) ^ term.toNat := one_lt_pow₀ (by linarith) (by omega)
  have hD : 0 < (1 + r) ^ term.toNat - 1 := by linarith
  have hclosed := exactDebt_closed amount r term.toNat hr' hn
  have hz : (exactDebtStep (exactMonthlyPayment amount interestRate term) r)^[term.toNat]
      amount = 0 := by
    rw [hM, hclosed]
    simp
  have hadj : exactSchedule amount interestRate (exactMonthlyPayment amount interestRate term)
      term true =
      exactSchedule amount interestRate (exactMonthlyPayment amount interestRate term) term
        false := by
    unfold exactSchedule
    rw [hrdef]
    exact exactScheduleLoop_adjust term _ r amount hz term.toNat 0 (by omega) ht
  have hprin : ∀ j : Nat, 0 < exactMonthlyPayment amount interestRate term -
      (exactDebtStep (exactMonthlyPayment amount interestRate term) r)^[j] amount * r := by
    intro j
    rw [hM, hclosed]
    have : amount * r * (1 + r) ^ term.toNat / ((1 + r) ^ term.toNat - 1) -
        amount * ((1 + r) ^ term.toNat - (1 + r) ^ j) / ((1 + r) ^ term.toNat - 1) * r =
        amount * r * (1 + r) ^ j / ((1 + r) ^ term.toNat - 1) := by
      field_simp
      ring
    rw [this]
    have hp : (0 : ℚ) < (1 + r) ^ j := by positivity
    positivity
  have hrow : ∀ (k : Nat) (p : ExactInstallment),
      (exactSchedule amount interestRate (exactMonthlyPayment amount interestRate term) term
        true)[k]? = some p →
      p.Amount = exactMonthlyPayment amount interestRate term ∧
      p.Interest = (exactDebtStep (exactMonthlyPayment amount interestRate term) r)^[k]
        amount * r ∧
      p.Principal = exactMonthlyPayment amount interestRate term -
        (exactDebtStep (exactMonthlyPayment amount interestRate term) r)^[k] amount * r ∧
      p.RemainingDebt =
        (exactDebtStep (exactMonthlyPayment amount interestRate term) r)^[k + 1] amount := by
    intro k p hp
    rw [hadj] at hp
    unfold exactSchedule at hp
    rw [hrdef] at hp
    exact exactScheduleLoop_getElem term _ r _ 0 amount k p hp
  have hdec : ∀ j : Nat,
      (exactDebtStep (exactMonthlyPayment amount interestRate term) r)^[j + 1] amount <
        (exactDebtStep (exactMonthlyPayment amount interestRate term) r)^[j] amount := by
    intro j
    rw [Function.iterate_succ_apply']
    have := hprin j
    generalize (exactDebtStep (exactMonthlyPayment amount interestRate term) r)^[j] amount = x
      at this ⊢
    simp only [exactDebtStep]
    linarith
  refine ⟨hz, hadj, ?_, ?_⟩
  · unfold exactSchedule
    rw [exactScheduleLoop_length]
    omega
  · intro k p hp
    obtain ⟨h1, h2, h3, h4⟩ := hrow k p hp
    refine ⟨h1, by rw [h1, h2, h3]; ring, by rw [h3]; exact hprin k, ?_, ?_, ?_⟩
    · intro hk
      subst hk
      rw [h4]
      exact hdec 0
    · intro hk
      have : k + 1 = term.toNat := by omega
      rw [h4, this, hz]
    · intro q hq
      obtain ⟨-, -, -, h5⟩ := hrow (k + 1) q hq
      rw [h4, h5]
      exact hdec (k + 1)

/-- Witness for C30: 8 over 3 months at a monthly rate of one half (600 per
cent a year) has the exact monthly payment 108/19 and the remaining debts
120/19, 72/19 and 0. -/
theorem exact_amortization_witness :
    exactMonthlyPayment 8 600 3 = 108 / 19 ∧
    (exactSchedule 8 600 (exactMonthlyPayment 8 600 3) 3 true).map
      (fun p => p.RemainingDebt) = [120 / 19, 72 / 19, 0] ∧
    exactSchedule 8 600 (exactMonthlyPayment 8 600 3) 3 true =
      exactSchedule 8 600 (exactMonthlyPayment 8 600 3) 3 false := by
  have h3 : Int.toNat 3 = 3 := rfl
  refine ⟨?_, ?_, (exact_amortization 8 600 3 (by norm_num) (by norm_num) (by norm_num)).2.1⟩
  · norm_num [exactMonthlyPayment, h3]
  · norm_num [exactSchedule, exactScheduleLoop, exactMonthlyPayment, h3]

end BankService
